import Mathlib

/-!
The xv6 copy-on-write and swap subsystem: frame allocator, swap store and fault handler.

A shallow embedding of `kalloc.c` and `pageswap.c`.

Modelling conventions.

* Machine words are natural numbers; `uint` arithmetic is taken modulo `2^32`
  explicitly, `int` fields (`rmap`, `refcount`, `free_int`) are integers.
* Data frames are byte memory `mem`, addressed by kernel virtual address.  The
  free list is intrusive, as in the source: the first word of a free frame is
  the `next` pointer (little endian).
* Page-table and page-directory words live in their own store `ptes`, keyed by
  the address of the word (`pte_t *`).  Data frames and page-table words are
  therefore separate stores.
* Spinlocks are not modelled: execution is sequential, every `acquire` is
  matched by a `release` in the same function, and no lock is taken twice.
* `panic` is the result `Res.panic`; the recursion of `kalloc` is bounded by a
  fuel argument and running out of fuel is the separate result `Res.outOfFuel`.
  For the claims about the state a panic leaves behind, `kfree`, the fault
  handler and their callees are embedded a second time (`kfree_exec`,
  `handle_page_write_off_exec`, ...) with results in `Exec`, where a panic
  carries the machine state at the call of `panic`; forgetting that state gives
  back the first embedding.
* Constants of `param.h`, `memlayout.h` and the linker script are fields of
  `Config`; the process-table collaborators are fields of `Collab`.
-/

namespace Xv6Cow

/-! ## Constants -/

/-- Constants declared outside the two source files (`memlayout.h`, `param.h`,
the linker symbol `end`). -/
structure Config where
  KERNBASE : Nat
  PHYSTOP : Nat
  kend : Nat
  NPROC : Nat
  SWAPBLOCKS : Nat
  ROOTDEV : Nat

/-- Two to the 32: the modulus of `uint` arithmetic. -/
def U32 : Nat := 4294967296

def PGSIZE : Nat := 4096
def PTXSHIFT : Nat := 12
def PDXSHIFT : Nat := 22
def PTE_P : Nat := 1
def PTE_W : Nat := 2
def PTE_U : Nat := 4
/-- The kernel-reserved marker `0x008` of a swapped-out page-table entry. -/
def PTE_SWAPPED : Nat := 8
/-- Bytes per disk sector; a swap slot is 8 sectors, one page. -/
def BSIZE : Nat := 512

/-- The macro `PTE_ADDR(pte)`, that is `pte & ~0xFFF`. -/
def PTE_ADDR (pte : Nat) : Nat := pte &&& 0xFFFFF000
/-- The macro `PTE_FLAGS(pte)`, that is `pte & 0xFFF`. -/
def PTE_FLAGS (pte : Nat) : Nat := pte &&& 0xFFF
/-- The macro `PDX(va)`. -/
def PDX (va : Nat) : Nat := (va >>> PDXSHIFT) &&& 0x3FF
/-- The macro `PTX(va)`. -/
def PTX (va : Nat) : Nat := (va >>> PTXSHIFT) &&& 0x3FF
/-- The macro `PGROUNDUP(sz)` on `uint`. -/
def PGROUNDUP (sz : Nat) : Nat := ((sz + PGSIZE - 1) % U32) &&& 0xFFFFF000

/-- The macro `V2P(a)`, that is `(uint) a - KERNBASE`. -/
def V2P (c : Config) (a : Nat) : Nat := (a % U32 + U32 - c.KERNBASE % U32) % U32
/-- The macro `P2V(a)`, that is `a + KERNBASE`. -/
def P2V (c : Config) (a : Nat) : Nat := (a + c.KERNBASE) % U32

/-- Subtraction `a - b` on `uint`. -/
def sub32 (a b : Nat) : Nat :=
  if b % U32 ≤ a % U32 then a % U32 - b % U32 else a % U32 + U32 - b % U32

/-- Decrement `n - 1` on `uint`: zero wraps to `0xFFFFFFFF`. -/
def dec32 (n : Nat) : Nat := if n % U32 = 0 then 4294967295 else n % U32 - 1

/-- Conversion `int` to `uint`. -/
def toU32 (x : Int) : Nat := (x % 4294967296).toNat
/-- Conversion `uint` to `int`. -/
def toI32 (n : Nat) : Int :=
  if n % U32 < 2147483648 then ((n % U32 : Nat) : Int) else ((n % U32 : Nat) : Int) - 4294967296
/-- Wrap-around of `int` arithmetic. -/
def wrapI32 (x : Int) : Int := toI32 (toU32 x)

/-! ## Results -/

/-- The `panic` call sites of the two files. -/
inductive Panic where
  | kfree
  | rmap_value_no_lock
  | get_memshared_pte
  | rmap_value
  | inc_rmap_value
  | dec_rmap_value
  | swap_out_nothing_found
  | no_free_slots_found
  | write_bit_already_on
  | incorrect_reference_count
  | mem_zero
  | no_swap_out_bit
  deriving DecidableEq, Repr

/-- Outcome of a kernel routine: a value, a panic, or exhausted recursion fuel. -/
inductive Res (α : Type) where
  | ok : α → Res α
  | panic : Panic → Res α
  | outOfFuel : Res α

/-- Sequencing of kernel routines: a panic stops the computation. -/
def Res.bind {α β : Type} (x : Res α) (f : α → Res β) : Res β :=
  match x with
  | .ok a => f a
  | .panic p => .panic p
  | .outOfFuel => .outOfFuel

instance : Monad Res where
  pure := Res.ok
  bind := Res.bind

/-- The routine returned normally. -/
def Res.isOk {α : Type} : Res α → Bool
  | .ok _ => true
  | _ => false

/-- The routine panicked. -/
def Res.isPanic {α : Type} : Res α → Bool
  | .panic _ => true
  | _ => false

/-! ## State -/

/-- Calls to routines outside the two files, in program order. -/
inductive Event where
  | get_victim_proc
  | page_to_disk (dev va sector : Nat)
  | disk_to_page (dev va sector : Nat)
  | lcr3 (pa : Nat)
  deriving DecidableEq, Repr

/-- One `struct swap_slot`.  `page_perm` is kept as its 32-bit pattern. -/
structure SwapSlot where
  page_perm : Nat
  free_int : Int
  shared_ptes : Nat → Nat
  refcount : Int

/-- The state touched by the two files: `kmem`, `swapblock`, data memory, the
page-table words, the disk, and the few process fields that are read or written. -/
structure State where
  use_lock : Int
  num_free_pages : Nat
  freelist : Nat
  rmap : Nat → Int
  shared_ptes : Nat → Nat → Nat
  swapblock : Nat → SwapSlot
  mem : Nat → Nat
  ptes : Nat → Nat
  disk : Nat → Nat → Nat
  rss : Nat → Int
  pgdir : Nat → Nat
  cur : Nat
  cr2 : Nat
  cr3 : Nat
  trace : List Event

/-- The page-replacement collaborators of `proc.c`: victim process, victim
page (a `pte_t *`, null when none is found), and clearing of access bits. -/
structure Collab where
  get_victim_proc : State → Nat
  get_victim_page : State → Nat → Nat
  clear_proc_access : State → Nat → State

/-! ## Memory primitives -/

/-- Modelled from the spec: `memset(dst, c, n)` fills `n` bytes. -/
def memset (m : Nat → Nat) (dst c n : Nat) : Nat → Nat :=
  fun a => if dst ≤ a ∧ a < dst + n then c % 256 else m a

/-- Modelled from the spec: `memmove(dst, src, n)` byte-copies `n` bytes. -/
def memmove (m : Nat → Nat) (dst src n : Nat) : Nat → Nat :=
  fun a => if dst ≤ a ∧ a < dst + n then m (src + (a - dst)) else m a

/-- Read of a little-endian 32-bit word from byte memory. -/
def load32 (m : Nat → Nat) (a : Nat) : Nat :=
  m a % 256 + 256 * (m (a + 1) % 256) + 65536 * (m (a + 2) % 256) + 16777216 * (m (a + 3) % 256)

/-- Write of a little-endian 32-bit word to byte memory. -/
def store32 (m : Nat → Nat) (a w : Nat) : Nat → Nat :=
  fun x =>
    if x = a then w % 256
    else if x = a + 1 then w / 256 % 256
    else if x = a + 2 then w / 65536 % 256
    else if x = a + 3 then w / 16777216 % 256
    else m x

/-- Modelled from the spec: `page_to_disk(dev, buf, sector)` writes the 4 KiB at
`buf` to the 8 sectors starting at `sector`. -/
def page_to_disk (dev va sector : Nat) (s : State) : State :=
  { s with
    disk := Function.update s.disk dev
      (fun d => if BSIZE * sector ≤ d ∧ d < BSIZE * sector + PGSIZE
                then s.mem (va + (d - BSIZE * sector)) else s.disk dev d)
    trace := s.trace ++ [Event.page_to_disk dev va sector] }

/-- Modelled from the spec: `disk_to_page(dev, buf, sector)` reads the 8 sectors
starting at `sector` into the 4 KiB at `buf`. -/
def disk_to_page (dev va sector : Nat) (s : State) : State :=
  { s with
    mem := fun a => if va ≤ a ∧ a < va + PGSIZE
                    then s.disk dev (BSIZE * sector + (a - va)) else s.mem a
    trace := s.trace ++ [Event.disk_to_page dev va sector] }

/-- Modelled from the spec: `lcr3(pa)` reloads the root page table. -/
def lcr3 (pa : Nat) (s : State) : State :=
  { s with cr3 := pa, trace := s.trace ++ [Event.lcr3 pa] }

/-! ## kalloc.c -/

/-- The range test `pa >= PHYSTOP || pa < (uint)V2P(end)` of the accessors. -/
def pa_out_of_range (c : Config) (pa : Nat) : Prop :=
  pa ≥ c.PHYSTOP ∨ pa < V2P c c.kend

instance (c : Config) (pa : Nat) : Decidable (pa_out_of_range c pa) := by
  unfold pa_out_of_range; infer_instance

def set_rmap_value_no_lock (c : Config) (pa : Nat) (value : Int) (s : State) : Res State :=
  if pa_out_of_range c pa then .panic .rmap_value_no_lock
  else .ok { s with rmap := Function.update s.rmap (pa >>> PTXSHIFT) value }

/-- The test `(uint)v % PGSIZE || v < end || V2P(v) >= PHYSTOP` of `kfree`. -/
def kfree_bad (c : Config) (v : Nat) : Prop :=
  v % PGSIZE ≠ 0 ∨ v < c.kend ∨ V2P c v ≥ c.PHYSTOP

instance (c : Config) (v : Nat) : Decidable (kfree_bad c v) := by
  unfold kfree_bad; infer_instance

def kfree (c : Config) (v : Nat) (s : State) : Res State :=
  if kfree_bad c v then .panic .kfree
  else
    let idx := V2P c v >>> PTXSHIFT
    let s1 : State :=
      if s.rmap idx > 0 then { s with rmap := Function.update s.rmap idx (s.rmap idx - 1) } else s
    if s1.rmap idx = 0 then
      .ok { s1 with
            mem := store32 (memset s1.mem v 1 PGSIZE) v s1.freelist
            num_free_pages := (s1.num_free_pages + 1) % U32
            freelist := v }
    else .ok s1

def get_memshared_pte (c : Config) (pa i : Nat) (s : State) : Res Nat :=
  if pa_out_of_range c pa then .panic .get_memshared_pte
  else .ok (s.shared_ptes (pa >>> PTXSHIFT) i)

def get_rmap_value (c : Config) (pa : Nat) (s : State) : Res Nat :=
  if pa_out_of_range c pa then .panic .rmap_value
  else .ok (toU32 (s.rmap (pa >>> PTXSHIFT)))

def set_rmap_value (c : Config) (pa : Nat) (value : Int) (s : State) : Res State :=
  if pa_out_of_range c pa then .panic .rmap_value
  else .ok { s with rmap := Function.update s.rmap (pa >>> PTXSHIFT) value }

def inc_rmap_value (c : Config) (pa : Nat) (s : State) : Res State :=
  if pa_out_of_range c pa then .panic .inc_rmap_value
  else .ok { s with rmap := Function.update s.rmap (pa >>> PTXSHIFT)
                              (wrapI32 (s.rmap (pa >>> PTXSHIFT) + 1)) }

def add_memshared_pte (c : Config) (pa index pte : Nat) (s : State) : Res State :=
  if pa_out_of_range c pa then .panic .dec_rmap_value
  else .ok { s with shared_ptes := Function.update s.shared_ptes (pa >>> PTXSHIFT)
                      (Function.update (s.shared_ptes (pa >>> PTXSHIFT)) index pte) }

/-- Returns the recorded sharer `newpte` and, when it is not null, stores `*pte` in it. -/
def set_pte_mem (pte index pa : Nat) (s : State) : Nat × State :=
  let newpte := s.shared_ptes (pa >>> PTXSHIFT) index
  if newpte = 0 then (newpte, s)
  else (newpte, { s with ptes := Function.update s.ptes newpte (s.ptes pte) })

def set_all_kmem_zero (c : Config) (pa : Nat) (s : State) : State :=
  (List.range c.NPROC).foldl
    (fun st i => { st with shared_ptes := Function.update st.shared_ptes (pa >>> 12)
                            (Function.update (st.shared_ptes (pa >>> 12)) i 0) })
    s

/-- Loop of `mem_remove_entry` and `diskremove_entry` over one reverse-map row. -/
def remove_entry_row (n : Nat) (row : Nat → Nat) (pte : Nat) : Nat → Nat :=
  (List.range n).foldl (fun r i => if r i = pte then Function.update r i 0 else r) row

def mem_remove_entry (c : Config) (pa pte : Nat) (s : State) : State :=
  let row := remove_entry_row c.NPROC (s.shared_ptes (pa >>> PTXSHIFT)) pte
  { s with shared_ptes := Function.update s.shared_ptes (pa >>> PTXSHIFT) row
           ptes := Function.update s.ptes pte 0 }

/-- Loop of `add_pte_mem` and `add_pte_block`, started at index `i` with `n`
iterations left: `none` is the early `return` (the entry is already recorded),
`some found` is the state of `found`/`found_entry` after the loop. -/
def add_pte_scan (row : Nat → Nat) (pte : Nat) : Nat → Nat → Option Nat → Option (Option Nat)
  | 0, _, found => some found
  | n + 1, i, found =>
    let found1 := match found with
      | some e => some e
      | none => if row i = 0 then some i else none
    if row i = pte then none else add_pte_scan row pte n (i + 1) found1

/-- The row after `add_pte_mem` / `add_pte_block`. -/
def add_pte_row (n : Nat) (row : Nat → Nat) (pte : Nat) : Nat → Nat :=
  match add_pte_scan row pte n 0 none with
  | none => row
  | some none => row
  | some (some e) => Function.update row e pte

def add_pte_mem (c : Config) (pa pte : Nat) (s : State) : State :=
  { s with shared_ptes := Function.update s.shared_ptes (pa >>> PTXSHIFT)
             (add_pte_row c.NPROC (s.shared_ptes (pa >>> PTXSHIFT)) pte) }

def num_of_FreePages (s : State) : Nat := s.num_free_pages

/-! ## pageswap.c: swap store -/

/-- Number of swap slots, `SWAPBLOCKS / 8`. -/
def nslots (c : Config) : Nat := c.SWAPBLOCKS / 8

def swapinit (c : Config) (s : State) : State :=
  (List.range (nslots c)).foldl
    (fun st i => { st with swapblock := (Function.update st.swapblock i
                    { st.swapblock i with free_int := 1, page_perm := 0, refcount := 0 }) })
    s

def get_page (k : Collab) (victim_proc : Nat) (s : State) : Res (Nat × State) :=
  let victim_page := k.get_victim_page s victim_proc
  if victim_page ≠ 0 then .ok (victim_page, s)
  else
    let s1 := k.clear_proc_access s victim_proc
    let victim_page1 := k.get_victim_page s1 victim_proc
    if victim_page1 = 0 then .panic .swap_out_nothing_found
    else .ok (victim_page1, s1)

/-- The slot scan of `swap_out`: the value of `i` after the `for` loop started
at `i` with `n` slots left to look at. -/
def scan_free_slot (sb : Nat → SwapSlot) : Nat → Nat → Nat
  | 0, i => i
  | n + 1, i => if (sb i).free_int ≠ 0 then i else scan_free_slot sb n (i + 1)

/-- The first `while` loop of `swap_out`: `set_pte_mem` on every index, the
returned pointers collected in `stored_ptes`. -/
def swap_out_rewrite (n : Nat) (victim_page p_addr : Nat) (s : State) : (Nat → Nat) × State :=
  (List.range n).foldl
    (fun (acc : (Nat → Nat) × State) j =>
      let r := set_pte_mem victim_page j p_addr acc.2
      (Function.update acc.1 j r.1, r.2))
    (fun _ => 0, s)

/-- The second `while` loop of `swap_out`: copy `stored_ptes` into the slot. -/
def swap_out_record (n : Nat) (blockno : Nat) (stored : Nat → Nat) (s : State) : State :=
  (List.range n).foldl
    (fun st j => { st with swapblock := (Function.update st.swapblock blockno
                    { st.swapblock blockno with
                      shared_ptes := Function.update (st.swapblock blockno).shared_ptes j (stored j) }) })
    s

/-- The swapped-out encoding written by `swap_out` for slot `blockno`. -/
def swapped_pte (blockno : Nat) : Nat :=
  ((((2 + 8 * blockno) <<< PTXSHIFT) % U32) &&& 0xFFFFFFFE) ||| 0x008

def swap_out (c : Config) (k : Collab) (s : State) : Res State :=
  let victim_proc := k.get_victim_proc s
  let s0 : State := { s with trace := s.trace ++ [Event.get_victim_proc] }
  let s1 : State := { s0 with rss := Function.update s0.rss victim_proc (s0.rss victim_proc - 4096) }
  match get_page k victim_proc s1 with
  | .panic p => .panic p
  | .outOfFuel => .outOfFuel
  | .ok (victim_page, s2) =>
    let i := scan_free_slot s2.swapblock (nslots c) 0
    if i = nslots c then .panic .no_free_slots_found
    else
      let blockno := i
      let s3 : State := { s2 with swapblock := (Function.update s2.swapblock blockno
                            { s2.swapblock blockno with
                              free_int := 0, page_perm := PTE_FLAGS (s2.ptes victim_page) }) }
      let p_addr := PTE_ADDR (s3.ptes victim_page)
      let s4 := page_to_disk c.ROOTDEV (P2V c p_addr) (2 + 8 * blockno) s3
      let s5 : State := { s4 with ptes := Function.update s4.ptes victim_page (swapped_pte blockno) }
      match get_rmap_value c p_addr s5 with
      | .panic p => .panic p
      | .outOfFuel => .outOfFuel
      | .ok rfc =>
        let s6 : State := { s5 with swapblock := (Function.update s5.swapblock blockno
                              { s5.swapblock blockno with refcount := toI32 rfc }) }
        let r := swap_out_rewrite c.NPROC victim_page p_addr s6
        let s7 := swap_out_record c.NPROC blockno r.1 r.2
        match set_rmap_value c p_addr 0 s7 with
        | .panic p => .panic p
        | .outOfFuel => .outOfFuel
        | .ok s8 => kfree c (P2V c p_addr) s8

/-! ## kalloc.c: allocation -/

def kalloc (c : Config) (k : Collab) : Nat → State → Res (Nat × State)
  | 0, _ => .outOfFuel
  | fuel + 1, s =>
    let r := s.freelist
    if r ≠ 0 then
      let s1 : State := { s with freelist := load32 s.mem r }
      let pa := V2P c r
      match set_rmap_value_no_lock c pa 1 s1 with
      | .panic p => .panic p
      | .outOfFuel => .outOfFuel
      | .ok s2 =>
        let s3 : State := { s2 with num_free_pages := dec32 s2.num_free_pages }
        .ok (r, set_all_kmem_zero c pa s3)
    else
      match swap_out c k s with
      | .panic p => .panic p
      | .outOfFuel => .outOfFuel
      | .ok s1 => kalloc c k fuel s1

/-! ## kalloc.c: initialisation -/

/-- The loop of `freerange`, bounded by the number `n` of candidate pages. -/
def freerange_loop (c : Config) : Nat → Nat → Nat → State → Res State
  | 0, p, vend, s => if p + PGSIZE ≤ vend then .outOfFuel else .ok s
  | n + 1, p, vend, s =>
    if p + PGSIZE ≤ vend then
      match set_rmap_value_no_lock c (V2P c p) 0 s with
      | .panic e => .panic e
      | .outOfFuel => .outOfFuel
      | .ok s1 =>
        match kfree c p s1 with
        | .panic e => .panic e
        | .outOfFuel => .outOfFuel
        | .ok s2 => freerange_loop c n (p + PGSIZE) vend s2
    else .ok s

def freerange (c : Config) (vstart vend : Nat) (s : State) : Res State :=
  freerange_loop c (vend / PGSIZE + 1) (PGROUNDUP vstart) vend s

def kinit1 (c : Config) (vstart vend : Nat) (s : State) : Res State :=
  freerange c vstart vend { s with use_lock := 0, num_free_pages := 0 }

def kinit2 (c : Config) (vstart vend : Nat) (s : State) : Res State :=
  match freerange c vstart vend s with
  | .panic e => .panic e
  | .outOfFuel => .outOfFuel
  | .ok s1 => .ok { s1 with use_lock := 1 }

/-! ## pageswap.c: page-table walk and fault handler -/

/-- Zeroing of the 1024 words of a fresh page-table page. -/
def zero_pgtab (pt : Nat → Nat) (pgtab : Nat) : Nat → Nat :=
  fun a => if pgtab ≤ a ∧ a < pgtab + PGSIZE then 0 else pt a

def walkpgdir (c : Config) (k : Collab) (fuel : Nat) (pgdir va alloc : Nat) (s : State) :
    Res (Nat × State) :=
  let pde := (pgdir + 4 * PDX va) % U32
  if s.ptes pde &&& PTE_P ≠ 0 then
    let pgtab := P2V c (PTE_ADDR (s.ptes pde))
    .ok ((pgtab + 4 * PTX va) % U32, s)
  else if alloc = 0 then .ok (0, s)
  else
    match kalloc c k fuel s with
    | .panic p => .panic p
    | .outOfFuel => .outOfFuel
    | .ok (pgtab, s1) =>
      if pgtab = 0 then .ok (0, s1)
      else
        let s2 : State := { s1 with mem := memset s1.mem pgtab 0 PGSIZE
                                    ptes := zero_pgtab s1.ptes pgtab }
        let s3 : State := { s2 with ptes := Function.update s2.ptes pde
                                      (V2P c pgtab ||| PTE_P ||| PTE_W ||| PTE_U) }
        .ok ((pgtab + 4 * PTX va) % U32, s3)

/-- The loop of the swap-in branch over the slot's reverse map, at index
`counter` with `n` entries left: every recorded sharer gets the value of `*pte`
and is recorded for the frame `pa` at the same index. -/
def swap_in_loop (c : Config) (row : Nat → Nat) (pte pa : Nat) : Nat → Nat → State → Res State
  | 0, _, s => .ok s
  | n + 1, counter, s =>
    if row counter ≠ 0 then
      let s1 : State := { s with ptes := Function.update s.ptes (row counter) (s.ptes pte) }
      match add_memshared_pte c pa counter (row counter) s1 with
      | .panic p => .panic p
      | .outOfFuel => .outOfFuel
      | .ok s2 => swap_in_loop c row pte pa n (counter + 1) s2
    else swap_in_loop c row pte pa n (counter + 1) s

def handle_page_write_off (c : Config) (k : Collab) (fuel : Nat) (s : State) : Res State :=
  let cr2 := s.cr2
  match walkpgdir c k fuel (s.pgdir s.cur) cr2 0 s with
  | .panic p => .panic p
  | .outOfFuel => .outOfFuel
  | .ok (pte, s) =>
    if s.ptes pte &&& PTE_P ≠ 0 then
      if PTE_W &&& s.ptes pte ≠ 0 then .panic .write_bit_already_on
      else
        let pa := PTE_ADDR (s.ptes pte)
        let flags := PTE_FLAGS (s.ptes pte)
        match get_rmap_value c pa s with
        | .panic p => .panic p
        | .outOfFuel => .outOfFuel
        | .ok rfc =>
          if rfc < 1 then .panic .incorrect_reference_count
          else if rfc = 1 then
            let s1 : State := { s with ptes := Function.update s.ptes pte (s.ptes pte ||| PTE_W) }
            .ok (lcr3 (V2P c (s1.pgdir s1.cur)) s1)
          else
            match kalloc c k fuel s with
            | .panic p => .panic p
            | .outOfFuel => .outOfFuel
            | .ok (mem, s1) =>
              if mem = 0 then .panic .mem_zero
              else
                let s2 : State := { s1 with mem := memmove s1.mem mem (P2V c pa) PGSIZE }
                let s3 := mem_remove_entry c pa pte s2
                match kfree c (P2V c pa) s3 with
                | .panic p => .panic p
                | .outOfFuel => .outOfFuel
                | .ok s4 =>
                  let s5 : State :=
                    { s4 with ptes := Function.update s4.ptes pte (V2P c mem ||| flags ||| PTE_W) }
                  let s6 := add_pte_mem c (V2P c mem) pte s5
                  .ok (lcr3 (V2P c (s6.pgdir s6.cur)) s6)
    else
      if s.ptes pte &&& 0x008 = 0 then .panic .no_swap_out_bit
      else
        let s1 : State := { s with rss := Function.update s.rss s.cur (s.rss s.cur + 4096) }
        let blockid := PTE_ADDR (s1.ptes pte) >>> PTXSHIFT
        match kalloc c k fuel s1 with
        | .panic p => .panic p
        | .outOfFuel => .outOfFuel
        | .ok (mem, s2) =>
          let s3 := disk_to_page c.ROOTDEV mem blockid s2
          let pa := V2P c mem
          let blockno := sub32 blockid 2 / 8
          let s4 : State := { s3 with ptes := (Function.update s3.ptes pte
                                (PTE_ADDR pa ||| (s3.swapblock blockno).page_perm ||| PTE_P)) }
          let s5 : State := { s4 with ptes := (Function.update s4.ptes pte
                                (s4.ptes pte &&& 0xFFFFFFF7)) }
          match set_rmap_value c pa (s5.swapblock blockno).refcount s5 with
          | .panic p => .panic p
          | .outOfFuel => .outOfFuel
          | .ok s6 =>
            match swap_in_loop c (s6.swapblock blockno).shared_ptes pte pa c.NPROC 0 s6 with
            | .panic p => .panic p
            | .outOfFuel => .outOfFuel
            | .ok s7 =>
              .ok { s7 with swapblock := (Function.update s7.swapblock blockno
                              { s7.swapblock blockno with free_int := 1 }) }

/-! ## pageswap.c: slot accessors -/

/-- The slot index `(blockid - 2) / 8` of an `int` block id (C division
truncates toward zero); a negative index is outside the array and is mapped to
index 0 by `Int.toNat`. -/
def block_index (blockid : Int) : Nat := (Int.tdiv (blockid - 2) 8).toNat

def set_block_non_writeable (blockid : Int) (s : State) : State :=
  let blockno := block_index blockid
  { s with swapblock := Function.update s.swapblock blockno
             { s.swapblock blockno with
               page_perm := (s.swapblock blockno).page_perm &&& 0xFFFFFFFD } }

def diskremove_entry (c : Config) (pte : Nat) (s : State) : State :=
  let blockid := s.ptes pte >>> PTXSHIFT
  let blockno := sub32 blockid 2 / 8
  let row := remove_entry_row c.NPROC (s.swapblock blockno).shared_ptes pte
  { s with swapblock := Function.update s.swapblock blockno
             { s.swapblock blockno with shared_ptes := row }
           ptes := Function.update s.ptes pte 0 }

def inc_block_refcount (blockid : Int) (s : State) : State :=
  let blockno : Int := Int.tdiv (blockid - 2) 8
  let s1 : State := { s with swapblock := (Function.update s.swapblock blockno.toNat
                        { s.swapblock blockno.toNat with
                          refcount := wrapI32 ((s.swapblock blockno.toNat).refcount + 1) }) }
  set_block_non_writeable blockno s1

def add_pte_block (c : Config) (blockid : Int) (pte : Nat) (s : State) : State :=
  let blockno := block_index blockid
  { s with swapblock := Function.update s.swapblock blockno
             { s.swapblock blockno with
               shared_ptes := add_pte_row c.NPROC (s.swapblock blockno).shared_ptes pte } }

def dec_block_refcount (blockid : Int) (s : State) : State :=
  let blockno := block_index blockid
  { s with swapblock := Function.update s.swapblock blockno
             { s.swapblock blockno with
               refcount := wrapI32 ((s.swapblock blockno).refcount - 1) } }

def block_free (blockno : Int) (s : State) : State :=
  let b := block_index blockno
  { s with swapblock := Function.update s.swapblock b { s.swapblock b with free_int := 1 } }

def set_block_free (blockid : Int) (s : State) : State :=
  let blockno := block_index blockid
  if (s.swapblock blockno).refcount = 0 then
    { s with swapblock := Function.update s.swapblock blockno
               { s.swapblock blockno with free_int := 1 } }
  else s

/-! ## Specification vocabulary -/

/-- A frame that `kfree` accepts: 4096-aligned, not below `end`, below `PHYSTOP`. -/
def valid_frame (c : Config) (v : Nat) : Prop :=
  v % PGSIZE = 0 ∧ c.kend ≤ v ∧ V2P c v < c.PHYSTOP

instance (c : Config) (v : Nat) : Decidable (valid_frame c v) := by
  unfold valid_frame; infer_instance

/-- Index of the frame with kernel virtual address `v` in `rmap` and `shared_ptes`. -/
def frame_index (c : Config) (v : Nat) : Nat := V2P c v >>> PTXSHIFT

/-- State after `kfree` pushed the frame `v` on the free list. -/
def kfree_push (v : Nat) (s : State) : State :=
  { s with
    mem := store32 (memset s.mem v 1 PGSIZE) v s.freelist
    num_free_pages := (s.num_free_pages + 1) % U32
    freelist := v }

/-- State with the reference count at index `idx` replaced. -/
def with_rmap (idx : Nat) (x : Int) (s : State) : State :=
  { s with rmap := Function.update s.rmap idx x }

/-- State after `kalloc` popped the head of a non-empty free list. -/
def kalloc_pop (c : Config) (s : State) : State :=
  { s with
    freelist := load32 s.mem s.freelist
    rmap := Function.update s.rmap (V2P c s.freelist >>> PTXSHIFT) 1
    num_free_pages := dec32 s.num_free_pages
    shared_ptes := fun j i =>
      if j = V2P c s.freelist >>> PTXSHIFT ∧ i < c.NPROC then 0 else s.shared_ptes j i }

/-! ## Concrete configuration and states for the examples -/

/-- The usual xv6 constants, with 800 swap slots. -/
def cfg0 : Config :=
  { KERNBASE := 0x80000000, PHYSTOP := 0xE000000, kend := 0x80400000,
    NPROC := 64, SWAPBLOCKS := 6400, ROOTDEV := 1 }

/-- A swap slot as left by `swapinit`. -/
def slot_free : SwapSlot :=
  { page_perm := 0, free_int := 1, shared_ptes := fun _ => 0, refcount := 0 }

/-- A state with nothing allocated, nothing free and an empty swap store. -/
def st_blank : State :=
  { use_lock := 1, num_free_pages := 0, freelist := 0, rmap := fun _ => 0,
    shared_ptes := fun _ _ => 0, swapblock := fun _ => slot_free, mem := fun _ => 0,
    ptes := fun _ => 0, disk := fun _ _ => 0, rss := fun _ => 0, pgdir := fun _ => 0,
    cur := 0, cr2 := 0, cr3 := 0, trace := [] }

/-- A collaborator that always names process 7 and the page-table word at `0x80600010`. -/
def collab0 : Collab :=
  { get_victim_proc := fun _ => 7, get_victim_page := fun _ _ => 0x80600010,
    clear_proc_access := fun s _ => s }

/-- The frame at kernel address `0x80500000` (index 1280). -/
def frameA : Nat := 0x80500000

/-- Frame `frameA` is held once; the free list is empty. -/
def st_heldA : State := { st_blank with rmap := fun i => if i = 1280 then 1 else 0 }

/-- Frame `frameA` is held twice. -/
def st_sharedA : State := { st_blank with rmap := fun i => if i = 1280 then 2 else 0 }

/-- Frame `frameA` is the only entry of the free list. -/
def st_freeA : State := { st_blank with freelist := frameA, num_free_pages := 1 }

/-- The page-table entry the fault handler works on: the result of
`walkpgdir(myproc()->pgdir, (void *)cr2, 0)`, null when the page directory entry
is not present. -/
def fault_pte (c : Config) (s : State) : Nat :=
  if s.ptes ((s.pgdir s.cur + 4 * PDX s.cr2) % U32) &&& PTE_P ≠ 0
  then (P2V c (PTE_ADDR (s.ptes ((s.pgdir s.cur + 4 * PDX s.cr2) % U32))) + 4 * PTX s.cr2) % U32
  else 0

/-- State after the copy-on-write split of `handle_page_write_off`, when the free
list is non-empty and the shared frame keeps a positive reference count. -/
def cow_split (c : Config) (pte : Nat) (s : State) : State :=
  let m := s.freelist
  let pa := PTE_ADDR (s.ptes pte)
  let flags := PTE_FLAGS (s.ptes pte)
  let s1 := kalloc_pop c s
  let s2 : State := { s1 with mem := memmove s1.mem m (P2V c pa) PGSIZE }
  let s3 := mem_remove_entry c pa pte s2
  let s4 := with_rmap (V2P c (P2V c pa) >>> PTXSHIFT) (s3.rmap (V2P c (P2V c pa) >>> PTXSHIFT) - 1) s3
  let s5 : State := { s4 with ptes := Function.update s4.ptes pte (V2P c m ||| flags ||| PTE_W) }
  let s6 := add_pte_mem c (V2P c m) pte s5
  lcr3 (V2P c (s6.pgdir s6.cur)) s6

/-- A physical frame address that the `rmap` accessors and `kfree` both accept. -/
def valid_pa (c : Config) (pa : Nat) : Prop :=
  ¬ pa_out_of_range c pa ∧ valid_frame c (P2V c pa)

instance (c : Config) (pa : Nat) : Decidable (valid_pa c pa) := by
  unfold valid_pa; infer_instance


/-- The frame at kernel address `0x80600000` (index 1536). -/
def frameB : Nat := 0x80600000

/-- Page tables of the examples: the page directory of the current process is
at `0x80700000`, its first entry maps the page table at `0x80701000`; the entry
for the faulting address `0x1000` is the word at `0x80701004`, and a second
process maps the same frame through the word at `0x80801004`. -/
def ptes_example (v : Nat) : Nat → Nat :=
  fun a => if a = 0x80700000 then 0x701007
           else if a = 0x80701004 then v
           else if a = 0x80801004 then v
           else 0

/-- Frame `frameA` is mapped read-only by two page-table entries (reference
count 2, both recorded as sharers); frame `frameB` is the only free frame. -/
def st_cow : State :=
  { st_blank with
    rmap := fun i => if i = 1280 then 2 else 0
    shared_ptes := fun j i =>
      if j = 1280 then (if i = 0 then 0x80701004 else if i = 1 then 0x80801004 else 0) else 0
    ptes := ptes_example 0x500005
    freelist := frameB
    num_free_pages := 1
    pgdir := fun _ => 0x80700000
    cr2 := 0x1000 }

/-- Frame `frameA` is mapped read-only by one page-table entry (reference count 1). -/
def st_last : State :=
  { st_blank with
    rmap := fun i => if i = 1280 then 1 else 0
    shared_ptes := fun j i => if j = 1280 then (if i = 0 then 0x80701004 else 0) else 0
    ptes := ptes_example 0x500005
    pgdir := fun _ => 0x80700000
    cr2 := 0x1000 }

/-- Page-table store after every non-null pointer among `row i` for `lo ≤ i < hi` received `val`. -/
def rewrite_sharers (lo hi : Nat) (row : Nat → Nat) (val : Nat) (pt : Nat → Nat) : Nat → Nat :=
  fun q => if q ≠ 0 ∧ ∃ j, j < hi ∧ (lo ≤ j ∧ row j = q) then val else pt q

/-- State at the start of `swap_out`, after the victim process was chosen and its
`rss` was decremented. -/
def swap_out_entry (k : Collab) (s : State) : State :=
  { s with
    rss := Function.update s.rss (k.get_victim_proc s) (s.rss (k.get_victim_proc s) - 4096)
    trace := s.trace ++ [Event.get_victim_proc] }

/-- State after `swap_out` evicted the page behind `victim_page` to slot `b`,
starting from the state `s2` in which the victim page was found. -/
def swap_out_done (c : Config) (victim_page b : Nat) (s2 : State) : State :=
  let p_addr := PTE_ADDR (s2.ptes victim_page)
  let row := s2.shared_ptes (p_addr >>> PTXSHIFT)
  kfree_push (P2V c p_addr)
    { s2 with
      swapblock := (Function.update s2.swapblock b
        { page_perm := PTE_FLAGS (s2.ptes victim_page)
          free_int := 0
          shared_ptes := fun j => if j < c.NPROC then row j else (s2.swapblock b).shared_ptes j
          refcount := toI32 (toU32 (s2.rmap (p_addr >>> PTXSHIFT))) })
      disk := (Function.update s2.disk c.ROOTDEV
        (fun d => if BSIZE * (2 + 8 * b) ≤ d ∧ d < BSIZE * (2 + 8 * b) + PGSIZE
                  then s2.mem (P2V c p_addr + (d - BSIZE * (2 + 8 * b))) else s2.disk c.ROOTDEV d))
      trace := s2.trace ++ [Event.page_to_disk c.ROOTDEV (P2V c p_addr) (2 + 8 * b)]
      ptes := (rewrite_sharers 0 c.NPROC row (swapped_pte b)
                (Function.update s2.ptes victim_page (swapped_pte b)))
      rmap := Function.update s2.rmap (p_addr >>> PTXSHIFT) 0 }

/-- A collaborator that names process 7 and the page-table word at `0x80701004`. -/
def collab1 : Collab :=
  { get_victim_proc := fun _ => 7, get_victim_page := fun _ _ => 0x80701004,
    clear_proc_access := fun s _ => s }

/-- A swap slot in use. -/
def slot_used : SwapSlot :=
  { page_perm := 5, free_int := 0, shared_ptes := fun _ => 0, refcount := 1 }

/-- Frame `frameA` is mapped read-only by two recorded sharers, the free list is
empty, and the swap slots 0, 1 and 3 are occupied. -/
def st_swap : State :=
  { st_cow with
    freelist := 0
    num_free_pages := 0
    swapblock := fun i => if i = 0 ∨ i = 1 ∨ i = 3 then slot_used else slot_free }

/-- Reverse-map row of a frame after the swap-in loop copied the non-null entries
`row t`, `lo ≤ t < hi`, of the slot. -/
def copy_sharers (lo hi : Nat) (row old : Nat → Nat) : Nat → Nat :=
  fun t => if lo ≤ t ∧ t < hi ∧ row t ≠ 0 then row t else old t

/-- Slot index decoded by the swap-in branch from the faulting entry. -/
def fault_slot (pte : Nat) (s : State) : Nat :=
  sub32 (PTE_ADDR (s.ptes pte) >>> PTXSHIFT) 2 / 8

/-- Value the swap-in branch writes to the faulting entry and to every sharer. -/
def restored_pte (c : Config) (pte : Nat) (s : State) : Nat :=
  (PTE_ADDR (V2P c s.freelist) ||| (s.swapblock (fault_slot pte s)).page_perm ||| PTE_P)
    &&& 0xFFFFFFF7

/-- State after the swap-in branch of `handle_page_write_off`, when the free list
is non-empty. -/
def swap_in_done (c : Config) (pte : Nat) (s : State) : State :=
  let mem := s.freelist
  let blockid := PTE_ADDR (s.ptes pte) >>> PTXSHIFT
  let b := fault_slot pte s
  let row := (s.swapblock b).shared_ptes
  let idx := V2P c mem >>> PTXSHIFT
  { s with
    rss := Function.update s.rss s.cur (s.rss s.cur + 4096)
    freelist := load32 s.mem mem
    num_free_pages := dec32 s.num_free_pages
    mem := fun a => if mem ≤ a ∧ a < mem + PGSIZE
                    then s.disk c.ROOTDEV (BSIZE * blockid + (a - mem)) else s.mem a
    trace := s.trace ++ [Event.disk_to_page c.ROOTDEV mem blockid]
    rmap := Function.update s.rmap idx (s.swapblock b).refcount
    ptes := (rewrite_sharers 0 c.NPROC row (restored_pte c pte s)
              (Function.update s.ptes pte (restored_pte c pte s)))
    shared_ptes := (Function.update s.shared_ptes idx
              (copy_sharers 0 c.NPROC row
                (fun i => if i < c.NPROC then 0 else s.shared_ptes idx i)))
    swapblock := (Function.update s.swapblock b { s.swapblock b with free_int := 1 }) }

/-- Slot 2 holding the page of `frameA`: two sharers, reference count 2, flags `PTE_P | PTE_U`. -/
def slot_two : SwapSlot :=
  { page_perm := 5, free_int := 0,
    shared_ptes := fun i => if i = 0 then 0x80701004 else if i = 1 then 0x80801004 else 0,
    refcount := 2 }

/-- The page of the two sharers is swapped out to slot 2 (both entries hold
`0x12008`); frame `frameA` is the only free frame. -/
def st_swapped : State :=
  { st_blank with
    ptes := ptes_example 0x12008
    swapblock := fun i => if i = 2 then slot_two
                          else if i = 0 ∨ i = 1 ∨ i = 3 then slot_used else slot_free
    freelist := frameA
    num_free_pages := 1
    pgdir := fun _ => 0x80700000
    cr2 := 0x1000 }

/-- As `st_swap`, but every swap slot is occupied. -/
def st_full : State := { st_swap with swapblock := fun _ => slot_used }

/-! ## States and vocabulary for the accessor, panic and invariant claims -/

/-- Every swap slot holds a page saved with flags `PTE_P | PTE_W | PTE_U` and reference count 1. -/
def st_perm : State :=
  { st_blank with
    swapblock := fun _ =>
      { page_perm := 7, free_int := 0, shared_ptes := fun _ => 0, refcount := 1 } }

/-- Specification of sharer insertion on one reverse-map row of `n` entries:
`row'` is `row` when `p` is already recorded or when no entry is null, and
otherwise `row` with `p` stored in the lowest-indexed null entry. -/
def sharer_added (n : Nat) (row : Nat → Nat) (p : Nat) (row' : Nat → Nat) : Prop :=
  ((∃ j, j < n ∧ row j = p) → row' = row) ∧
  ((∀ j, j < n → row j ≠ p) → ∀ e, e < n → row e = 0 → (∀ j, j < e → row j ≠ 0) →
    row' = Function.update row e p) ∧
  ((∀ j, j < n → row j ≠ p) → (∀ j, j < n → row j ≠ 0) → row' = row)

/-- A full reverse-map row: entry `i` holds the PTE address `0x7000 + 4 * i`. -/
def row_full : Nat → Nat := fun i => 0x7000 + 4 * i

/-- Every frame's reverse map is full. -/
def st_fullrow : State := { st_blank with shared_ptes := fun _ => row_full }

/-- Modelled from the spec: `clear_proc_access` of the process table (not part of
the two source files) clears the accessed bits of a process, so it rewrites
page-table words only. -/
def Collab.ptes_only (k : Collab) : Prop :=
  ∀ (s : State) (p : Nat), k.clear_proc_access s p = { s with ptes := (k.clear_proc_access s p).ptes }

/-- The state `st_cow` with the faulting entry already writable. -/
def st_writable : State := { st_cow with ptes := ptes_example 0x500007 }

/-! ## Free list, reachable allocator states -/

/-- The free list of memory `mem` that starts at `head` consists of the frames
`L`, in this order, each linked to the next by its first word, and ends in null. -/
def free_list (mem : Nat → Nat) : Nat → List Nat → Prop
  | h, [] => h = 0
  | h, v :: t => h = v ∧ v ≠ 0 ∧ free_list mem (load32 mem v) t

/-- The node reached from `head` after following `n` links (null stays null). -/
def list_node (mem : Nat → Nat) : Nat → Nat → Nat
  | 0, h => h
  | n + 1, h => if h = 0 then 0 else list_node mem n (load32 mem h)

/-- The frame `fn` is linked in the free list that starts at `head`. -/
def linked (mem : Nat → Nat) (head fn : Nat) : Prop :=
  fn ≠ 0 ∧ ∃ n, list_node mem n head = fn

/-- The pages that the loop of `freerange` hands to `kfree`, with `n` candidate
pages left, starting at `p`. -/
def freerange_pages : Nat → Nat → Nat → List Nat
  | 0, _, _ => []
  | n + 1, p, vend => if p + PGSIZE ≤ vend then p :: freerange_pages n (p + PGSIZE) vend else []

/-- Allocator invariant used for F1 and the free-list count: the free list holds
exactly the frames `L`, without repetition; they are registered frames (`R`);
every registered frame is accepted by `kfree` and by the `rmap` accessors; a
registered frame has reference count 0 exactly when it is on the list; and
`num_free_pages` is the length of the list. -/
def alloc_inv (c : Config) (R L : List Nat) (s : State) : Prop :=
  free_list s.mem s.freelist L ∧ L.Nodup ∧
  (∀ v, v ∈ L → v ∈ R) ∧
  (∀ v, v ∈ R → valid_frame c v ∧ ¬ pa_out_of_range c (V2P c v) ∧ v < U32) ∧
  (∀ v, v ∈ R → (s.rmap (frame_index c v) = 0 ↔ v ∈ L)) ∧
  s.num_free_pages = L.length

/-- Allocator states reachable from initialisation when no free frame is freed
again: `kinit1` on a boot state with an empty list, then `kinit2` / `freerange`
over pages not registered before, `kalloc`, and `kfree` of a registered frame
whose reference count is at least 1.  When `kalloc` finds the list empty it
evicts a page: the collaborator then rewrites page-table words only and names a
victim page in a registered frame whose reference count is not 0.  The index `R`
lists the frames registered so far. -/
inductive AllocReach (c : Config) (k : Collab) : List Nat → State → Prop
  | kinit1 (s0 s : State) (vstart vend : Nat) :
      s0.freelist = 0 → vend < U32 → kinit1 c vstart vend s0 = .ok s →
      AllocReach c k (freerange_pages (vend / PGSIZE + 1) (PGROUNDUP vstart) vend) s
  | kinit2 (R : List Nat) (s s' : State) (vstart vend : Nat) :
      AllocReach c k R s → vend < U32 →
      (∀ p, p ∈ freerange_pages (vend / PGSIZE + 1) (PGROUNDUP vstart) vend → p ∉ R) →
      kinit2 c vstart vend s = .ok s' →
      AllocReach c k (freerange_pages (vend / PGSIZE + 1) (PGROUNDUP vstart) vend ++ R) s'
  | freerange (R : List Nat) (s s' : State) (vstart vend : Nat) :
      AllocReach c k R s → vend < U32 →
      (∀ p, p ∈ freerange_pages (vend / PGSIZE + 1) (PGROUNDUP vstart) vend → p ∉ R) →
      freerange c vstart vend s = .ok s' →
      AllocReach c k (freerange_pages (vend / PGSIZE + 1) (PGROUNDUP vstart) vend ++ R) s'
  | kalloc (R : List Nat) (s s' : State) (v fuel : Nat) :
      AllocReach c k R s →
      (s.freelist = 0 → k.ptes_only ∧
        ∀ vp s2, get_page k (k.get_victim_proc s) (swap_out_entry k s) = .ok (vp, s2) →
          P2V c (PTE_ADDR (s2.ptes vp)) ∈ R ∧
          s.rmap (PTE_ADDR (s2.ptes vp) >>> PTXSHIFT) ≠ 0) →
      kalloc c k fuel s = .ok (v, s') →
      AllocReach c k R s'
  | kfree (R : List Nat) (s s' : State) (v : Nat) :
      AllocReach c k R s → v ∈ R → 1 ≤ s.rmap (frame_index c v) → kfree c v s = .ok s' →
      AllocReach c k R s'

/-- State after `kinit1` registered the single page `frameA` from `st_blank`. -/
def st_init1 : State :=
  kfree_push frameA (with_rmap 1280 0 { st_blank with use_lock := 0, num_free_pages := 0 })

/-- State after `kalloc` handed out `frameA` from `st_init1`. -/
def st_alloc1 : State := kalloc_pop cfg0 st_init1

/-- State after `kfree` released `frameA` in `st_alloc1`. -/
def st_free1 : State := kfree_push frameA (with_rmap 1280 0 st_alloc1)

/-- State after a second `kfree` of `frameA`, already free in `st_free1`. -/
def st_free2 : State := kfree_push frameA st_free1

/-- State after `kalloc` handed out `frameA` from `st_free2`. -/
def st_alloc2 : State := kalloc_pop cfg0 st_free2

/-! ## Sharer counts, reachable sharing states -/

/-- Number of non-null entries among the first `n` entries of a reverse-map row. -/
def sharer_count (row : Nat → Nat) : Nat → Nat
  | 0 => 0
  | n + 1 => sharer_count row n + (if row n ≠ 0 then 1 else 0)

/-- States reachable from initialisation by `kalloc`, share (`inc_rmap_value` then
`add_pte_mem`), unshare (`mem_remove_entry` then `kfree`) of a recorded sharer,
`mem_remove_entry` alone, and `kfree` of a frame whose reference count is 0 or
exceeds the number of its recorded sharers.  Initialisation (`kinit1`, then
`kinit2`) runs while no sharer is recorded; when `kalloc` evicts a page the
collaborator rewrites page-table words only; `inc_rmap_value` does not overflow
`int`. -/
inductive ShareReach (c : Config) (k : Collab) : State → Prop
  | kinit1 (s0 s : State) (vstart vend : Nat) :
      (∀ j i, s0.shared_ptes j i = 0) → (∀ j, 0 ≤ s0.rmap j) →
      kinit1 c vstart vend s0 = .ok s → ShareReach c k s
  | kinit2 (s s' : State) (vstart vend : Nat) :
      ShareReach c k s → (∀ j i, s.shared_ptes j i = 0) →
      kinit2 c vstart vend s = .ok s' → ShareReach c k s'
  | kalloc (s s' : State) (v fuel : Nat) :
      ShareReach c k s → (s.freelist = 0 → k.ptes_only) →
      kalloc c k fuel s = .ok (v, s') → ShareReach c k s'
  | share (s s1 : State) (pa pte : Nat) :
      ShareReach c k s → s.rmap (pa >>> PTXSHIFT) < 2147483647 →
      inc_rmap_value c pa s = .ok s1 → ShareReach c k (add_pte_mem c pa pte s1)
  | unshare (s s' : State) (pa pte : Nat) :
      ShareReach c k s → pa < U32 → pte ≠ 0 →
      (∃ i, i < c.NPROC ∧ s.shared_ptes (pa >>> PTXSHIFT) i = pte) →
      kfree c (P2V c pa) (mem_remove_entry c pa pte s) = .ok s' → ShareReach c k s'
  | remove (s : State) (pa pte : Nat) :
      ShareReach c k s → ShareReach c k (mem_remove_entry c pa pte s)
  | kfree (s s' : State) (v : Nat) :
      ShareReach c k s →
      (s.rmap (frame_index c v) = 0 ∨
        (sharer_count (s.shared_ptes (frame_index c v)) c.NPROC : Int)
          < s.rmap (frame_index c v)) →
      kfree c v s = .ok s' → ShareReach c k s'

/-- Invariant F2: at every frame index the reference count is at least the number
of non-null sharers. -/
def share_inv (c : Config) (s : State) : Prop :=
  ∀ j, (sharer_count (s.shared_ptes j) c.NPROC : Int) ≤ s.rmap j

/-- State after `inc_rmap_value` on `frameA` in `st_alloc1`. -/
def st_inc1 : State := with_rmap 1280 2 st_alloc1

/-- State after the share of `frameA` with the sharer `0x80701004`: reference
count 2, one recorded sharer. -/
def st_shared1 : State := add_pte_mem cfg0 0x500000 0x80701004 st_inc1

/-- State after one `kfree` of `frameA` in `st_shared1`. -/
def st_drop1 : State := with_rmap 1280 1 st_shared1

/-- State after a second `kfree` of `frameA`: the frame is free, its sharer is
still recorded. -/
def st_drop2 : State := kfree_push frameA (with_rmap 1280 0 st_drop1)

/-- State after the unshare of the unrecorded reference `0x80801004`. -/
def st_unshare1 : State :=
  with_rmap 1280 1 (mem_remove_entry cfg0 0x500000 0x80801004 st_shared1)

/-- State after the unshare of the unrecorded reference `0x80901004`. -/
def st_unshare2 : State :=
  kfree_push frameA (with_rmap 1280 0 (mem_remove_entry cfg0 0x500000 0x80901004 st_unshare1))

/-! ## Reachable swap-store states -/

/-- Swap-store invariant: among the slots below `SWAPBLOCKS / 8`, a slot whose
free flag is clear has a reference count between 1 and `INT_MAX`. -/
def swap_inv (c : Config) (s : State) : Prop :=
  ∀ j, j < nslots c → (s.swapblock j).free_int = 0 →
    1 ≤ (s.swapblock j).refcount ∧ (s.swapblock j).refcount < 2147483648

/-- Swap-store states reachable from `swapinit` by `swap_out`, swap-in faults
(a fault of `handle_page_write_off` on a non-present entry), `inc_block_refcount`
and `dec_block_refcount` followed by `set_block_free`.  Whenever a page is
evicted (by `swap_out`, or by the `kalloc` of a swap-in fault that finds the free
list empty) the collaborator rewrites page-table words only and the victim's
frame has a reference count between 1 and `INT_MAX`; `inc_block_refcount` does
not overflow `int`. -/
inductive SwapReach (c : Config) (k : Collab) : State → Prop
  | swapinit (s0 : State) : SwapReach c k (swapinit c s0)
  | swap_out (s s' : State) :
      SwapReach c k s → k.ptes_only →
      (∀ vp s2, get_page k (k.get_victim_proc s) (swap_out_entry k s) = .ok (vp, s2) →
        1 ≤ s.rmap (PTE_ADDR (s2.ptes vp) >>> PTXSHIFT) ∧
        s.rmap (PTE_ADDR (s2.ptes vp) >>> PTXSHIFT) < 2147483648) →
      swap_out c k s = .ok s' → SwapReach c k s'
  | swap_in (s s' : State) (pte fuel : Nat) :
      SwapReach c k s → fault_pte c s = pte → s.ptes pte &&& PTE_P = 0 →
      (s.freelist = 0 → k.ptes_only ∧
        ∀ vp s2,
          get_page k
            (k.get_victim_proc { s with rss := Function.update s.rss s.cur (s.rss s.cur + 4096) })
            (swap_out_entry k
              { s with rss := Function.update s.rss s.cur (s.rss s.cur + 4096) })
            = .ok (vp, s2) →
          1 ≤ s.rmap (PTE_ADDR (s2.ptes vp) >>> PTXSHIFT) ∧
          s.rmap (PTE_ADDR (s2.ptes vp) >>> PTXSHIFT) < 2147483648) →
      handle_page_write_off c k fuel s = .ok s' → SwapReach c k s'
  | inc (s : State) (blockid : Int) :
      SwapReach c k s → (s.swapblock (block_index blockid)).refcount < 2147483647 →
      SwapReach c k (inc_block_refcount blockid s)
  | dec (s : State) (blockid : Int) :
      SwapReach c k s → SwapReach c k (set_block_free blockid (dec_block_refcount blockid s))

/-- The state `st_swap` after `swapinit`: each of the 800 slots is free, with
permissions and reference count 0. -/
def st_fresh : State :=
  { st_swap with
    swapblock := (fun j =>
      if j < 800
      then { st_swap.swapblock j with free_int := 1, page_perm := 0, refcount := 0 }
      else st_swap.swapblock j) }

/-- State after `swap_out` evicted the page of `frameA` from `st_fresh` to slot 0. -/
def st_evicted : State := swap_out_done cfg0 0x80701004 0 (swap_out_entry collab1 st_fresh)

/-! ## The routines with the machine state at a panic -/

/-- Outcome of a kernel routine together with the machine state at a `panic`:
xv6's `panic` halts the machine, so the state a panicking call leaves behind is
the state at the call of `panic`. -/
inductive Exec (α : Type) where
  | ok : α → Exec α
  | panic : Panic → State → Exec α
  | outOfFuel : Exec α

/-- Forgets the state at the panic. -/
def Exec.erase {α : Type} : Exec α → Res α
  | .ok a => .ok a
  | .panic p _ => .panic p
  | .outOfFuel => .outOfFuel

/-- `set_rmap_value_no_lock`, with the state at the panic. -/
def set_rmap_value_no_lock_exec (c : Config) (pa : Nat) (value : Int) (s : State) : Exec State :=
  if pa_out_of_range c pa then .panic .rmap_value_no_lock s
  else .ok { s with rmap := Function.update s.rmap (pa >>> PTXSHIFT) value }

/-- `kfree`, with the state at the panic: the validity test is the first
statement, before any write. -/
def kfree_exec (c : Config) (v : Nat) (s : State) : Exec State :=
  if kfree_bad c v then .panic .kfree s
  else
    let idx := V2P c v >>> PTXSHIFT
    let s1 : State :=
      if s.rmap idx > 0 then { s with rmap := Function.update s.rmap idx (s.rmap idx - 1) } else s
    if s1.rmap idx = 0 then
      .ok { s1 with
            mem := store32 (memset s1.mem v 1 PGSIZE) v s1.freelist
            num_free_pages := (s1.num_free_pages + 1) % U32
            freelist := v }
    else .ok s1

/-- `get_rmap_value`, with the state at the panic. -/
def get_rmap_value_exec (c : Config) (pa : Nat) (s : State) : Exec Nat :=
  if pa_out_of_range c pa then .panic .rmap_value s
  else .ok (toU32 (s.rmap (pa >>> PTXSHIFT)))

/-- `set_rmap_value`, with the state at the panic. -/
def set_rmap_value_exec (c : Config) (pa : Nat) (value : Int) (s : State) : Exec State :=
  if pa_out_of_range c pa then .panic .rmap_value s
  else .ok { s with rmap := Function.update s.rmap (pa >>> PTXSHIFT) value }

/-- `add_memshared_pte`, with the state at the panic. -/
def add_memshared_pte_exec (c : Config) (pa index pte : Nat) (s : State) : Exec State :=
  if pa_out_of_range c pa then .panic .dec_rmap_value s
  else .ok { s with shared_ptes := Function.update s.shared_ptes (pa >>> PTXSHIFT)
                      (Function.update (s.shared_ptes (pa >>> PTXSHIFT)) index pte) }

/-- `get_page`, with the state at the panic. -/
def get_page_exec (k : Collab) (victim_proc : Nat) (s : State) : Exec (Nat × State) :=
  let victim_page := k.get_victim_page s victim_proc
  if victim_page ≠ 0 then .ok (victim_page, s)
  else
    let s1 := k.clear_proc_access s victim_proc
    let victim_page1 := k.get_victim_page s1 victim_proc
    if victim_page1 = 0 then .panic .swap_out_nothing_found s1
    else .ok (victim_page1, s1)

/-- `swap_out`, with the state at the panic. -/
def swap_out_exec (c : Config) (k : Collab) (s : State) : Exec State :=
  let victim_proc := k.get_victim_proc s
  let s0 : State := { s with trace := s.trace ++ [Event.get_victim_proc] }
  let s1 : State := { s0 with rss := Function.update s0.rss victim_proc (s0.rss victim_proc - 4096) }
  match get_page_exec k victim_proc s1 with
  | .panic p st => .panic p st
  | .outOfFuel => .outOfFuel
  | .ok (victim_page, s2) =>
    let i := scan_free_slot s2.swapblock (nslots c) 0
    if i = nslots c then .panic .no_free_slots_found s2
    else
      let blockno := i
      let s3 : State := { s2 with swapblock := (Function.update s2.swapblock blockno
                            { s2.swapblock blockno with
                              free_int := 0, page_perm := PTE_FLAGS (s2.ptes victim_page) }) }
      let p_addr := PTE_ADDR (s3.ptes victim_page)
      let s4 := page_to_disk c.ROOTDEV (P2V c p_addr) (2 + 8 * blockno) s3
      let s5 : State := { s4 with ptes := Function.update s4.ptes victim_page (swapped_pte blockno) }
      match get_rmap_value_exec c p_addr s5 with
      | .panic p st => .panic p st
      | .outOfFuel => .outOfFuel
      | .ok rfc =>
        let s6 : State := { s5 with swapblock := (Function.update s5.swapblock blockno
                              { s5.swapblock blockno with refcount := toI32 rfc }) }
        let r := swap_out_rewrite c.NPROC victim_page p_addr s6
        let s7 := swap_out_record c.NPROC blockno r.1 r.2
        match set_rmap_value_exec c p_addr 0 s7 with
        | .panic p st => .panic p st
        | .outOfFuel => .outOfFuel
        | .ok s8 => kfree_exec c (P2V c p_addr) s8

/-- `kalloc`, with the state at the panic. -/
def kalloc_exec (c : Config) (k : Collab) : Nat → State → Exec (Nat × State)
  | 0, _ => .outOfFuel
  | fuel + 1, s =>
    let r := s.freelist
    if r ≠ 0 then
      let s1 : State := { s with freelist := load32 s.mem r }
      let pa := V2P c r
      match set_rmap_value_no_lock_exec c pa 1 s1 with
      | .panic p st => .panic p st
      | .outOfFuel => .outOfFuel
      | .ok s2 =>
        let s3 : State := { s2 with num_free_pages := dec32 s2.num_free_pages }
        .ok (r, set_all_kmem_zero c pa s3)
    else
      match swap_out_exec c k s with
      | .panic p st => .panic p st
      | .outOfFuel => .outOfFuel
      | .ok s1 => kalloc_exec c k fuel s1

/-- `walkpgdir`, with the state at the panic. -/
def walkpgdir_exec (c : Config) (k : Collab) (fuel : Nat) (pgdir va alloc : Nat) (s : State) :
    Exec (Nat × State) :=
  let pde := (pgdir + 4 * PDX va) % U32
  if s.ptes pde &&& PTE_P ≠ 0 then
    let pgtab := P2V c (PTE_ADDR (s.ptes pde))
    .ok ((pgtab + 4 * PTX va) % U32, s)
  else if alloc = 0 then .ok (0, s)
  else
    match kalloc_exec c k fuel s with
    | .panic p st => .panic p st
    | .outOfFuel => .outOfFuel
    | .ok (pgtab, s1) =>
      if pgtab = 0 then .ok (0, s1)
      else
        let s2 : State := { s1 with mem := memset s1.mem pgtab 0 PGSIZE
                                    ptes := zero_pgtab s1.ptes pgtab }
        let s3 : State := { s2 with ptes := Function.update s2.ptes pde
                                      (V2P c pgtab ||| PTE_P ||| PTE_W ||| PTE_U) }
        .ok ((pgtab + 4 * PTX va) % U32, s3)

/-- The loop of the swap-in branch, with the state at the panic. -/
def swap_in_loop_exec (c : Config) (row : Nat → Nat) (pte pa : Nat) :
    Nat → Nat → State → Exec State
  | 0, _, s => .ok s
  | n + 1, counter, s =>
    if row counter ≠ 0 then
      let s1 : State := { s with ptes := Function.update s.ptes (row counter) (s.ptes pte) }
      match add_memshared_pte_exec c pa counter (row counter) s1 with
      | .panic p st => .panic p st
      | .outOfFuel => .outOfFuel
      | .ok s2 => swap_in_loop_exec c row pte pa n (counter + 1) s2
    else swap_in_loop_exec c row pte pa n (counter + 1) s

/-- `handle_page_write_off`, with the state at the panic.  The three panics of
the handler itself come before its first write: `walkpgdir` is called with
`alloc = 0`, and the entry and `get_rmap_value` are only read. -/
def handle_page_write_off_exec (c : Config) (k : Collab) (fuel : Nat) (s : State) : Exec State :=
  let cr2 := s.cr2
  match walkpgdir_exec c k fuel (s.pgdir s.cur) cr2 0 s with
  | .panic p st => .panic p st
  | .outOfFuel => .outOfFuel
  | .ok (pte, s) =>
    if s.ptes pte &&& PTE_P ≠ 0 then
      if PTE_W &&& s.ptes pte ≠ 0 then .panic .write_bit_already_on s
      else
        let pa := PTE_ADDR (s.ptes pte)
        let flags := PTE_FLAGS (s.ptes pte)
        match get_rmap_value_exec c pa s with
        | .panic p st => .panic p st
        | .outOfFuel => .outOfFuel
        | .ok rfc =>
          if rfc < 1 then .panic .incorrect_reference_count s
          else if rfc = 1 then
            let s1 : State := { s with ptes := Function.update s.ptes pte (s.ptes pte ||| PTE_W) }
            .ok (lcr3 (V2P c (s1.pgdir s1.cur)) s1)
          else
            match kalloc_exec c k fuel s with
            | .panic p st => .panic p st
            | .outOfFuel => .outOfFuel
            | .ok (mem, s1) =>
              if mem = 0 then .panic .mem_zero s1
              else
                let s2 : State := { s1 with mem := memmove s1.mem mem (P2V c pa) PGSIZE }
                let s3 := mem_remove_entry c pa pte s2
                match kfree_exec c (P2V c pa) s3 with
                | .panic p st => .panic p st
                | .outOfFuel => .outOfFuel
                | .ok s4 =>
                  let s5 : State :=
                    { s4 with ptes := Function.update s4.ptes pte (V2P c mem ||| flags ||| PTE_W) }
                  let s6 := add_pte_mem c (V2P c mem) pte s5
                  .ok (lcr3 (V2P c (s6.pgdir s6.cur)) s6)
    else
      if s.ptes pte &&& 0x008 = 0 then .panic .no_swap_out_bit s
      else
        let s1 : State := { s with rss := Function.update s.rss s.cur (s.rss s.cur + 4096) }
        let blockid := PTE_ADDR (s1.ptes pte) >>> PTXSHIFT
        match kalloc_exec c k fuel s1 with
        | .panic p st => .panic p st
        | .outOfFuel => .outOfFuel
        | .ok (mem, s2) =>
          let s3 := disk_to_page c.ROOTDEV mem blockid s2
          let pa := V2P c mem
          let blockno := sub32 blockid 2 / 8
          let s4 : State := { s3 with ptes := (Function.update s3.ptes pte
                                (PTE_ADDR pa ||| (s3.swapblock blockno).page_perm ||| PTE_P)) }
          let s5 : State := { s4 with ptes := (Function.update s4.ptes pte
                                (s4.ptes pte &&& 0xFFFFFFF7)) }
          match set_rmap_value_exec c pa (s5.swapblock blockno).refcount s5 with
          | .panic p st => .panic p st
          | .outOfFuel => .outOfFuel
          | .ok s6 =>
            match swap_in_loop_exec c (s6.swapblock blockno).shared_ptes pte pa c.NPROC 0 s6 with
            | .panic p st => .panic p st
            | .outOfFuel => .outOfFuel
            | .ok s7 =>
              .ok { s7 with swapblock := (Function.update s7.swapblock blockno
                              { s7.swapblock blockno with free_int := 1 }) }

/-! ## Lemmas -/

theorem kfree_bad_iff (c : Config) (v : Nat) : kfree_bad c v ↔ ¬ valid_frame c v := by
  unfold kfree_bad valid_frame
  constructor
  · rintro (h | h | h) ⟨h1, h2, h3⟩ <;> omega
  · intro h
    by_contra hc
    apply h
    refine ⟨?_, ?_, ?_⟩ <;> omega

theorem load32_store32 (m : Nat → Nat) (a w : Nat) : load32 (store32 m a w) a = w % U32 := by
  unfold load32 store32 U32
  simp
  omega

theorem store32_far (m : Nat → Nat) (a w x : Nat) (h : x < a ∨ a + 4 ≤ x) :
    store32 m a w x = m x := by
  unfold store32
  have h1 : x ≠ a := by omega
  have h2 : x ≠ a + 1 := by omega
  have h3 : x ≠ a + 2 := by omega
  have h4 : x ≠ a + 3 := by omega
  simp [h1, h2, h3, h4]

theorem memset_in (m : Nat → Nat) (dst cb n a : Nat) (h1 : dst ≤ a) (h2 : a < dst + n) :
    memset m dst cb n a = cb % 256 := by
  unfold memset; simp [h1, h2]

theorem memset_out (m : Nat → Nat) (dst cb n a : Nat) (h : a < dst ∨ dst + n ≤ a) :
    memset m dst cb n a = m a := by
  unfold memset
  have : ¬ (dst ≤ a ∧ a < dst + n) := by omega
  simp [this]

theorem kfree_ok_keep (c : Config) (v : Nat) (s : State) (hv : valid_frame c v)
    (h : 1 < s.rmap (V2P c v >>> PTXSHIFT)) :
    kfree c v s
      = .ok (with_rmap (V2P c v >>> PTXSHIFT) (s.rmap (V2P c v >>> PTXSHIFT) - 1) s) := by
  have hb : ¬ kfree_bad c v := by rw [kfree_bad_iff]; exact fun h => h hv
  have hpos : s.rmap (V2P c v >>> PTXSHIFT) > 0 := by omega
  unfold kfree
  simp only [hb, if_false, hpos, if_true, Function.update_same]
  rw [if_neg (by omega)]
  rfl

theorem kfree_ok_last (c : Config) (v : Nat) (s : State) (hv : valid_frame c v)
    (h : s.rmap (V2P c v >>> PTXSHIFT) = 1) :
    kfree c v s = .ok (kfree_push v (with_rmap (V2P c v >>> PTXSHIFT) 0 s)) := by
  have hb : ¬ kfree_bad c v := by rw [kfree_bad_iff]; exact fun h => h hv
  have hpos : s.rmap (V2P c v >>> PTXSHIFT) > 0 := by omega
  unfold kfree
  simp only [hb, if_false, hpos, if_true, Function.update_same]
  rw [if_pos (by omega)]
  simp [kfree_push, with_rmap, h]

theorem kfree_ok_zero (c : Config) (v : Nat) (s : State) (hv : valid_frame c v)
    (h : s.rmap (V2P c v >>> PTXSHIFT) = 0) :
    kfree c v s = .ok (kfree_push v s) := by
  have hb : ¬ kfree_bad c v := by rw [kfree_bad_iff]; exact fun h => h hv
  unfold kfree
  simp only [hb, if_false, h, gt_iff_lt, lt_self_iff_false, if_true]
  rfl

theorem kfree_ok_neg (c : Config) (v : Nat) (s : State) (hv : valid_frame c v)
    (h : s.rmap (V2P c v >>> PTXSHIFT) < 0) :
    kfree c v s = .ok s := by
  have hb : ¬ kfree_bad c v := by rw [kfree_bad_iff]; exact fun h => h hv
  have hpos : ¬ s.rmap (V2P c v >>> PTXSHIFT) > 0 := by omega
  unfold kfree
  simp only [hb, if_false, hpos]
  rw [if_neg (by omega)]

theorem kfree_push_bytes (v : Nat) (s : State) (i : Nat) (h4 : 4 ≤ i) (hi : i < PGSIZE) :
    (kfree_push v s).mem (v + i) = 1 := by
  show store32 _ _ _ _ = 1
  rw [store32_far _ _ _ _ (by omega), memset_in _ _ _ _ _ (by omega) (by omega)]

theorem kfree_push_link (v : Nat) (s : State) :
    load32 (kfree_push v s).mem v = s.freelist % U32 := by
  show load32 (store32 _ _ _) _ = _
  rw [load32_store32]

theorem set_all_kmem_zero_fold (idx n : Nat) (s : State) :
    (List.range n).foldl
      (fun st i => { st with shared_ptes := Function.update st.shared_ptes idx
                              (Function.update (st.shared_ptes idx) i 0) }) s
    = { s with shared_ptes := fun j i => if j = idx ∧ i < n then 0 else s.shared_ptes j i } := by
  induction n with
  | zero => simp
  | succ n ih =>
    rw [List.range_succ, List.foldl_append, ih]
    simp only [List.foldl_cons, List.foldl_nil]
    congr 1
    funext j i
    by_cases hj : j = idx
    · subst hj
      by_cases hi : i = n
      · subst hi; simp
      · have : (i < n + 1) = (i < n) := by apply propext; omega
        simp [Function.update_noteq hi, this]
    · simp [Function.update_noteq hj, hj]

theorem set_all_kmem_zero_eq (c : Config) (pa : Nat) (s : State) :
    set_all_kmem_zero c pa s
    = { s with shared_ptes := fun j i =>
          if j = pa >>> 12 ∧ i < c.NPROC then 0 else s.shared_ptes j i } :=
  set_all_kmem_zero_fold (pa >>> 12) c.NPROC s

theorem kalloc_ok_pop (c : Config) (k : Collab) (fuel : Nat) (s : State)
    (h0 : s.freelist ≠ 0) (hr : ¬ pa_out_of_range c (V2P c s.freelist)) :
    kalloc c k (fuel + 1) s = .ok (s.freelist, kalloc_pop c s) := by
  unfold kalloc
  simp only [h0, ne_eq, not_false_eq_true, if_true, set_rmap_value_no_lock, hr, if_false]
  rw [set_all_kmem_zero_eq]
  rfl

/-! ## Claims about `kfree` and `kalloc` -/

/-- C1.  For a valid frame `v` with `rmap[v] = r ≥ 1`, `kfree v` returns and sets
`rmap[v]` to `r - 1`.  If `r - 1 > 0`, the free list, `num_free_pages` and all of
memory are unchanged.  If `r - 1 = 0`, the frame is filled with `0x01` and pushed
on the intrusive free list: the bytes at offsets 4 to 4095 are `0x01`, the first
word is the link to the old head (memory outside the frame, hence the old list,
is unchanged), so `v` is the new head with the old list as its tail, and
`num_free_pages` is incremented (as a `uint`, by exactly 1 below `2^32`). -/
theorem kfree_decrements (c : Config) (v : Nat) (s : State) (r : Int)
    (hv : valid_frame c v) (hr : s.rmap (frame_index c v) = r) (h1 : 1 ≤ r) :
    ∃ s', kfree c v s = .ok s' ∧
      s'.rmap (frame_index c v) = r - 1 ∧
      (r - 1 > 0 → s'.freelist = s.freelist ∧ s'.num_free_pages = s.num_free_pages ∧
        s'.mem = s.mem) ∧
      (r - 1 = 0 →
        (∀ i, 4 ≤ i → i < PGSIZE → s'.mem (v + i) = 1) ∧
        load32 s'.mem v = s.freelist % U32 ∧
        (∀ a, a < v ∨ v + PGSIZE ≤ a → s'.mem a = s.mem a) ∧
        s'.freelist = v ∧
        s'.num_free_pages = (s.num_free_pages + 1) % U32 ∧
        (s.num_free_pages + 1 < U32 → s'.num_free_pages = s.num_free_pages + 1)) := by
  unfold frame_index at *
  by_cases h0 : r - 1 = 0
  · refine ⟨_, kfree_ok_last c v s hv (by omega), ?_, fun h => by omega,
      fun _ => ⟨?_, ?_, ?_, rfl, rfl, ?_⟩⟩
    · simp [kfree_push, with_rmap]; omega
    · exact fun i h4 hi => kfree_push_bytes v _ i h4 hi
    · exact kfree_push_link v _
    · intro a ha
      show store32 _ _ _ _ = _
      rw [store32_far _ _ _ _ (by unfold PGSIZE at ha; omega), memset_out _ _ _ _ _ ha]
      rfl
    · intro hlt
      show (s.num_free_pages + 1) % U32 = _
      exact Nat.mod_eq_of_lt hlt
  · refine ⟨_, kfree_ok_keep c v s hv (by omega), ?_, fun _ => ⟨rfl, rfl, rfl⟩,
      fun h => absurd h h0⟩
    simp [with_rmap, hr]

/-- Instance of `kfree_decrements`: frame `frameA` held once, freed onto an empty list. -/
theorem kfree_decrements_witness :
    valid_frame cfg0 frameA ∧ st_heldA.rmap (frame_index cfg0 frameA) = 1 ∧
    ∃ s', kfree cfg0 frameA st_heldA = .ok s' ∧ s'.rmap (frame_index cfg0 frameA) = 0 ∧
      s'.freelist = frameA ∧ s'.num_free_pages = 1 := by
  refine ⟨by decide, by decide, ?_⟩
  obtain ⟨s', h1, h2, _, h4⟩ :=
    kfree_decrements cfg0 frameA st_heldA 1 (by decide) (by decide) (by decide)
  obtain ⟨_, _, _, h5, h6, _⟩ := h4 (by decide)
  exact ⟨s', h1, h2, h5, h6⟩

/-- C2.  When the free list is non-empty and its head `h` is a frame of the managed
range, `kalloc` returns `h` (for every collaborator and every positive fuel) and
`swap_out` is not invoked: no outside call is traced and the victim accounting,
the swap store, memory, page tables and disk are untouched.  The free list becomes
the former tail (the link stored in `h`), `rmap[h]` is 1, the `NPROC` sharer
entries of `h` are null, `num_free_pages` is decremented (`dec32`, the `uint`
decrement, which is the predecessor whenever the counter is positive), and `rmap`
and `shared_ptes` of every other frame are unchanged. -/
theorem kalloc_pops_head (c : Config) (k : Collab) (fuel : Nat) (s : State) (h : Nat)
    (hh : s.freelist = h) (hne : h ≠ 0) (hr : ¬ pa_out_of_range c (V2P c h)) :
    ∃ s', kalloc c k (fuel + 1) s = .ok (h, s') ∧
      s'.trace = s.trace ∧ s'.rss = s.rss ∧ s'.swapblock = s.swapblock ∧
      s'.mem = s.mem ∧ s'.ptes = s.ptes ∧ s'.disk = s.disk ∧
      s'.freelist = load32 s.mem h ∧
      s'.rmap (frame_index c h) = 1 ∧
      (∀ i, i < c.NPROC → s'.shared_ptes (frame_index c h) i = 0) ∧
      s'.num_free_pages = dec32 s.num_free_pages ∧
      (0 < s.num_free_pages → s.num_free_pages < U32 →
        s'.num_free_pages + 1 = s.num_free_pages) ∧
      (∀ j, j ≠ frame_index c h →
        s'.rmap j = s.rmap j ∧ s'.shared_ptes j = s.shared_ptes j) := by
  subst hh
  refine ⟨kalloc_pop c s, kalloc_ok_pop c k fuel s hne hr, ?_⟩
  refine ⟨rfl, rfl, rfl, rfl, rfl, rfl, rfl, ?_, ?_, rfl, ?_, ?_⟩
  · simp [kalloc_pop, frame_index]
  · intro i hi
    simp [kalloc_pop, frame_index, hi]
  · intro h1 h2
    show dec32 s.num_free_pages + 1 = s.num_free_pages
    unfold dec32 U32 at *
    rw [Nat.mod_eq_of_lt h2, if_neg (by omega)]
    omega
  · intro j hj
    unfold frame_index at hj
    refine ⟨?_, ?_⟩
    · simp [kalloc_pop, Function.update_noteq hj]
    · funext i
      simp [kalloc_pop, hj]

/-- Instance of `kalloc_pops_head`: the free list holds exactly `frameA`. -/
theorem kalloc_pops_head_witness :
    st_freeA.freelist = frameA ∧ frameA ≠ 0 ∧ ¬ pa_out_of_range cfg0 (V2P cfg0 frameA) ∧
    ∃ s', kalloc cfg0 collab0 1 st_freeA = .ok (frameA, s') ∧
      s'.freelist = 0 ∧ s'.rmap (frame_index cfg0 frameA) = 1 ∧ s'.num_free_pages = 0 := by
  refine ⟨rfl, by decide, by decide, ?_⟩
  obtain ⟨s', h1, _, _, _, _, _, _, h2, h3, _, h4, h5, _⟩ :=
    kalloc_pops_head cfg0 collab0 0 st_freeA frameA rfl (by decide) (by decide)
  refine ⟨s', h1, ?_, h3, ?_⟩
  · rw [h2]; decide
  · have := h5 (by decide) (by decide)
    have h6 : st_freeA.num_free_pages = 1 := rfl
    omega

/-- C3 (as amended).  For a valid frame `v` with `rmap[v] = 1`, two calls of `kfree v`
both return.  The first moves `v` to the head of the free list.  The second leaves
`rmap` and the head as they are, but is not a no-op: it pushes `v` again, so
`num_free_pages` is incremented once more and the link word of `v` now points to
`v` itself. -/
theorem kfree_twice (c : Config) (v : Nat) (s : State)
    (hv : valid_frame c v) (h1 : s.rmap (frame_index c v) = 1) :
    ∃ s1 s2, kfree c v s = .ok s1 ∧ kfree c v s1 = .ok s2 ∧
      s1.rmap (frame_index c v) = 0 ∧ s1.freelist = v ∧
      s1.num_free_pages = (s.num_free_pages + 1) % U32 ∧
      load32 s1.mem v = s.freelist % U32 ∧
      s2.rmap = s1.rmap ∧ s2.freelist = s1.freelist ∧
      s2.num_free_pages = (s1.num_free_pages + 1) % U32 ∧
      load32 s2.mem v = v % U32 := by
  unfold frame_index at *
  have hz : (kfree_push v (with_rmap (V2P c v >>> PTXSHIFT) 0 s)).rmap (V2P c v >>> PTXSHIFT) = 0 := by
    simp [kfree_push, with_rmap]
  refine ⟨_, _, kfree_ok_last c v s hv h1, kfree_ok_zero c v _ hv hz, hz, rfl, rfl, ?_, rfl, rfl,
    rfl, ?_⟩
  · exact kfree_push_link v _
  · exact kfree_push_link v _

/-- Instance of `kfree_twice`: frame `frameA` held once. -/
theorem kfree_twice_witness :
    valid_frame cfg0 frameA ∧ st_heldA.rmap (frame_index cfg0 frameA) = 1 ∧
    ∃ s1 s2, kfree cfg0 frameA st_heldA = .ok s1 ∧ kfree cfg0 frameA s1 = .ok s2 ∧
      s2.rmap = s1.rmap ∧ s2.num_free_pages = (s1.num_free_pages + 1) % U32 := by
  refine ⟨by decide, by decide, ?_⟩
  obtain ⟨s1, s2, a, b, _, _, _, _, e, _, f, _⟩ :=
    kfree_twice cfg0 frameA st_heldA (by decide) (by decide)
  exact ⟨s1, s2, a, b, e, f⟩

/-- C3 (as stated) fails: freeing frame `frameA` (held once) twice leaves
`num_free_pages` at 2 instead of 1, and the second call turns the free list into a
cycle (the link of `frameA` is `frameA` instead of null). -/
theorem kfree_second_call_pushes_again :
    valid_frame cfg0 frameA ∧ st_heldA.rmap (frame_index cfg0 frameA) = 1 ∧
    ∃ s1 s2, kfree cfg0 frameA st_heldA = .ok s1 ∧ kfree cfg0 frameA s1 = .ok s2 ∧
      s1.num_free_pages = 1 ∧ s2.num_free_pages = 2 ∧
      load32 s1.mem frameA = 0 ∧ load32 s2.mem frameA = frameA := by
  refine ⟨by decide, by decide, _, _,
    kfree_ok_last cfg0 frameA st_heldA (by decide) (by decide),
    kfree_ok_zero cfg0 frameA _ (by decide) (by decide), by decide, by decide, by decide,
    by decide⟩

theorem walkpgdir_no_alloc (c : Config) (k : Collab) (fuel : Nat) (pgdir va : Nat) (s : State) :
    walkpgdir c k fuel pgdir va 0 s
      = .ok (if s.ptes ((pgdir + 4 * PDX va) % U32) &&& PTE_P ≠ 0
             then (P2V c (PTE_ADDR (s.ptes ((pgdir + 4 * PDX va) % U32))) + 4 * PTX va) % U32
             else 0, s) := by
  unfold walkpgdir
  by_cases h : s.ptes ((pgdir + 4 * PDX va) % U32) &&& PTE_P ≠ 0
  · rw [if_pos h, if_pos h]
  · rw [if_neg h, if_neg h, if_pos rfl]

theorem walkpgdir_fault (c : Config) (k : Collab) (fuel : Nat) (s : State) :
    walkpgdir c k fuel (s.pgdir s.cur) s.cr2 0 s = .ok (fault_pte c s, s) :=
  walkpgdir_no_alloc c k fuel _ _ s

theorem V2P_P2V (c : Config) (a : Nat) (h : a < U32) : V2P c (P2V c a) = a := by
  unfold V2P P2V U32 at *
  omega

theorem PTE_ADDR_lt (x : Nat) : PTE_ADDR x < U32 := by
  unfold PTE_ADDR U32
  exact Nat.lt_of_le_of_lt Nat.and_le_right (by decide)

theorem remove_entry_row_eq (n : Nat) (row : Nat → Nat) (pte : Nat) :
    remove_entry_row n row pte = fun i => if i < n ∧ row i = pte then 0 else row i := by
  unfold remove_entry_row
  induction n with
  | zero => simp
  | succ n ih =>
    rw [List.range_succ, List.foldl_append, ih]
    simp only [List.foldl_cons, List.foldl_nil]
    funext i
    by_cases hi : i = n
    · subst hi
      by_cases hp : row i = pte <;> simp [hp]
    · have e : (i < n + 1) = (i < n) := by apply propext; omega
      by_cases hp : row n = pte
      · simp [hp, Function.update_noteq hi, e]
      · simp [hp, e]

theorem add_pte_scan_zero_row (row : Nat → Nat) (pte : Nat) (hp : pte ≠ 0) :
    ∀ (n i : Nat) (found : Option Nat), (∀ j, i ≤ j → j < i + n → row j = 0) →
      add_pte_scan row pte n i found
        = some (match found with
                | some e => some e
                | none => if 0 < n then some i else none) := by
  intro n
  induction n with
  | zero => intro i found _; cases found <;> simp [add_pte_scan]
  | succ n ih =>
    intro i found h
    have hi : row i = 0 := h i (Nat.le_refl _) (by omega)
    have hne : ¬ row i = pte := by rw [hi]; exact fun e => hp e.symm
    have hne' : ¬ 0 = pte := fun e => hp e.symm
    unfold add_pte_scan
    simp only [hne, if_false, hi, if_true]
    rw [ih (i + 1) _ (fun j h1 h2 => h j (by omega) (by omega))]
    cases found <;> simp [hne']

theorem add_pte_row_zero_row (n : Nat) (row : Nat → Nat) (pte : Nat) (hn : 0 < n)
    (h : ∀ j, j < n → row j = 0) :
    add_pte_row n row pte = Function.update row 0 pte := by
  unfold add_pte_row
  by_cases hp : pte = 0
  · subst hp
    obtain ⟨m, rfl⟩ : ∃ m, n = m + 1 := ⟨n - 1, by omega⟩
    have h0 : row 0 = 0 := h 0 hn
    have : add_pte_scan row 0 (m + 1) 0 none = none := by
      unfold add_pte_scan; simp [h0]
    rw [this]
    funext i
    by_cases hi : i = 0
    · subst hi; simp [h0]
    · simp [Function.update_noteq hi]
  · rw [add_pte_scan_zero_row row pte hp n 0 none (fun j _ hj => h j (by omega))]
    simp [hn]


theorem toU32_of_nonneg (x : Int) (h0 : 0 ≤ x) (h1 : x < 4294967296) : toU32 x = x.toNat := by
  unfold toU32
  rw [Int.emod_eq_of_lt h0 h1]


theorem hpwo_cow (c : Config) (k : Collab) (fuel : Nat) (s : State) (pte : Nat)
    (hpte : fault_pte c s = pte)
    (hP : s.ptes pte &&& PTE_P ≠ 0)
    (hW : PTE_W &&& s.ptes pte = 0)
    (hpa : ¬ pa_out_of_range c (PTE_ADDR (s.ptes pte)))
    (hva : valid_frame c (P2V c (PTE_ADDR (s.ptes pte))))
    (hr : 1 < toU32 (s.rmap (PTE_ADDR (s.ptes pte) >>> PTXSHIFT)))
    (hr2 : 1 < s.rmap (PTE_ADDR (s.ptes pte) >>> PTXSHIFT))
    (hm0 : s.freelist ≠ 0) (hm : ¬ pa_out_of_range c (V2P c s.freelist))
    (hd : V2P c s.freelist >>> PTXSHIFT ≠ PTE_ADDR (s.ptes pte) >>> PTXSHIFT) :
    handle_page_write_off c k (fuel + 1) s = .ok (cow_split c pte s) := by
  have e := V2P_P2V c _ (PTE_ADDR_lt (s.ptes pte))
  have hk := kfree_ok_keep c (P2V c (PTE_ADDR (s.ptes pte)))
      (mem_remove_entry c (PTE_ADDR (s.ptes pte)) pte
        { kalloc_pop c s with
          mem := memmove (kalloc_pop c s).mem s.freelist
                  (P2V c (PTE_ADDR (s.ptes pte))) PGSIZE }) hva (by
    rw [e]
    simp only [mem_remove_entry, kalloc_pop]
    rw [Function.update_noteq (Ne.symm hd)]
    exact hr2)
  unfold handle_page_write_off
  simp only [walkpgdir_fault, hpte]
  rw [if_pos hP, if_neg (by rw [hW]; simp)]
  simp only [get_rmap_value, hpa, if_false]
  rw [if_neg (by omega), if_neg (by omega)]
  simp only [kalloc_ok_pop c k fuel s hm0 hm]
  rw [if_neg hm0]
  simp only [hk]
  rfl

theorem PTE_ADDR_or_W (x : Nat) : PTE_ADDR (x ||| PTE_W) = PTE_ADDR x := by
  unfold PTE_ADDR PTE_W
  rw [Nat.and_comm, Nat.and_or_distrib_left, Nat.and_comm]
  have : (4294963200 : Nat) &&& 2 = 0 := by decide
  rw [this, Nat.or_zero]

theorem PTE_FLAGS_or_W (x : Nat) : PTE_FLAGS (x ||| PTE_W) = PTE_FLAGS x ||| PTE_W := by
  unfold PTE_FLAGS PTE_W
  rw [Nat.and_comm, Nat.and_or_distrib_left, Nat.and_comm]
  have : (4095 : Nat) &&& 2 = 2 := by decide
  rw [this]


theorem testBit_of_and_two_pow (x j : Nat) (h : x &&& 2 ^ j ≠ 0) : x.testBit j = true := by
  by_contra hc
  apply h
  apply Nat.eq_of_testBit_eq
  intro i
  rw [Nat.testBit_and, Nat.testBit_two_pow, Nat.zero_testBit]
  by_cases hi : j = i
  · subst hi; simp [hc]
  · simp [hi]

theorem and_two_pow_of_testBit (x j : Nat) (h : x.testBit j = true) : x &&& 2 ^ j ≠ 0 := by
  intro hc
  have : (x &&& 2 ^ j).testBit j = true := by
    rw [Nat.testBit_and, Nat.testBit_two_pow, h]; simp
  rw [hc, Nat.zero_testBit] at this
  exact Bool.noConfusion this

theorem cow_pte_bits (a old : Nat) (hP : old &&& PTE_P ≠ 0) :
    (a ||| PTE_FLAGS old ||| PTE_W) &&& PTE_P ≠ 0 ∧ (a ||| PTE_FLAGS old ||| PTE_W) &&& PTE_W ≠ 0 := by
  have e0 : PTE_P = 2 ^ 0 := rfl
  have e1 : PTE_W = 2 ^ 1 := rfl
  have h0 : old.testBit 0 = true := testBit_of_and_two_pow old 0 (by rw [← e0]; exact hP)
  constructor
  · rw [e0]
    apply and_two_pow_of_testBit
    unfold PTE_FLAGS
    rw [Nat.testBit_or, Nat.testBit_or, Nat.testBit_and, h0]
    simp
  · rw [e1]
    apply and_two_pow_of_testBit
    rw [Nat.testBit_or]
    have : ((2 : Nat) ^ 1).testBit 1 = true := by decide
    rw [this]
    simp

/-! ## Claims about the write-fault path of `handle_page_write_off` -/

/-- C4.  Copy-on-write split.  The fault is on a page-table entry `pte` (not null)
that is present, not writable, and maps a valid frame `pa` with `rmap[pa] = r > 1`
(`r` an `int`); the free list is non-empty and its head `m` is a frame of the
managed range other than `pa`.  Then the handler returns, and afterwards the
entry is `V2P(m) | flags | PTE_W` with `flags` the old flag bits (so `PTE_P` and
`PTE_W` are set), `rmap[pa] = r - 1`,
`rmap[m] = 1`, the 4096 bytes of `m` are the bytes `pa` held before, no sharer
entry of `pa` refers to `pte`, and the sharers of `m` are `pte` (at index 0) and
nothing else. -/
theorem cow_split_fault (c : Config) (k : Collab) (fuel : Nat) (s : State)
    (pte pa m : Nat) (r : Int)
    (hpte : fault_pte c s = pte) (hp0 : pte ≠ 0)
    (hP : s.ptes pte &&& PTE_P ≠ 0) (hW : s.ptes pte &&& PTE_W = 0)
    (hpa : PTE_ADDR (s.ptes pte) = pa) (hv : valid_pa c pa)
    (hr : s.rmap (pa >>> PTXSHIFT) = r) (hr1 : 1 < r) (hr2 : r < 2147483648)
    (hm : s.freelist = m) (hm0 : m ≠ 0) (hmr : ¬ pa_out_of_range c (V2P c m))
    (hd : frame_index c m ≠ pa >>> PTXSHIFT) (hn : 0 < c.NPROC) :
    ∃ s', handle_page_write_off c k (fuel + 1) s = .ok s' ∧
      s'.ptes pte = V2P c m ||| PTE_FLAGS (s.ptes pte) ||| PTE_W ∧
      (s'.ptes pte &&& PTE_P ≠ 0 ∧ s'.ptes pte &&& PTE_W ≠ 0) ∧
      s'.rmap (pa >>> PTXSHIFT) = r - 1 ∧
      s'.rmap (frame_index c m) = 1 ∧
      (∀ i, i < PGSIZE → s'.mem (m + i) = s.mem (P2V c pa + i)) ∧
      (∀ i, i < c.NPROC → s'.shared_ptes (pa >>> PTXSHIFT) i ≠ pte) ∧
      s'.shared_ptes (frame_index c m) 0 = pte ∧
      (∀ i, 0 < i → i < c.NPROC → s'.shared_ptes (frame_index c m) i = 0) := by
  subst hpa hm
  unfold frame_index at *
  have hu : 1 < toU32 (s.rmap (PTE_ADDR (s.ptes pte) >>> PTXSHIFT)) := by
    rw [hr, toU32_of_nonneg r (by omega) (by omega)]; omega
  have e := V2P_P2V c _ (PTE_ADDR_lt (s.ptes pte))
  have hval : (cow_split c pte s).ptes pte
      = V2P c s.freelist ||| PTE_FLAGS (s.ptes pte) ||| PTE_W := by
    simp [cow_split, lcr3, add_pte_mem]
  refine ⟨_, hpwo_cow c k fuel s pte hpte hP (by rw [Nat.and_comm]; exact hW) hv.1 hv.2 hu
    (by rw [hr]; exact hr1) hm0 hmr hd, hval, ?_, ?_, ?_, ?_, ?_, ?_, ?_⟩
  · rw [hval]; exact cow_pte_bits _ _ hP
  · simp [cow_split, lcr3, add_pte_mem, with_rmap, e, mem_remove_entry, kalloc_pop,
      Function.update_noteq (Ne.symm hd), hr]
  · simp [cow_split, lcr3, add_pte_mem, with_rmap, e, mem_remove_entry, kalloc_pop,
      Function.update_noteq hd]
  · intro i hi
    simp [cow_split, lcr3, add_pte_mem, with_rmap, mem_remove_entry, kalloc_pop, memmove, hi]
  · intro i hi
    simp only [cow_split, lcr3, add_pte_mem, with_rmap, e, mem_remove_entry, kalloc_pop]
    rw [Function.update_noteq (Ne.symm hd), Function.update_same, remove_entry_row_eq]
    simp only [hi, true_and, Ne.symm hd, false_and, if_false]
    by_cases h : s.shared_ptes (PTE_ADDR (s.ptes pte) >>> PTXSHIFT) i = pte
    · rw [if_pos h]; exact fun h0 => hp0 h0.symm
    · rw [if_neg h]; exact h
  · simp only [cow_split, lcr3, add_pte_mem, with_rmap, e, mem_remove_entry, kalloc_pop]
    rw [Function.update_same, Function.update_noteq hd, add_pte_row_zero_row _ _ _ hn]
    · simp
    · intro j hj; simp [hj]
  · intro i hi0 hi
    simp only [cow_split, lcr3, add_pte_mem, with_rmap, e, mem_remove_entry, kalloc_pop]
    rw [Function.update_same, Function.update_noteq hd, add_pte_row_zero_row _ _ _ hn]
    · rw [Function.update_noteq (by omega)]; simp [hi]
    · intro j hj; simp [hj]

/-- Instance of `cow_split_fault`: the state `st_cow`, fault at address `0x1000`. -/
theorem cow_split_fault_witness :
    ∃ s', handle_page_write_off cfg0 collab0 1 st_cow = .ok s' ∧
      s'.ptes 0x80701004 = 0x600007 ∧ s'.rmap 1280 = 1 ∧ s'.rmap 1536 = 1 ∧
      s'.shared_ptes 1536 0 = 0x80701004 := by
  obtain ⟨s', h, h1, _, h2, h3, _, _, h6, _⟩ :=
    cow_split_fault cfg0 collab0 0 st_cow 0x80701004 0x500000 frameB 2
      (by decide) (by decide) (by decide) (by decide) (by decide) (by decide) (by decide)
      (by decide) (by decide) (by decide) (by decide) (by decide) (by decide) (by decide)
  exact ⟨s', h, h1, h2, h3, h6⟩

/-- C5.  A copy-on-write split leaves the other sharers untouched.  Under the
preconditions of the split (the head `m` of the free list 4096-aligned, in the
managed range and a frame other than `pa`), every page-table word other than the
faulting entry keeps its value, every sharer entry of `pa` that is not the
faulting entry is unchanged, the bytes of frame `pa` (and all memory outside
frame `m`) are unchanged, `pa` is not pushed on the free list (the head becomes
the former second element and `num_free_pages` is only decremented), and the
reference count of `pa` drops by one, to 1 when it was 2. -/
theorem cow_split_others_untouched (c : Config) (k : Collab) (fuel : Nat) (s : State)
    (pte pa m : Nat) (r : Int)
    (hpte : fault_pte c s = pte)
    (hP : s.ptes pte &&& PTE_P ≠ 0) (hW : s.ptes pte &&& PTE_W = 0)
    (hpa : PTE_ADDR (s.ptes pte) = pa) (hv : valid_pa c pa)
    (hr : s.rmap (pa >>> PTXSHIFT) = r) (hr1 : 1 < r) (hr2 : r < 2147483648)
    (hm : s.freelist = m) (hm0 : m ≠ 0) (hma : m % PGSIZE = 0)
    (hmr : ¬ pa_out_of_range c (V2P c m))
    (hd : frame_index c m ≠ pa >>> PTXSHIFT) :
    ∃ s', handle_page_write_off c k (fuel + 1) s = .ok s' ∧
      (∀ q, q ≠ pte → s'.ptes q = s.ptes q) ∧
      (∀ i, s.shared_ptes (pa >>> PTXSHIFT) i ≠ pte →
        s'.shared_ptes (pa >>> PTXSHIFT) i = s.shared_ptes (pa >>> PTXSHIFT) i) ∧
      (∀ i, i < PGSIZE → s'.mem (P2V c pa + i) = s.mem (P2V c pa + i)) ∧
      (∀ a, a < m ∨ m + PGSIZE ≤ a → s'.mem a = s.mem a) ∧
      s'.freelist = load32 s.mem m ∧
      s'.num_free_pages = dec32 s.num_free_pages ∧
      s'.rmap (pa >>> PTXSHIFT) = r - 1 ∧
      (r = 2 → s'.rmap (pa >>> PTXSHIFT) = 1) := by
  subst hpa hm
  unfold frame_index at *
  have hu : 1 < toU32 (s.rmap (PTE_ADDR (s.ptes pte) >>> PTXSHIFT)) := by
    rw [hr, toU32_of_nonneg r (by omega) (by omega)]; omega
  have e := V2P_P2V c _ (PTE_ADDR_lt (s.ptes pte))
  have hne : s.freelist ≠ P2V c (PTE_ADDR (s.ptes pte)) := by
    intro h; apply hd; rw [h, e]
  have hal : P2V c (PTE_ADDR (s.ptes pte)) % PGSIZE = 0 := hv.2.1
  have hrm : (cow_split c pte s).rmap (PTE_ADDR (s.ptes pte) >>> PTXSHIFT) = r - 1 := by
    simp [cow_split, lcr3, add_pte_mem, with_rmap, e, mem_remove_entry, kalloc_pop,
      Function.update_noteq (Ne.symm hd), hr]
  have hmem : ∀ a, a < s.freelist ∨ s.freelist + PGSIZE ≤ a →
      (cow_split c pte s).mem a = s.mem a := by
    intro a ha
    have : ¬ (s.freelist ≤ a ∧ a < s.freelist + PGSIZE) := by omega
    simp [cow_split, lcr3, add_pte_mem, with_rmap, mem_remove_entry, kalloc_pop, memmove, this]
  refine ⟨_, hpwo_cow c k fuel s pte hpte hP (by rw [Nat.and_comm]; exact hW) hv.1 hv.2 hu
    (by rw [hr]; exact hr1) hm0 hmr hd, ?_, ?_, ?_, hmem, ?_, ?_, hrm, ?_⟩
  · intro q hq
    simp [cow_split, lcr3, add_pte_mem, with_rmap, mem_remove_entry, kalloc_pop,
      Function.update_noteq hq]
  · intro i hi
    simp only [cow_split, lcr3, add_pte_mem, with_rmap, e, mem_remove_entry, kalloc_pop]
    rw [Function.update_noteq (Ne.symm hd), Function.update_same, remove_entry_row_eq]
    simp only [Ne.symm hd, false_and, if_false]
    rw [if_neg (fun h => hi h.2)]
  · intro i hi
    apply hmem
    unfold PGSIZE at *
    omega
  · simp [cow_split, lcr3, add_pte_mem, with_rmap, mem_remove_entry, kalloc_pop]
  · simp [cow_split, lcr3, add_pte_mem, with_rmap, mem_remove_entry, kalloc_pop]
  · intro h2
    rw [hrm, h2]
    rfl

/-- Instance of `cow_split_others_untouched`: the state `st_cow`; the second sharer
still maps `frameA`, whose reference count drops from 2 to 1. -/
theorem cow_split_others_untouched_witness :
    ∃ s', handle_page_write_off cfg0 collab0 1 st_cow = .ok s' ∧
      s'.ptes 0x80801004 = 0x500005 ∧ s'.shared_ptes 1280 1 = 0x80801004 ∧
      s'.freelist = 0 ∧ s'.rmap 1280 = 1 := by
  obtain ⟨s', h, h1, h2, _, _, h5, _, _, h8⟩ :=
    cow_split_others_untouched cfg0 collab0 0 st_cow 0x80701004 0x500000 frameB 2
      (by decide) (by decide) (by decide) (by decide) (by decide) (by decide) (by decide)
      (by decide) (by decide) (by decide) (by decide) (by decide) (by decide)
  exact ⟨s', h, h1 0x80801004 (by decide), h2 1 (by decide), h5, h8 rfl⟩

/-- C6.  Last-sharer fast path.  The fault is on a page-table entry that is present,
not writable, and maps a frame `pa` of the managed range with `rmap[pa] = 1`.
Then the handler returns (with any fuel: nothing is allocated), the entry is its
old value with `PTE_W` set (same frame, same other flags), every other page-table
word is unchanged, and the free list, `num_free_pages`, `rmap`, `shared_ptes`,
memory, the swap store, the disk and the `rss` counters are unchanged. -/
theorem write_fault_last_sharer (c : Config) (k : Collab) (fuel : Nat) (s : State)
    (pte pa : Nat)
    (hpte : fault_pte c s = pte)
    (hP : s.ptes pte &&& PTE_P ≠ 0) (hW : s.ptes pte &&& PTE_W = 0)
    (hpa : PTE_ADDR (s.ptes pte) = pa) (hv : ¬ pa_out_of_range c pa)
    (hr : s.rmap (pa >>> PTXSHIFT) = 1) :
    ∃ s', handle_page_write_off c k fuel s = .ok s' ∧
      s'.ptes pte = s.ptes pte ||| PTE_W ∧
      PTE_ADDR (s'.ptes pte) = pa ∧
      PTE_FLAGS (s'.ptes pte) = PTE_FLAGS (s.ptes pte) ||| PTE_W ∧
      (∀ q, q ≠ pte → s'.ptes q = s.ptes q) ∧
      s'.freelist = s.freelist ∧ s'.num_free_pages = s.num_free_pages ∧
      s'.rmap = s.rmap ∧ s'.shared_ptes = s.shared_ptes ∧
      s'.mem = s.mem ∧ s'.swapblock = s.swapblock ∧ s'.disk = s.disk ∧ s'.rss = s.rss := by
  subst hpa
  have hu : toU32 (s.rmap (PTE_ADDR (s.ptes pte) >>> PTXSHIFT)) = 1 := by
    rw [hr]; decide
  have hh : handle_page_write_off c k fuel s
      = .ok (lcr3 (V2P c (s.pgdir s.cur))
              { s with ptes := Function.update s.ptes pte (s.ptes pte ||| PTE_W) }) := by
    unfold handle_page_write_off
    simp only [walkpgdir_fault, hpte]
    rw [if_pos hP, if_neg (by rw [Nat.and_comm, hW]; simp)]
    simp only [get_rmap_value, hv, if_false, hu]
    rw [if_neg (by omega), if_pos trivial]
  refine ⟨_, hh, ?_, ?_, ?_, ?_, rfl, rfl, rfl, rfl, rfl, rfl, rfl, rfl⟩
  · simp [lcr3]
  · simp [lcr3, PTE_ADDR_or_W]
  · simp [lcr3, PTE_FLAGS_or_W]
  · intro q hq
    simp [lcr3, Function.update_noteq hq]

/-- Instance of `write_fault_last_sharer`: the state `st_last`. -/
theorem write_fault_last_sharer_witness :
    ∃ s', handle_page_write_off cfg0 collab0 0 st_last = .ok s' ∧
      s'.ptes 0x80701004 = 0x500007 ∧ s'.rmap = st_last.rmap ∧
      s'.num_free_pages = st_last.num_free_pages := by
  obtain ⟨s', h, h1, _, _, _, _, h6, h7, _⟩ :=
    write_fault_last_sharer cfg0 collab0 0 st_last 0x80701004 0x500000
      (by decide) (by decide) (by decide) (by decide) (by decide) (by decide)
  exact ⟨s', h, h1, h7, h6⟩

theorem rewrite_sharers_empty (lo : Nat) (row : Nat → Nat) (val : Nat) (pt : Nat → Nat) :
    rewrite_sharers lo lo row val pt = pt := by
  funext q
  unfold rewrite_sharers
  rw [if_neg]
  rintro ⟨_, j, h1, h2, _⟩
  omega

theorem rewrite_sharers_hit (lo hi : Nat) (row : Nat → Nat) (val : Nat) (pt : Nat → Nat)
    (j : Nat) (h1 : lo ≤ j) (h2 : j < hi) (h0 : row j ≠ 0) :
    rewrite_sharers lo hi row val pt (row j) = val := by
  unfold rewrite_sharers
  rw [if_pos ⟨h0, j, h2, h1, rfl⟩]

theorem rewrite_sharers_miss (lo hi : Nat) (row : Nat → Nat) (val : Nat) (pt : Nat → Nat)
    (q : Nat) (h : ∀ j, lo ≤ j → j < hi → row j ≠ q) :
    rewrite_sharers lo hi row val pt q = pt q := by
  unfold rewrite_sharers
  rw [if_neg]
  rintro ⟨_, j, h1, h2, h3⟩
  exact h j h2 h1 h3

/-- Value-preservation: a pointer that already holds `val` holds it afterwards. -/
theorem rewrite_sharers_of_eq (lo hi : Nat) (row : Nat → Nat) (val : Nat) (pt : Nat → Nat)
    (q : Nat) (h : pt q = val) : rewrite_sharers lo hi row val pt q = val := by
  unfold rewrite_sharers
  split
  · rfl
  · exact h

theorem rewrite_sharers_succ (lo hi : Nat) (row : Nat → Nat) (val : Nat) (pt : Nat → Nat)
    (h : lo ≤ hi) :
    rewrite_sharers lo (hi + 1) row val pt
      = if row hi = 0 then rewrite_sharers lo hi row val pt
        else Function.update (rewrite_sharers lo hi row val pt) (row hi) val := by
  funext q
  unfold rewrite_sharers
  by_cases h0 : row hi = 0
  · rw [if_pos h0]
    by_cases hq : q ≠ 0 ∧ ∃ j, j < hi ∧ (lo ≤ j ∧ row j = q)
    · obtain ⟨hq0, j, h1, h2, h3⟩ := hq
      rw [if_pos ⟨hq0, j, by omega, h2, h3⟩, if_pos ⟨hq0, j, h1, h2, h3⟩]
    · rw [if_neg hq, if_neg]
      rintro ⟨hq0, j, h1, h2, h3⟩
      by_cases hj : j = hi
      · subst hj; exact hq0 (h3 ▸ h0)
      · exact hq ⟨hq0, j, by omega, h2, h3⟩
  · rw [if_neg h0]
    by_cases hq : q = row hi
    · subst hq
      rw [Function.update_same, if_pos ⟨h0, hi, by omega, h, rfl⟩]
    · rw [Function.update_noteq hq]
      by_cases hq2 : q ≠ 0 ∧ ∃ j, j < hi ∧ (lo ≤ j ∧ row j = q)
      · obtain ⟨hq0, j, h1, h2, h3⟩ := hq2
        rw [if_pos ⟨hq0, j, by omega, h2, h3⟩, if_pos ⟨hq0, j, h1, h2, h3⟩]
      · rw [if_neg hq2, if_neg]
        rintro ⟨hq0, j, h1, h2, h3⟩
        by_cases hj : j = hi
        · subst hj; exact hq h3.symm
        · exact hq2 ⟨hq0, j, by omega, h2, h3⟩

theorem swap_out_rewrite_eq (n victim_page p_addr : Nat) (s : State) :
    swap_out_rewrite n victim_page p_addr s
      = (fun j => if j < n then s.shared_ptes (p_addr >>> PTXSHIFT) j else 0,
         { s with ptes := rewrite_sharers 0 n (s.shared_ptes (p_addr >>> PTXSHIFT))
                            (s.ptes victim_page) s.ptes }) := by
  unfold swap_out_rewrite
  induction n with
  | zero => simp [rewrite_sharers_empty]
  | succ n ih =>
    rw [List.range_succ, List.foldl_append, ih]
    simp only [List.foldl_cons, List.foldl_nil, set_pte_mem]
    have hv : rewrite_sharers 0 n (s.shared_ptes (p_addr >>> PTXSHIFT)) (s.ptes victim_page)
        s.ptes victim_page = s.ptes victim_page := rewrite_sharers_of_eq _ _ _ _ _ _ rfl
    rw [rewrite_sharers_succ _ _ _ _ _ (Nat.zero_le n)]
    by_cases h0 : s.shared_ptes (p_addr >>> PTXSHIFT) n = 0
    · simp only [h0, if_true]
      congr 1
      funext j
      by_cases hj : j = n
      · subst hj; simp [h0]
      · have e : (j < n + 1) = (j < n) := by apply propext; omega
        simp [Function.update_noteq hj, e]
    · simp only [h0, if_false, hv]
      congr 1
      funext j
      by_cases hj : j = n
      · subst hj; simp
      · have e : (j < n + 1) = (j < n) := by apply propext; omega
        simp [Function.update_noteq hj, e]

theorem swap_out_record_eq (n blockno : Nat) (stored : Nat → Nat) (s : State) :
    swap_out_record n blockno stored s
      = { s with swapblock := (Function.update s.swapblock blockno
            { s.swapblock blockno with
              shared_ptes := fun j => if j < n then stored j
                                      else (s.swapblock blockno).shared_ptes j }) } := by
  unfold swap_out_record
  induction n with
  | zero => simp
  | succ n ih =>
    rw [List.range_succ, List.foldl_append, ih]
    simp only [List.foldl_cons, List.foldl_nil, Function.update_same, Function.update_idem]
    have e : Function.update
        (fun j => if j < n then stored j else (s.swapblock blockno).shared_ptes j) n (stored n)
        = fun j => if j < n + 1 then stored j else (s.swapblock blockno).shared_ptes j := by
      funext j
      by_cases hj : j = n
      · subst hj; simp
      · have e : (j < n + 1) = (j < n) := by apply propext; omega
        simp [Function.update_noteq hj, e]
    rw [e]

theorem scan_free_slot_spec (sb : Nat → SwapSlot) :
    ∀ (n i : Nat),
      i ≤ scan_free_slot sb n i ∧ scan_free_slot sb n i ≤ i + n ∧
      (∀ j, i ≤ j → j < scan_free_slot sb n i → (sb j).free_int = 0) ∧
      (scan_free_slot sb n i < i + n → (sb (scan_free_slot sb n i)).free_int ≠ 0) := by
  intro n
  induction n with
  | zero =>
    intro i
    simp only [scan_free_slot]
    exact ⟨Nat.le_refl _, Nat.le_refl _, fun j h1 h2 => by omega, fun h => by omega⟩
  | succ n ih =>
    intro i
    by_cases hf : (sb i).free_int ≠ 0
    · have e : scan_free_slot sb (n + 1) i = i := by simp [scan_free_slot, hf]
      rw [e]
      exact ⟨Nat.le_refl _, by omega, fun j h1 h2 => by omega, fun _ => hf⟩
    · have e : scan_free_slot sb (n + 1) i = scan_free_slot sb n (i + 1) := by
        simp only [scan_free_slot]; rw [if_neg hf]
      rw [e]
      obtain ⟨h1, h2, h3, h4⟩ := ih (i + 1)
      refine ⟨by omega, by omega, ?_, fun h => h4 (by omega)⟩
      intro j hj1 hj2
      by_cases hji : j = i
      · subst hji; exact not_not.mp hf
      · exact h3 j (by omega) hj2

theorem ite_lt_nested (n j a b : Nat) :
    (if j < n then (if j < n then a else 0) else b) = if j < n then a else b := by
  by_cases h : j < n
  · rw [if_pos h, if_pos h, if_pos h]
  · rw [if_neg h, if_neg h]

theorem swap_out_ok (c : Config) (k : Collab) (s s2 : State) (vp b : Nat)
    (hget : get_page k (k.get_victim_proc s) (swap_out_entry k s) = .ok (vp, s2))
    (hb : scan_free_slot s2.swapblock (nslots c) 0 = b) (hlt : b < nslots c)
    (hv : valid_pa c (PTE_ADDR (s2.ptes vp))) :
    swap_out c k s = .ok (swap_out_done c vp b s2) := by
  have e := V2P_P2V c _ (PTE_ADDR_lt (s2.ptes vp))
  have hget' : get_page k (k.get_victim_proc s)
      { use_lock := s.use_lock, num_free_pages := s.num_free_pages, freelist := s.freelist,
        rmap := s.rmap, shared_ptes := s.shared_ptes, swapblock := s.swapblock, mem := s.mem,
        ptes := s.ptes, disk := s.disk,
        rss := Function.update s.rss (k.get_victim_proc s) (s.rss (k.get_victim_proc s) - 4096),
        pgdir := s.pgdir, cur := s.cur, cr2 := s.cr2, cr3 := s.cr3,
        trace := s.trace ++ [Event.get_victim_proc] } = .ok (vp, s2) := hget
  unfold swap_out
  simp only [hget', hb]
  rw [if_neg (by omega)]
  simp only [page_to_disk, get_rmap_value, hv.1, if_false, swap_out_rewrite_eq,
    swap_out_record_eq, set_rmap_value, Function.update_same]
  rw [kfree_ok_zero c _ _ hv.2 (by rw [e]; simp)]
  simp only [swap_out_done, ite_lt_nested, Function.update_idem]


/-- A multiple of `2^k` and a number below `2^k` have no common bit. -/
theorem and_eq_zero_of_aligned (k x y : Nat) (hx : x % 2 ^ k = 0) (hy : y < 2 ^ k) :
    x &&& y = 0 := by
  apply Nat.eq_of_testBit_eq
  intro i
  rw [Nat.testBit_and, Nat.zero_testBit]
  by_cases hi : i < k
  · have h1 : (x % 2 ^ k).testBit i = false := by rw [hx]; exact Nat.zero_testBit i
    rw [Nat.testBit_mod_two_pow] at h1
    simp [hi] at h1
    simp [h1]
  · have h2 : y.testBit i = false :=
      Nat.testBit_lt_two_pow (Nat.lt_of_lt_of_le hy (Nat.pow_le_pow_right (by decide) (by omega)))
    simp [h2]

/-- Masking off the low `k` bits of a `w`-bit number. -/
theorem and_high_mask (k w x : Nat) (hx : x < 2 ^ w) (hk : k ≤ w) :
    x &&& (2 ^ k * (2 ^ (w - k) - 1)) = 2 ^ k * (x / 2 ^ k) := by
  apply Nat.eq_of_testBit_eq
  intro i
  rw [Nat.testBit_and, Nat.testBit_mul_pow_two, Nat.testBit_mul_pow_two,
    Nat.testBit_two_pow_sub_one, ← Nat.shiftRight_eq_div_pow, Nat.testBit_shiftRight]
  by_cases h1 : k ≤ i
  · by_cases h2 : i < w
    · have : i - k < w - k := by omega
      have e : k + (i - k) = i := by omega
      simp [h1, this, e]
    · have h3 : x.testBit i = false :=
        Nat.testBit_lt_two_pow (Nat.lt_of_lt_of_le hx (Nat.pow_le_pow_right (by decide) (by omega)))
      have e : k + (i - k) = i := by omega
      simp [h3, e]
  · simp [h1]

theorem or_and_self_right (x y : Nat) : x ||| (x &&& y) = x := by
  apply Nat.eq_of_testBit_eq
  intro i
  rw [Nat.testBit_or, Nat.testBit_and]
  cases x.testBit i <;> simp

theorem PTE_ADDR_of_aligned (x : Nat) (h : x < U32) (ha : x % PGSIZE = 0) : PTE_ADDR x = x := by
  unfold PTE_ADDR
  have := and_high_mask 12 32 x (by unfold U32 at h; omega) (by decide)
  have e : (2 : Nat) ^ 12 * (2 ^ (32 - 12) - 1) = 0xFFFFF000 := by decide
  rw [e] at this
  rw [this]
  unfold PGSIZE at ha
  omega

theorem PTE_ADDR_or_flags (x f : Nat) (h : x < U32) (ha : x % PGSIZE = 0) (hf : f < 4096) :
    PTE_ADDR (x ||| f) = x := by
  have h1 := PTE_ADDR_of_aligned x h ha
  unfold PTE_ADDR at *
  rw [Nat.and_comm, Nat.and_or_distrib_left, Nat.and_comm, h1,
    and_eq_zero_of_aligned 12 0xFFFFF000 f (by decide) (by omega), Nat.or_zero]

theorem PTE_FLAGS_or_flags (x f : Nat) (ha : x % PGSIZE = 0) (hf : f < 4096) :
    PTE_FLAGS (x ||| f) = f := by
  unfold PTE_FLAGS
  have e : (0xFFF : Nat) = 2 ^ 12 - 1 := by decide
  rw [Nat.and_comm, Nat.and_or_distrib_left, Nat.and_comm,
    and_eq_zero_of_aligned 12 x 0xFFF (by unfold PGSIZE at ha; omega) (by decide), Nat.zero_or,
    Nat.and_comm, e, Nat.and_pow_two_sub_one_eq_mod]
  omega

theorem and_bit_of_or (x f b : Nat) (ha : x % PGSIZE = 0) (hb : b < 4096) :
    (x ||| f) &&& b = f &&& b := by
  rw [Nat.and_comm, Nat.and_or_distrib_left, Nat.and_comm,
    and_eq_zero_of_aligned 12 x b (by unfold PGSIZE at ha; omega) (by omega), Nat.zero_or,
    Nat.and_comm]

theorem and_not8_of_clear (y : Nat) (h : y < U32) (h8 : y &&& 8 = 0) : y &&& 0xFFFFFFF7 = y := by
  have e1 : y &&& (2 ^ 32 - 1) = y := by
    rw [Nat.and_pow_two_sub_one_eq_mod]; unfold U32 at h; omega
  have e2 : (2 : Nat) ^ 32 - 1 = 0xFFFFFFF7 ||| 8 := by decide
  rw [e2, Nat.and_or_distrib_left, h8, Nat.or_zero] at e1
  exact e1

theorem and_not8_and8 (y : Nat) : (y &&& 0xFFFFFFF7) &&& 8 = 0 := by
  rw [Nat.and_assoc]
  have : (0xFFFFFFF7 : Nat) &&& 8 = 0 := by decide
  rw [this, Nat.and_zero]

theorem or_one_of_odd (f : Nat) (h : f &&& 1 ≠ 0) : f ||| 1 = f := by
  have h1 : f &&& 1 = 1 := by
    rw [Nat.and_one_is_mod] at *; omega
  conv_lhs => rw [← h1]
  exact or_and_self_right f 1

/-- The swapped-out encoding of slot `b`, when `2 + 8 * b` fits the page-number field. -/
theorem swapped_pte_eq (b : Nat) (hb : 2 + 8 * b < 1048576) :
    swapped_pte b = ((2 + 8 * b) <<< PTXSHIFT) ||| 0x008 := by
  unfold swapped_pte PTXSHIFT
  rw [Nat.shiftLeft_eq]
  have h1 : (2 + 8 * b) * 2 ^ 12 % U32 = (2 + 8 * b) * 2 ^ 12 := by
    apply Nat.mod_eq_of_lt; unfold U32; omega
  rw [h1]
  have := and_high_mask 1 32 ((2 + 8 * b) * 2 ^ 12) (by omega) (by decide)
  have e : (2 : Nat) ^ 1 * (2 ^ (32 - 1) - 1) = 0xFFFFFFFE := by decide
  rw [e] at this
  rw [this]
  congr 1
  omega

theorem swapped_pte_lt (b : Nat) (hb : 2 + 8 * b < 1048576) :
    ∃ n, swapped_pte b = n ||| 8 ∧ n = 4096 * (2 + 8 * b) ∧ n < U32 ∧ n % PGSIZE = 0 := by
  refine ⟨4096 * (2 + 8 * b), ?_, rfl, by unfold U32; omega, by unfold PGSIZE; omega⟩
  rw [swapped_pte_eq b hb, Nat.shiftLeft_eq]
  unfold PTXSHIFT
  congr 1
  omega

theorem swapped_pte_not_present (b : Nat) (hb : 2 + 8 * b < 1048576) :
    swapped_pte b &&& PTE_P = 0 := by
  obtain ⟨n, e, _, _, ha⟩ := swapped_pte_lt b hb
  rw [e, and_bit_of_or n 8 PTE_P ha (by decide)]
  decide

theorem swapped_pte_marker (b : Nat) (hb : 2 + 8 * b < 1048576) :
    swapped_pte b &&& 0x008 = 8 := by
  obtain ⟨n, e, _, _, ha⟩ := swapped_pte_lt b hb
  rw [e, and_bit_of_or n 8 8 ha (by decide)]
  decide

theorem swapped_pte_blockid (b : Nat) (hb : 2 + 8 * b < 1048576) :
    PTE_ADDR (swapped_pte b) >>> PTXSHIFT = 2 + 8 * b := by
  obtain ⟨n, e, hn, hlt, ha⟩ := swapped_pte_lt b hb
  rw [e, PTE_ADDR_or_flags n 8 hlt ha (by decide), Nat.shiftRight_eq_div_pow, hn]
  unfold PTXSHIFT
  omega

theorem swapped_pte_decode (b : Nat) (hb : 2 + 8 * b < 1048576) :
    sub32 (PTE_ADDR (swapped_pte b) >>> PTXSHIFT) 2 / 8 = b := by
  rw [swapped_pte_blockid b hb]
  unfold sub32 U32
  have h1 : (2 + 8 * b) % 4294967296 = 2 + 8 * b := Nat.mod_eq_of_lt (by omega)
  rw [h1, if_pos (by omega)]
  omega

theorem toI32_toU32 (r : Int) (h0 : -2147483648 ≤ r) (h1 : r < 2147483648) :
    toI32 (toU32 r) = r := by
  unfold toI32 toU32 U32
  have hm : (0 : Int) ≤ r % 4294967296 := Int.emod_nonneg _ (by decide)
  have hlt : r % 4294967296 < 4294967296 := Int.emod_lt_of_pos _ (by decide)
  have e1 : ((r % 4294967296).toNat : Int) = r % 4294967296 := Int.toNat_of_nonneg hm
  have e2 : (r % 4294967296).toNat % 4294967296 = (r % 4294967296).toNat := by
    apply Nat.mod_eq_of_lt; omega
  rw [e2]
  split
  · rename_i h; omega
  · rename_i h; omega

theorem get_page_st_swap :
    get_page collab1 (collab1.get_victim_proc st_swap) (swap_out_entry collab1 st_swap)
      = .ok (0x80701004, swap_out_entry collab1 st_swap) := rfl


/-! ## Claims about `swap_out` -/

/-- C8.  After `swap_out` evicted the victim page (page-table entry `vp`, valid frame
`pa`, reference count `r`) to slot `b < SWAPBLOCKS / 8`, the victim entry equals
`((2 + 8 * b) << 12) | 0x008` with `PTE_P` clear, every page-table entry referenced
by a non-null sharer entry of `pa` holds that same value, the reference count of
the slot is `r`, and decoding any entry with that value as `(page_number - 2) / 8`
gives back `b`.  The state `s2` is the state in which the collaborator found the
victim page; `SWAPBLOCKS + 2` fits the 20-bit page-number field. -/
theorem swap_out_encodes_slot (c : Config) (k : Collab) (s s2 : State) (vp b pa : Nat) (r : Int)
    (hget : get_page k (k.get_victim_proc s) (swap_out_entry k s) = .ok (vp, s2))
    (hpa : PTE_ADDR (s2.ptes vp) = pa) (hv : valid_pa c pa)
    (hb : scan_free_slot s2.swapblock (nslots c) 0 = b) (hlt : b < nslots c)
    (hsw : c.SWAPBLOCKS + 2 ≤ 1048576)
    (hr : s2.rmap (pa >>> PTXSHIFT) = r) (hr0 : -2147483648 ≤ r) (hr1 : r < 2147483648) :
    ∃ s', swap_out c k s = .ok s' ∧
      s'.ptes vp = ((2 + 8 * b) <<< PTXSHIFT) ||| 0x008 ∧
      s'.ptes vp &&& PTE_P = 0 ∧
      (∀ i, i < c.NPROC → s2.shared_ptes (pa >>> PTXSHIFT) i ≠ 0 →
        s'.ptes (s2.shared_ptes (pa >>> PTXSHIFT) i) = s'.ptes vp) ∧
      (s'.swapblock b).refcount = r ∧
      (∀ q, s'.ptes q = s'.ptes vp → sub32 (PTE_ADDR (s'.ptes q) >>> PTXSHIFT) 2 / 8 = b) := by
  subst hpa
  have hb20 : 2 + 8 * b < 1048576 := by unfold nslots at hlt; omega
  have hvp : (swap_out_done c vp b s2).ptes vp = swapped_pte b := by
    simp only [swap_out_done, kfree_push]
    exact rewrite_sharers_of_eq _ _ _ _ _ _ (Function.update_same _ _ _)
  refine ⟨_, swap_out_ok c k s s2 vp b hget hb hlt hv, ?_, ?_, ?_, ?_, ?_⟩
  · rw [hvp, swapped_pte_eq b hb20]
  · rw [hvp, swapped_pte_not_present b hb20]
  · intro i hi h0
    rw [hvp]
    simp only [swap_out_done, kfree_push]
    exact rewrite_sharers_hit _ _ _ _ _ i (Nat.zero_le _) hi h0
  · simp only [swap_out_done, kfree_push, Function.update_same]
    rw [hr, toI32_toU32 r hr0 hr1]
  · intro q hq
    rw [hq, hvp, swapped_pte_decode b hb20]

/-- Instance of `swap_out_encodes_slot`: frame `frameA` with two sharers goes to slot 2. -/
theorem swap_out_encodes_slot_witness :
    ∃ s', swap_out cfg0 collab1 st_swap = .ok s' ∧
      s'.ptes 0x80701004 = 0x12008 ∧ s'.ptes 0x80801004 = 0x12008 ∧
      (s'.swapblock 2).refcount = 2 := by
  obtain ⟨s', h, h1, _, h3, h4, _⟩ :=
    swap_out_encodes_slot cfg0 collab1 st_swap (swap_out_entry collab1 st_swap)
      0x80701004 2 0x500000 2 get_page_st_swap (by decide) (by decide) (by decide) (by decide)
      (by decide) (by decide) (by decide) (by decide)
  have e : (swap_out_entry collab1 st_swap).shared_ptes (0x500000 >>> PTXSHIFT) 1 = 0x80801004 := by
    decide
  have h5 := h3 1 (by decide) (by decide)
  rw [e] at h5
  have e1 : ((2 + 8 * 2) <<< PTXSHIFT ||| 8 : Nat) = 0x12008 := by decide
  rw [e1] at h1
  exact ⟨s', h, h1, by rw [h5, h1], h4⟩

/-- C10.  Slot selection of `swap_out`.  First part: when the victim page is found
(state `s2`, entry `vp`, valid frame `pa`) and some slot is free, `swap_out` returns
and the slot `i` it used is the lowest-indexed free slot: `i` was free, every
`j < i` was occupied, `i` is now non-free, every other slot is unchanged, and the
frame was written to disk sector `2 + 8 * i` (one `page_to_disk` call, and the
4096 bytes at that sector are the bytes of the frame).  Second part: when no slot
is free, `swap_out` panics. -/
theorem swap_out_first_free_slot (c : Config) (k : Collab) (s : State) :
    (∀ s2 vp pa, get_page k (k.get_victim_proc s) (swap_out_entry k s) = .ok (vp, s2) →
      PTE_ADDR (s2.ptes vp) = pa → valid_pa c pa →
      (∃ j, j < nslots c ∧ (s2.swapblock j).free_int ≠ 0) →
      ∃ i s', swap_out c k s = .ok s' ∧ i < nslots c ∧
        (s2.swapblock i).free_int ≠ 0 ∧
        (∀ j, j < i → (s2.swapblock j).free_int = 0) ∧
        (s'.swapblock i).free_int = 0 ∧
        (∀ j, j ≠ i → s'.swapblock j = s2.swapblock j) ∧
        s'.trace = s2.trace ++ [Event.page_to_disk c.ROOTDEV (P2V c pa) (2 + 8 * i)] ∧
        (∀ d, d < PGSIZE →
          s'.disk c.ROOTDEV (BSIZE * (2 + 8 * i) + d) = s2.mem (P2V c pa + d))) ∧
    ((∀ s2 vp, get_page k (k.get_victim_proc s) (swap_out_entry k s) = .ok (vp, s2) →
        ∀ j, j < nslots c → (s2.swapblock j).free_int = 0) →
      ∃ p, swap_out c k s = .panic p) := by
  constructor
  · intro s2 vp pa hget hpa hv ⟨j, hj, hfree⟩
    subst hpa
    obtain ⟨_, h2, h3, h4⟩ := scan_free_slot_spec s2.swapblock (nslots c) 0
    have hlt : scan_free_slot s2.swapblock (nslots c) 0 < nslots c := by
      by_contra hge
      exact hfree (h3 j (Nat.zero_le _) (by omega))
    refine ⟨_, _, swap_out_ok c k s s2 vp _ hget rfl hlt hv, hlt, h4 (by omega),
      fun j hj => h3 j (Nat.zero_le _) hj, ?_, ?_, ?_, ?_⟩
    · simp only [swap_out_done, kfree_push, Function.update_same]
    · intro j hj
      simp only [swap_out_done, kfree_push, Function.update_noteq hj]
    · simp only [swap_out_done, kfree_push]
    · intro d hd
      simp only [swap_out_done, kfree_push, Function.update_same]
      rw [if_pos ⟨by omega, by omega⟩]
      congr 2
      omega
  · intro hall
    have hget' : get_page k (k.get_victim_proc s)
      { use_lock := s.use_lock, num_free_pages := s.num_free_pages, freelist := s.freelist,
        rmap := s.rmap, shared_ptes := s.shared_ptes, swapblock := s.swapblock, mem := s.mem,
        ptes := s.ptes, disk := s.disk,
        rss := Function.update s.rss (k.get_victim_proc s) (s.rss (k.get_victim_proc s) - 4096),
        pgdir := s.pgdir, cur := s.cur, cr2 := s.cr2, cr3 := s.cr3,
        trace := s.trace ++ [Event.get_victim_proc] }
        = get_page k (k.get_victim_proc s) (swap_out_entry k s) := rfl
    unfold swap_out
    simp only [hget']
    cases hg : get_page k (k.get_victim_proc s) (swap_out_entry k s) with
    | panic p => exact ⟨p, rfl⟩
    | outOfFuel =>
      exfalso
      unfold get_page at hg
      simp only at hg
      split at hg
      · cases hg
      · split at hg <;> cases hg
    | ok r =>
      obtain ⟨vp, s2⟩ := r
      obtain ⟨_, h2, h3, h4⟩ := scan_free_slot_spec s2.swapblock (nslots c) 0
      have he : scan_free_slot s2.swapblock (nslots c) 0 = nslots c := by
        by_contra hne
        exact h4 (by omega) (hall s2 vp hg _ (by omega))
      simp only [he, if_true]
      exact ⟨_, rfl⟩

/-- Instance of `swap_out_first_free_slot`: slots 0, 1 and 3 occupied give slot 2
and sector 18; with every slot occupied `swap_out` panics. -/
theorem swap_out_first_free_slot_witness :
    (∃ s', swap_out cfg0 collab1 st_swap = .ok s' ∧ (s'.swapblock 2).free_int = 0 ∧
      s'.trace = [Event.get_victim_proc, Event.page_to_disk 1 frameA 18]) ∧
    (∃ p, swap_out cfg0 collab1 st_full = .panic p) := by
  refine ⟨?_, (swap_out_first_free_slot cfg0 collab1 st_full).2 ?_⟩
  swap
  · intro s2 vp h j _
    have h2 : get_page collab1 (collab1.get_victim_proc st_full) (swap_out_entry collab1 st_full)
        = .ok (0x80701004, swap_out_entry collab1 st_full) := rfl
    rw [h2] at h
    injection h with h
    injection h with _ h
    subst h
    rfl
  obtain ⟨i, s', h, hi, h1, h2, h3, _, h5, _⟩ :=
    (swap_out_first_free_slot cfg0 collab1 st_swap).1 (swap_out_entry collab1 st_swap)
      0x80701004 0x500000 get_page_st_swap (by decide) (by decide) ⟨2, by decide, by decide⟩
  have hi2 : i = 2 := by
    have a0 : ((swap_out_entry collab1 st_swap).swapblock 0).free_int = 0 := by decide
    have a1 : ((swap_out_entry collab1 st_swap).swapblock 1).free_int = 0 := by decide
    have a2 : ((swap_out_entry collab1 st_swap).swapblock 2).free_int ≠ 0 := by decide
    by_contra hne
    rcases Nat.lt_or_gt_of_ne hne with hlt | hgt
    · have : i = 0 ∨ i = 1 := by omega
      rcases this with rfl | rfl
      · exact h1 a0
      · exact h1 a1
    · exact a2 (h2 2 hgt)
  subst hi2
  refine ⟨s', h, h3, ?_⟩
  rw [h5]
  decide

theorem rewrite_sharers_lower_zero (i hi : Nat) (row : Nat → Nat) (v : Nat) (pt : Nat → Nat)
    (h0 : row i = 0) :
    rewrite_sharers (i + 1) hi row v pt = rewrite_sharers i hi row v pt := by
  funext q
  unfold rewrite_sharers
  apply if_congr _ rfl rfl
  constructor
  · rintro ⟨hq, j, h1, h2, h3⟩
    exact ⟨hq, j, h1, by omega, h3⟩
  · rintro ⟨hq, j, h1, h2, h3⟩
    refine ⟨hq, j, h1, ?_, h3⟩
    by_contra hlt
    have : j = i := by omega
    subst this
    exact hq (h3 ▸ h0)

theorem rewrite_sharers_lower (i hi : Nat) (row : Nat → Nat) (v : Nat) (pt : Nat → Nat)
    (hlt : i < hi) (h0 : row i ≠ 0) :
    rewrite_sharers (i + 1) hi row v (Function.update pt (row i) v)
      = rewrite_sharers i hi row v pt := by
  funext q
  unfold rewrite_sharers
  by_cases hq : q = row i
  · subst hq
    have hR : row i ≠ 0 ∧ ∃ j, j < hi ∧ (i ≤ j ∧ row j = row i) :=
      ⟨h0, i, hlt, Nat.le_refl _, rfl⟩
    rw [if_pos hR, Function.update_same, ite_self]
  · rw [Function.update_noteq hq]
    apply if_congr _ rfl rfl
    constructor
    · rintro ⟨hq0, j, h1, h2, h3⟩
      exact ⟨hq0, j, h1, by omega, h3⟩
    · rintro ⟨hq0, j, h1, h2, h3⟩
      refine ⟨hq0, j, h1, ?_, h3⟩
      by_contra hlt
      have : j = i := by omega
      subst this
      exact hq h3.symm

theorem copy_sharers_lower_zero (i hi : Nat) (row old : Nat → Nat) (h0 : row i = 0) :
    copy_sharers (i + 1) hi row old = copy_sharers i hi row old := by
  funext t
  unfold copy_sharers
  apply if_congr _ rfl rfl
  constructor
  · rintro ⟨h1, h2, h3⟩; exact ⟨by omega, h2, h3⟩
  · rintro ⟨h1, h2, h3⟩
    refine ⟨?_, h2, h3⟩
    by_contra hlt
    have : t = i := by omega
    subst this
    exact h3 h0

theorem copy_sharers_lower (i hi : Nat) (row old : Nat → Nat) (hlt : i < hi) (h0 : row i ≠ 0) :
    copy_sharers (i + 1) hi row (Function.update old i (row i)) = copy_sharers i hi row old := by
  funext t
  unfold copy_sharers
  by_cases ht : t = i
  · subst ht
    have hL : ¬ (t + 1 ≤ t ∧ t < hi ∧ row t ≠ 0) := by omega
    have hR : t ≤ t ∧ t < hi ∧ row t ≠ 0 := ⟨Nat.le_refl _, hlt, h0⟩
    rw [if_neg hL, if_pos hR, Function.update_same]
  · rw [Function.update_noteq ht]
    apply if_congr _ rfl rfl
    constructor
    · rintro ⟨h1, h2, h3⟩; exact ⟨by omega, h2, h3⟩
    · rintro ⟨h1, h2, h3⟩; exact ⟨by omega, h2, h3⟩

theorem copy_sharers_empty (i : Nat) (row old : Nat → Nat) : copy_sharers i i row old = old := by
  funext t
  unfold copy_sharers
  rw [if_neg (by omega)]

theorem swap_in_loop_eq (c : Config) (row : Nat → Nat) (pte pa : Nat)
    (hpa : ¬ pa_out_of_range c pa) :
    ∀ (n i : Nat) (s : State),
      swap_in_loop c row pte pa n i s
        = .ok { s with
                ptes := rewrite_sharers i (i + n) row (s.ptes pte) s.ptes
                shared_ptes := Function.update s.shared_ptes (pa >>> PTXSHIFT)
                  (copy_sharers i (i + n) row (s.shared_ptes (pa >>> PTXSHIFT))) } := by
  intro n
  induction n with
  | zero =>
    intro i s
    simp only [swap_in_loop, Nat.add_zero, rewrite_sharers_empty, copy_sharers_empty,
      Function.update_eq_self]
  | succ n ih =>
    intro i s
    have e : i + 1 + n = i + (n + 1) := by omega
    unfold swap_in_loop
    by_cases h0 : row i = 0
    · rw [if_neg (by simpa using h0), ih, e, rewrite_sharers_lower_zero _ _ _ _ _ h0,
        copy_sharers_lower_zero _ _ _ _ h0]
    · rw [if_pos h0]
      simp only [add_memshared_pte, hpa, if_false]
      rw [ih]
      have hv : Function.update s.ptes (row i) (s.ptes pte) pte = s.ptes pte := by
        by_cases hp : pte = row i
        · rw [hp, Function.update_same]
        · rw [Function.update_noteq hp]
      simp only [hv, Function.update_same, Function.update_idem]
      rw [e, rewrite_sharers_lower _ _ _ _ _ (by omega) h0,
        copy_sharers_lower _ _ _ _ (by omega) h0]

theorem update_zeroed_row (f : Nat → Nat → Nat) (idx n : Nat) (g : Nat → Nat) :
    Function.update (fun j i => if j = idx ∧ i < n then 0 else f j i) idx g
      = Function.update f idx g := by
  funext j
  by_cases hj : j = idx
  · subst hj; rw [Function.update_same, Function.update_same]
  · rw [Function.update_noteq hj, Function.update_noteq hj]
    funext i
    rw [if_neg (fun h => hj h.1)]

theorem hpwo_swap_in (c : Config) (k : Collab) (fuel : Nat) (s : State) (pte : Nat)
    (hpte : fault_pte c s = pte)
    (hNP : s.ptes pte &&& PTE_P = 0) (hS : s.ptes pte &&& 0x008 ≠ 0)
    (hm0 : s.freelist ≠ 0) (hmr : ¬ pa_out_of_range c (V2P c s.freelist)) :
    handle_page_write_off c k (fuel + 1) s = .ok (swap_in_done c pte s) := by
  have hk := kalloc_ok_pop c k fuel
    { s with rss := Function.update s.rss s.cur (s.rss s.cur + 4096) } hm0 hmr
  unfold handle_page_write_off
  simp only [walkpgdir_fault, hpte]
  rw [if_neg (by rw [hNP]; simp), if_neg hS]
  simp only [hk, disk_to_page, set_rmap_value, hmr, if_false, kalloc_pop]
  rw [swap_in_loop_eq c _ _ _ hmr]
  simp only [Function.update_same, Function.update_idem, Nat.zero_add, swap_in_done,
    restored_pte, fault_slot, true_and, update_zeroed_row]

theorem swap_in_done_ptes_pte (c : Config) (pte : Nat) (s : State) :
    (swap_in_done c pte s).ptes pte = restored_pte c pte s := by
  simp only [swap_in_done]
  exact rewrite_sharers_of_eq _ _ _ _ _ _ (Function.update_same _ _ _)

theorem swap_in_done_ptes_sharer (c : Config) (pte : Nat) (s : State) (i : Nat)
    (hi : i < c.NPROC) (h0 : (s.swapblock (fault_slot pte s)).shared_ptes i ≠ 0) :
    (swap_in_done c pte s).ptes ((s.swapblock (fault_slot pte s)).shared_ptes i)
      = restored_pte c pte s := by
  simp only [swap_in_done]
  exact rewrite_sharers_hit _ _ _ _ _ i (Nat.zero_le _) hi h0

theorem swap_in_done_shared (c : Config) (pte : Nat) (s : State) (i : Nat) (hi : i < c.NPROC) :
    (swap_in_done c pte s).shared_ptes (V2P c s.freelist >>> PTXSHIFT) i
      = (s.swapblock (fault_slot pte s)).shared_ptes i := by
  simp only [swap_in_done, Function.update_same, copy_sharers]
  by_cases h0 : (s.swapblock (fault_slot pte s)).shared_ptes i = 0
  · rw [if_neg (fun h => h.2.2 h0), if_pos hi, h0]
  · rw [if_pos ⟨Nat.zero_le _, hi, h0⟩]

theorem restored_pte_marker_clear (c : Config) (pte : Nat) (s : State) :
    restored_pte c pte s &&& 0x008 = 0 := and_not8_and8 _

theorem or_one_and_one (x : Nat) : (x ||| 1) &&& 1 = 1 := by
  rw [Nat.and_one_is_mod]
  have : (x ||| 1).testBit 0 = true := by
    rw [Nat.testBit_or]; simp
  rw [Nat.testBit_zero] at this
  exact of_decide_eq_true this

theorem restored_pte_present (c : Config) (pte : Nat) (s : State) :
    restored_pte c pte s &&& PTE_P = 1 := by
  unfold restored_pte PTE_P
  rw [Nat.and_assoc]
  have : (0xFFFFFFF7 : Nat) &&& 1 = 1 := by decide
  rw [this]
  exact or_one_and_one _

theorem fault_after_swap_out_st_swap (s1 : State)
    (h : swap_out cfg0 collab1 st_swap = .ok s1) : fault_pte cfg0 s1 = 0x80701004 := by
  have h2 := swap_out_ok cfg0 collab1 st_swap _ 0x80701004 2 get_page_st_swap
    (by decide) (by decide) (by decide)
  rw [h2] at h
  injection h with h
  subst h
  decide


/-! ## Claims about swap-in -/

/-- C9.  Swap-in.  The fault is on a page-table entry `pte` that is not present,
has the marker `0x008` set and encodes slot `b` (page-number field `2 + 8 * b`); the
free list is non-empty and its head `mem` is a page-aligned frame of the managed
range.  Then the handler returns, and afterwards the entry equals
`V2P(mem) | page_perm(b) | PTE_P` with bit `0x008` cleared (so the marker is clear
and `PTE_P` is set), `rmap[mem]` is the reference count of the slot, every
page-table entry referenced by a non-null sharer entry of the slot holds the same
restored value, the sharers of `mem` are those of the slot at every index below
`NPROC`, the slot is marked free, and the `rss` of the faulting process has grown
by 4096. -/
theorem swap_in_restores (c : Config) (k : Collab) (fuel : Nat) (s : State)
    (pte b mem : Nat)
    (hpte : fault_pte c s = pte)
    (hNP : s.ptes pte &&& PTE_P = 0) (hS : s.ptes pte &&& 0x008 ≠ 0)
    (hb : PTE_ADDR (s.ptes pte) >>> PTXSHIFT = 2 + 8 * b)
    (hm : s.freelist = mem) (hm0 : mem ≠ 0)
    (hmr : ¬ pa_out_of_range c (V2P c mem)) (hma : V2P c mem % PGSIZE = 0) :
    ∃ s', handle_page_write_off c k (fuel + 1) s = .ok s' ∧
      s'.ptes pte = (V2P c mem ||| (s.swapblock b).page_perm ||| PTE_P) &&& 0xFFFFFFF7 ∧
      s'.ptes pte &&& 0x008 = 0 ∧ s'.ptes pte &&& PTE_P = 1 ∧
      s'.rmap (frame_index c mem) = (s.swapblock b).refcount ∧
      (∀ i, i < c.NPROC → (s.swapblock b).shared_ptes i ≠ 0 →
        s'.ptes ((s.swapblock b).shared_ptes i) = s'.ptes pte) ∧
      (∀ i, i < c.NPROC →
        s'.shared_ptes (frame_index c mem) i = (s.swapblock b).shared_ptes i) ∧
      (s'.swapblock b).free_int = 1 ∧
      s'.rss s.cur = s.rss s.cur + 4096 := by
  subst hm
  have hslot : fault_slot pte s = b := by
    unfold fault_slot sub32 U32
    rw [hb]
    have hlt : 2 + 8 * b < 4294967296 := by
      have := PTE_ADDR_lt (s.ptes pte)
      rw [← hb, Nat.shiftRight_eq_div_pow]
      unfold U32 PTXSHIFT at *
      omega
    have h1 : (2 + 8 * b) % 4294967296 = 2 + 8 * b := Nat.mod_eq_of_lt hlt
    rw [h1, if_pos (by omega)]
    omega
  have hlt : V2P c s.freelist < U32 := by
    unfold V2P; exact Nat.mod_lt _ (by decide)
  have hval : restored_pte c pte s
      = (V2P c s.freelist ||| (s.swapblock b).page_perm ||| PTE_P) &&& 0xFFFFFFF7 := by
    unfold restored_pte
    rw [hslot, PTE_ADDR_of_aligned _ hlt hma]
  have h1 := swap_in_done_ptes_pte c pte s
  refine ⟨_, hpwo_swap_in c k fuel s pte hpte hNP hS hm0 hmr, ?_, ?_, ?_, ?_, ?_, ?_, ?_, ?_⟩
  · rw [h1, hval]
  · rw [h1]; exact restored_pte_marker_clear c pte s
  · rw [h1]; exact restored_pte_present c pte s
  · simp only [swap_in_done, frame_index, Function.update_same, hslot]
  · intro i hi h0
    rw [h1, ← hslot]
    exact swap_in_done_ptes_sharer c pte s i hi (by rw [hslot]; exact h0)
  · intro i hi
    rw [← hslot]
    exact swap_in_done_shared c pte s i hi
  · simp only [swap_in_done, hslot, Function.update_same]
  · simp only [swap_in_done, Function.update_same]

/-- Instance of `swap_in_restores`: the state `st_swapped`, fault at address `0x1000`. -/
theorem swap_in_restores_witness :
    ∃ s', handle_page_write_off cfg0 collab1 1 st_swapped = .ok s' ∧
      s'.ptes 0x80701004 = 0x500005 ∧ s'.ptes 0x80801004 = 0x500005 ∧
      s'.rmap 1280 = 2 ∧ (s'.swapblock 2).free_int = 1 ∧ s'.rss 0 = 4096 := by
  obtain ⟨s', h, h1, _, _, h4, h5, _, h7, h8⟩ :=
    swap_in_restores cfg0 collab1 0 st_swapped 0x80701004 2 frameA
      (by decide) (by decide) (by decide) (by decide) (by decide) (by decide) (by decide)
      (by decide)
  have e1 : ((V2P cfg0 frameA ||| (st_swapped.swapblock 2).page_perm ||| PTE_P) &&& 0xFFFFFFF7 : Nat)
      = 0x500005 := by decide
  rw [e1] at h1
  have h6 := h5 1 (by decide) (by decide)
  have e2 : (st_swapped.swapblock 2).shared_ptes 1 = 0x80801004 := by decide
  rw [e2, h1] at h6
  exact ⟨s', h, h1, h6, h4, h7, h8⟩

/-- C7.  Swap round trip.  In the state `s2` in which the collaborator found the
victim page, `pa` is a valid frame with reference count `r` and sharers `S`, the
victim entry and every entry referenced by a non-null `S[i]` equal `pa | flags`
with `PTE_P` set and bit `0x008` clear, and slot `b` is the first free slot.  Then
`swap_out` returns, and a fault taken afterwards on any non-null `S[i]` returns
too, with the frame `mem = P2V(pa)`: every entry referenced by a non-null `S[i]`
equals `V2P(mem) | flags` with `PTE_P` set and bit `0x008` clear, `rmap[mem] = r`,
the sharers of `mem` are `S` at every index below `NPROC`, the only disk calls are
the write and then the read of sector `2 + 8 * b`, slot `b` is marked free, and the
bytes of the frame are those it held before. -/
theorem swap_round_trip (c : Config) (k : Collab) (fuel : Nat) (s s2 : State)
    (vp b pa flags p : Nat) (r : Int)
    (hget : get_page k (k.get_victim_proc s) (swap_out_entry k s) = .ok (vp, s2))
    (hk0 : 0 < c.kend)
    (hpa1 : pa < U32) (hpa2 : pa % PGSIZE = 0) (hv : valid_pa c pa)
    (hf : flags < 4096) (hfP : flags &&& PTE_P ≠ 0) (hfS : flags &&& 0x008 = 0)
    (hvp : s2.ptes vp = pa ||| flags)
    (hr : s2.rmap (pa >>> PTXSHIFT) = r) (hr0 : -2147483648 ≤ r) (hr1 : r < 2147483648)
    (hb : scan_free_slot s2.swapblock (nslots c) 0 = b) (hlt : b < nslots c)
    (hsw : c.SWAPBLOCKS + 2 ≤ 1048576)
    (hp : ∃ i, i < c.NPROC ∧ s2.shared_ptes (pa >>> PTXSHIFT) i = p) (hp0 : p ≠ 0)
    (hfault : ∀ s1, swap_out c k s = .ok s1 → fault_pte c s1 = p) :
    ∃ s1 s3, swap_out c k s = .ok s1 ∧ handle_page_write_off c k (fuel + 1) s1 = .ok s3 ∧
      (∀ i, i < c.NPROC → s2.shared_ptes (pa >>> PTXSHIFT) i ≠ 0 →
        s3.ptes (s2.shared_ptes (pa >>> PTXSHIFT) i) = V2P c (P2V c pa) ||| flags ∧
        s3.ptes (s2.shared_ptes (pa >>> PTXSHIFT) i) &&& PTE_P ≠ 0 ∧
        s3.ptes (s2.shared_ptes (pa >>> PTXSHIFT) i) &&& 0x008 = 0) ∧
      s3.rmap (frame_index c (P2V c pa)) = r ∧
      (∀ i, i < c.NPROC →
        s3.shared_ptes (frame_index c (P2V c pa)) i = s2.shared_ptes (pa >>> PTXSHIFT) i) ∧
      s3.trace = s2.trace ++ [Event.page_to_disk c.ROOTDEV (P2V c pa) (2 + 8 * b),
                              Event.disk_to_page c.ROOTDEV (P2V c pa) (2 + 8 * b)] ∧
      (s3.swapblock b).free_int = 1 ∧
      (∀ i, i < PGSIZE → s3.mem (P2V c pa + i) = s2.mem (P2V c pa + i)) := by
  have hb20 : 2 + 8 * b < 1048576 := by unfold nslots at hlt; omega
  have hpa : PTE_ADDR (s2.ptes vp) = pa := by rw [hvp]; exact PTE_ADDR_or_flags pa flags hpa1 hpa2 hf
  have hfl : PTE_FLAGS (s2.ptes vp) = flags := by rw [hvp]; exact PTE_FLAGS_or_flags pa flags hpa2 hf
  have e := V2P_P2V c pa hpa1
  have hso := swap_out_ok c k s s2 vp b hget hb hlt (by rw [hpa]; exact hv)
  obtain ⟨i0, hi0, hpi⟩ := hp
  -- the state after swap_out
  have hfree : (swap_out_done c vp b s2).freelist = P2V c pa := by
    simp only [swap_out_done, kfree_push, hpa]
  have hptep : (swap_out_done c vp b s2).ptes p = swapped_pte b := by
    simp only [swap_out_done, kfree_push, hpa]
    rw [← hpi]
    exact rewrite_sharers_hit _ _ _ _ _ i0 (Nat.zero_le _) hi0 (by rw [hpi]; exact hp0)
  have hslot : fault_slot p (swap_out_done c vp b s2) = b := by
    unfold fault_slot; rw [hptep]; exact swapped_pte_decode b hb20
  have hsb : (swap_out_done c vp b s2).swapblock b
      = { page_perm := flags, free_int := 0,
          shared_ptes := fun j => if j < c.NPROC then s2.shared_ptes (pa >>> PTXSHIFT) j
                                  else (s2.swapblock b).shared_ptes j,
          refcount := r } := by
    simp only [swap_out_done, kfree_push, Function.update_same, hpa, hfl, hr,
      toI32_toU32 r hr0 hr1]
  have hne : P2V c pa ≠ 0 := by
    have := hv.2.2.1
    omega
  have hrest : restored_pte c p (swap_out_done c vp b s2) = pa ||| flags := by
    unfold restored_pte
    rw [hslot, hsb, hfree, e, PTE_ADDR_of_aligned pa hpa1 hpa2]
    show (pa ||| flags ||| PTE_P) &&& 0xFFFFFFF7 = pa ||| flags
    unfold PTE_P at *
    rw [Nat.or_assoc, or_one_of_odd flags hfP]
    apply and_not8_of_clear
    · unfold U32 at *
      exact Nat.or_lt_two_pow (n := 32) hpa1 (by omega)
    · rw [and_bit_of_or pa flags 8 hpa2 (by decide)]; exact hfS
  have hsi := hpwo_swap_in c k fuel (swap_out_done c vp b s2) p (hfault _ hso)
    (by rw [hptep]; exact swapped_pte_not_present b hb20)
    (by rw [hptep, swapped_pte_marker b hb20]; decide)
    (by rw [hfree]; exact hne) (by rw [hfree, e]; exact hv.1)
  refine ⟨_, _, hso, hsi, ?_, ?_, ?_, ?_, ?_, ?_⟩
  · intro i hi h0
    have hrow : ((swap_out_done c vp b s2).swapblock
        (fault_slot p (swap_out_done c vp b s2))).shared_ptes i
        = s2.shared_ptes (pa >>> PTXSHIFT) i := by
      rw [hslot, hsb]; simp only [hi, if_true]
    have h1 := swap_in_done_ptes_sharer c p (swap_out_done c vp b s2) i hi
      (by rw [hrow]; exact h0)
    rw [hrow, hrest] at h1
    rw [h1, e]
    refine ⟨rfl, ?_, ?_⟩
    · rw [and_bit_of_or pa flags PTE_P hpa2 (by decide)]; exact hfP
    · rw [and_bit_of_or pa flags 8 hpa2 (by decide)]; exact hfS
  · have : (swap_in_done c p (swap_out_done c vp b s2)).rmap
        (V2P c (swap_out_done c vp b s2).freelist >>> PTXSHIFT)
        = ((swap_out_done c vp b s2).swapblock
            (fault_slot p (swap_out_done c vp b s2))).refcount := by
      simp only [swap_in_done, Function.update_same]
    rw [hfree, hslot, hsb] at this
    exact this
  · intro i hi
    have h1 := swap_in_done_shared c p (swap_out_done c vp b s2) i hi
    rw [hfree, hslot, hsb] at h1
    simp only [hi, if_true] at h1
    exact h1
  · have : (swap_in_done c p (swap_out_done c vp b s2)).trace
        = (swap_out_done c vp b s2).trace
          ++ [Event.disk_to_page c.ROOTDEV (swap_out_done c vp b s2).freelist
                (PTE_ADDR ((swap_out_done c vp b s2).ptes p) >>> PTXSHIFT)] := by
      simp only [swap_in_done]
    rw [this, hfree, hptep, swapped_pte_blockid b hb20]
    simp only [swap_out_done, kfree_push, hpa, List.append_assoc, List.singleton_append]
  · have : ((swap_in_done c p (swap_out_done c vp b s2)).swapblock
        (fault_slot p (swap_out_done c vp b s2))).free_int = 1 := by
      simp only [swap_in_done, Function.update_same]
    rw [hslot] at this
    exact this
  · intro i hi
    have : (swap_in_done c p (swap_out_done c vp b s2)).mem (P2V c pa + i)
        = (swap_out_done c vp b s2).disk c.ROOTDEV
            (BSIZE * (PTE_ADDR ((swap_out_done c vp b s2).ptes p) >>> PTXSHIFT)
              + (P2V c pa + i - (swap_out_done c vp b s2).freelist)) := by
      simp only [swap_in_done]
      rw [hfree, if_pos ⟨by omega, by omega⟩]
    rw [this, hfree, hptep, swapped_pte_blockid b hb20]
    simp only [swap_out_done, kfree_push, Function.update_same, hpa]
    rw [if_pos ⟨by omega, by unfold PGSIZE at *; omega⟩]
    congr 1
    omega

/-- Instance of `swap_round_trip`: reference count 2 with two recorded sharers,
slot 2, sector 18. -/
theorem swap_round_trip_witness :
    ∃ s1 s3, swap_out cfg0 collab1 st_swap = .ok s1 ∧
      handle_page_write_off cfg0 collab1 1 s1 = .ok s3 ∧
      s3.ptes 0x80701004 = 0x500005 ∧ s3.ptes 0x80801004 = 0x500005 ∧
      s3.rmap 1280 = 2 ∧
      s3.trace = [Event.get_victim_proc, Event.page_to_disk 1 frameA 18,
                  Event.disk_to_page 1 frameA 18] ∧
      (s3.swapblock 2).free_int = 1 := by
  obtain ⟨s1, s3, h1, h2, h3, h4, _, h6, h7, _⟩ :=
    swap_round_trip cfg0 collab1 0 st_swap (swap_out_entry collab1 st_swap)
      0x80701004 2 0x500000 5 0x80701004 2 get_page_st_swap
      (by decide) (by decide) (by decide) (by decide) (by decide) (by decide) (by decide)
      (by decide) (by decide) (by decide) (by decide) (by decide) (by decide) (by decide)
      ⟨0, by decide, by decide⟩ (by decide) fault_after_swap_out_st_swap
  have a0 := (h3 0 (by decide) (by decide)).1
  have a1 := (h3 1 (by decide) (by decide)).1
  have e0 : (swap_out_entry collab1 st_swap).shared_ptes (0x500000 >>> PTXSHIFT) 0 = 0x80701004 := by
    decide
  have e1 : (swap_out_entry collab1 st_swap).shared_ptes (0x500000 >>> PTXSHIFT) 1 = 0x80801004 := by
    decide
  have ev : (V2P cfg0 (P2V cfg0 0x500000) ||| 5 : Nat) = 0x500005 := by decide
  rw [e0, ev] at a0
  rw [e1, ev] at a1
  refine ⟨s1, s3, h1, h2, a0, a1, h4, ?_, h7⟩
  rw [h6]
  decide

/-! ## Claims about `inc_block_refcount`, the panics of `kfree` and the sharer maps -/

theorem block_index_of_slot (s : Nat) : Int.tdiv (2 + 8 * (s : Int) - 2) 8 = (s : Int) := by
  have e : (2 + 8 * (s : Int) - 2) = 8 * (s : Int) := by omega
  rw [e, Int.tdiv_eq_ediv (by omega) (by decide)]
  omega

theorem block_index_twice_ne (s : Nat) (hs : 1 ≤ s) : block_index (s : Int) ≠ s := by
  unfold block_index
  by_cases h2 : 2 ≤ s
  · rw [Int.tdiv_eq_ediv (by omega) (by decide)]
    omega
  · have e : s = 1 := by omega
    subst e
    decide

theorem inc_block_refcount_perm (s : Nat) (st : State) (hs : 1 ≤ s) :
    ((inc_block_refcount (2 + 8 * (s : Int)) st).swapblock s).page_perm
      = (st.swapblock s).page_perm := by
  unfold inc_block_refcount set_block_non_writeable
  simp only
  rw [block_index_of_slot s]
  rw [Function.update_noteq (Ne.symm (block_index_twice_ne s hs))]
  simp only [Int.toNat_ofNat, Function.update_same]

/-- C11 (the code, against the claim).  For every slot `s ≥ 1`,
`inc_block_refcount` on block id `2 + 8 * s` leaves the saved permission of slot
`s` as it was, so a `PTE_W` saved there stays set.  At the failing input, block
id 10 (slot 1) in the state `st_perm`: the reference count of slot 1 goes from 1
to 2, but the saved permission of slot 1 keeps `PTE_W`, and the saved permission
of slot 0 loses it instead. -/
theorem inc_block_refcount_wrong_slot :
    (∀ (s : Nat) (st : State), 1 ≤ s →
      ((inc_block_refcount (2 + 8 * (s : Int)) st).swapblock s).page_perm
        = (st.swapblock s).page_perm) ∧
    ((st_perm.swapblock 1).refcount = 1 ∧ (st_perm.swapblock 1).page_perm = 7 ∧
      (st_perm.swapblock 0).page_perm = 7) ∧
    ((inc_block_refcount 10 st_perm).swapblock 1).refcount = 2 ∧
    ((inc_block_refcount 10 st_perm).swapblock 1).page_perm &&& PTE_W ≠ 0 ∧
    ((inc_block_refcount 10 st_perm).swapblock 0).page_perm = 5 :=
  ⟨fun s st hs => inc_block_refcount_perm s st hs, by decide⟩

theorem kfree_returns (c : Config) (v : Nat) (s : State) (hv : valid_frame c v) :
    ∃ s', kfree c v s = .ok s' := by
  rcases lt_trichotomy (s.rmap (V2P c v >>> PTXSHIFT)) 0 with h | h | h
  · exact ⟨_, kfree_ok_neg c v s hv h⟩
  · exact ⟨_, kfree_ok_zero c v s hv h⟩
  · rcases eq_or_lt_of_le (show (1 : Int) ≤ s.rmap (V2P c v >>> PTXSHIFT) by omega) with h1 | h1
    · exact ⟨_, kfree_ok_last c v s hv h1.symm⟩
    · exact ⟨_, kfree_ok_keep c v s hv h1⟩

theorem add_pte_scan_hit (row : Nat → Nat) (pte : Nat) :
    ∀ (n i : Nat) (found : Option Nat), (∃ j, i ≤ j ∧ j < i + n ∧ row j = pte) →
      add_pte_scan row pte n i found = none := by
  intro n
  induction n with
  | zero => rintro i found ⟨j, h1, h2, _⟩; omega
  | succ n ih =>
    rintro i found ⟨j, h1, h2, h3⟩
    unfold add_pte_scan
    by_cases h : row i = pte
    · simp only [h, if_true]
    · simp only [h, if_false]
      apply ih
      refine ⟨j, ?_, by omega, h3⟩
      rcases Nat.eq_or_lt_of_le h1 with e | e
      · subst e; exact absurd h3 h
      · omega

theorem add_pte_scan_found (row : Nat → Nat) (pte e : Nat) :
    ∀ (n i : Nat), (∀ j, i ≤ j → j < i + n → row j ≠ pte) →
      add_pte_scan row pte n i (some e) = some (some e) := by
  intro n
  induction n with
  | zero => intro i _; rfl
  | succ n ih =>
    intro i h
    unfold add_pte_scan
    simp only [h i (le_refl i) (by omega), if_false]
    exact ih (i + 1) (fun j h1 h2 => h j (by omega) (by omega))

theorem add_pte_scan_first (row : Nat → Nat) (pte e : Nat) :
    ∀ (n i : Nat), (∀ j, i ≤ j → j < i + n → row j ≠ pte) → i ≤ e → e < i + n →
      row e = 0 → (∀ j, i ≤ j → j < e → row j ≠ 0) →
      add_pte_scan row pte n i none = some (some e) := by
  intro n
  induction n with
  | zero => intro i _ h1 h2; omega
  | succ n ih =>
    intro i h h1 h2 he hlow
    unfold add_pte_scan
    simp only [h i (le_refl i) (by omega), if_false]
    rcases Nat.eq_or_lt_of_le h1 with e1 | e1
    · subst e1
      simp only [he, if_true]
      exact add_pte_scan_found row pte i n (i + 1) (fun j h1 h2 => h j (by omega) (by omega))
    · simp only [hlow i (le_refl i) e1, if_false]
      exact ih (i + 1) (fun j h1 h2 => h j (by omega) (by omega)) e1 (by omega) he
        (fun j h1 h2 => hlow j (by omega) h2)

theorem add_pte_scan_full (row : Nat → Nat) (pte : Nat) :
    ∀ (n i : Nat), (∀ j, i ≤ j → j < i + n → row j ≠ pte) →
      (∀ j, i ≤ j → j < i + n → row j ≠ 0) →
      add_pte_scan row pte n i none = some none := by
  intro n
  induction n with
  | zero => intro i _ _; rfl
  | succ n ih =>
    intro i h h0
    unfold add_pte_scan
    simp only [h i (le_refl i) (by omega), if_false, h0 i (le_refl i) (by omega)]
    exact ih (i + 1) (fun j h1 h2 => h j (by omega) (by omega))
      (fun j h1 h2 => h0 j (by omega) (by omega))

theorem add_pte_row_recorded (n : Nat) (row : Nat → Nat) (p : Nat)
    (h : ∃ j, j < n ∧ row j = p) : add_pte_row n row p = row := by
  obtain ⟨j, h1, h2⟩ := h
  unfold add_pte_row
  rw [add_pte_scan_hit row p n 0 none ⟨j, Nat.zero_le j, by omega, h2⟩]

theorem add_pte_row_store (n : Nat) (row : Nat → Nat) (p e : Nat)
    (h : ∀ j, j < n → row j ≠ p) (he : e < n) (h0 : row e = 0)
    (hlow : ∀ j, j < e → row j ≠ 0) : add_pte_row n row p = Function.update row e p := by
  unfold add_pte_row
  rw [add_pte_scan_first row p e n 0 (fun j _ h2 => h j (by omega)) (Nat.zero_le e) (by omega) h0
    (fun j _ h2 => hlow j h2)]

theorem add_pte_row_full (n : Nat) (row : Nat → Nat) (p : Nat)
    (h : ∀ j, j < n → row j ≠ p) (h0 : ∀ j, j < n → row j ≠ 0) :
    add_pte_row n row p = row := by
  unfold add_pte_row
  rw [add_pte_scan_full row p n 0 (fun j _ h2 => h j (by omega)) (fun j _ h2 => h0 j (by omega))]

theorem add_pte_row_spec (n : Nat) (row : Nat → Nat) (p : Nat) :
    sharer_added n row p (add_pte_row n row p) :=
  ⟨add_pte_row_recorded n row p,
   fun h e he h0 hlow => add_pte_row_store n row p e h he h0 hlow,
   add_pte_row_full n row p⟩

/-- The three cases of a row: `p` recorded, or a lowest null entry, or full. -/
theorem row_cases (n : Nat) (row : Nat → Nat) (p : Nat) :
    (∃ j, j < n ∧ row j = p) ∨
    ((∀ j, j < n → row j ≠ p) ∧ ∃ e, e < n ∧ row e = 0 ∧ ∀ j, j < e → row j ≠ 0) ∨
    ((∀ j, j < n → row j ≠ p) ∧ ∀ j, j < n → row j ≠ 0) := by
  by_cases h : ∃ j, j < n ∧ row j = p
  · exact Or.inl h
  · have hn : ∀ j, j < n → row j ≠ p := fun j hj hp => h ⟨j, hj, hp⟩
    by_cases h0 : ∃ j, j < n ∧ row j = 0
    · refine Or.inr (Or.inl ⟨hn, Nat.find h0, (Nat.find_spec h0).1, (Nat.find_spec h0).2, ?_⟩)
      intro j hj hz
      exact Nat.find_min h0 hj ⟨lt_trans hj (Nat.find_spec h0).1, hz⟩
    · exact Or.inr (Or.inr ⟨hn, fun j hj hz => h0 ⟨j, hj, hz⟩⟩)

theorem add_pte_row_idem (n : Nat) (row : Nat → Nat) (p : Nat) :
    add_pte_row n (add_pte_row n row p) p = add_pte_row n row p := by
  rcases row_cases n row p with h | ⟨h, e, he, h0, hlow⟩ | ⟨h, h0⟩
  · rw [add_pte_row_recorded n row p h, add_pte_row_recorded n row p h]
  · rw [add_pte_row_store n row p e h he h0 hlow]
    exact add_pte_row_recorded n _ p ⟨e, he, Function.update_same e p row⟩
  · rw [add_pte_row_full n row p h h0, add_pte_row_full n row p h h0]

theorem add_pte_row_once (n : Nat) (row : Nat → Nat) (p : Nat)
    (hcap : (∃ j, j < n ∧ row j = p) ∨ (∃ j, j < n ∧ row j = 0))
    (hdup : ∀ i j, i < n → j < n → row i = p → row j = p → i = j) :
    ∃! i, i < n ∧ add_pte_row n row p i = p := by
  rcases row_cases n row p with h | ⟨h, e, he, h0, hlow⟩ | ⟨h, h0⟩
  · rw [add_pte_row_recorded n row p h]
    obtain ⟨j, h1, h2⟩ := h
    exact ⟨j, ⟨h1, h2⟩, fun i hi => hdup i j hi.1 h1 hi.2 h2⟩
  · rw [add_pte_row_store n row p e h he h0 hlow]
    refine ⟨e, ⟨he, Function.update_same e p row⟩, ?_⟩
    rintro i ⟨hi, hp⟩
    by_contra hne
    rw [Function.update_noteq hne] at hp
    exact h i hi hp
  · rcases hcap with ⟨j, h1, h2⟩ | ⟨j, h1, h2⟩
    · exact absurd h2 (h j h1)
    · exact absurd h2 (h0 j h1)

/-- C16.  Sharer insertion by `add_pte_mem` (frame `pa`) and `add_pte_block` (slot
of `blockid`): if `p` is already recorded among the `NPROC` entries the map is
unchanged; otherwise `p` is stored in the lowest-indexed null entry and no other
entry changes (a map without a null entry, which the capacity of `NPROC` sharers
per frame rules out, is left unchanged).  Adding `p` twice gives the same state
as adding it once.  Within the capacity (the map records `p` or has a null
entry), a map that recorded `p` at most once then records it exactly once. -/
theorem sharer_insertion (c : Config) (pa : Nat) (blockid : Int) (p : Nat) (s : State) :
    sharer_added c.NPROC (s.shared_ptes (pa >>> PTXSHIFT)) p
      ((add_pte_mem c pa p s).shared_ptes (pa >>> PTXSHIFT)) ∧
    sharer_added c.NPROC (s.swapblock (block_index blockid)).shared_ptes p
      ((add_pte_block c blockid p s).swapblock (block_index blockid)).shared_ptes ∧
    add_pte_mem c pa p (add_pte_mem c pa p s) = add_pte_mem c pa p s ∧
    add_pte_block c blockid p (add_pte_block c blockid p s) = add_pte_block c blockid p s ∧
    (((∃ j, j < c.NPROC ∧ s.shared_ptes (pa >>> PTXSHIFT) j = p) ∨
        (∃ j, j < c.NPROC ∧ s.shared_ptes (pa >>> PTXSHIFT) j = 0)) →
      (∀ i j, i < c.NPROC → j < c.NPROC → s.shared_ptes (pa >>> PTXSHIFT) i = p →
        s.shared_ptes (pa >>> PTXSHIFT) j = p → i = j) →
      ∃! i, i < c.NPROC ∧ (add_pte_mem c pa p s).shared_ptes (pa >>> PTXSHIFT) i = p) ∧
    (((∃ j, j < c.NPROC ∧ (s.swapblock (block_index blockid)).shared_ptes j = p) ∨
        (∃ j, j < c.NPROC ∧ (s.swapblock (block_index blockid)).shared_ptes j = 0)) →
      (∀ i j, i < c.NPROC → j < c.NPROC → (s.swapblock (block_index blockid)).shared_ptes i = p →
        (s.swapblock (block_index blockid)).shared_ptes j = p → i = j) →
      ∃! i, i < c.NPROC ∧
        ((add_pte_block c blockid p s).swapblock (block_index blockid)).shared_ptes i = p) := by
  have hm : (add_pte_mem c pa p s).shared_ptes (pa >>> PTXSHIFT)
      = add_pte_row c.NPROC (s.shared_ptes (pa >>> PTXSHIFT)) p := by
    simp only [add_pte_mem, Function.update_same]
  have hb : ((add_pte_block c blockid p s).swapblock (block_index blockid)).shared_ptes
      = add_pte_row c.NPROC (s.swapblock (block_index blockid)).shared_ptes p := by
    simp only [add_pte_block, Function.update_same]
  refine ⟨?_, ?_, ?_, ?_, ?_, ?_⟩
  · rw [hm]; exact add_pte_row_spec _ _ _
  · rw [hb]; exact add_pte_row_spec _ _ _
  · simp only [add_pte_mem, Function.update_same, Function.update_idem, add_pte_row_idem]
  · simp only [add_pte_block, Function.update_same, Function.update_idem, add_pte_row_idem]
  · intro hcap hdup; rw [hm]; exact add_pte_row_once _ _ _ hcap hdup
  · intro hcap hdup; rw [hb]; exact add_pte_row_once _ _ _ hcap hdup

/-- C16 at a concrete state: on an empty reverse map the reference `0x9000` is
stored in entry 0. -/
theorem sharer_insertion_witness :
    (add_pte_mem cfg0 0x500000 0x9000 st_blank).shared_ptes (0x500000 >>> PTXSHIFT)
      = Function.update (st_blank.shared_ptes (0x500000 >>> PTXSHIFT)) 0 0x9000 :=
  (sharer_insertion cfg0 0x500000 10 0x9000 st_blank).1.2.1
    (fun j _ h => absurd (show (0 : Nat) = 0x9000 from h) (by decide)) 0 (by decide) rfl (fun j hj => absurd hj (Nat.not_lt_zero j))

theorem remove_entry_row_apply (n : Nat) (row : Nat → Nat) (pte i : Nat) :
    remove_entry_row n row pte i = if i < n ∧ row i = pte then 0 else row i := by
  rw [remove_entry_row_eq]

/-- C17.  After `mem_remove_entry(pa, p)` with a non-null reference `p`, no entry
of `shared_ptes[pa]` equals `p`, every entry that was not `p` is unchanged, the
PTE word `*p` is 0 and `rmap` is unchanged.  `diskremove_entry(p)` does the same
on the reverse map of the slot `(page_number(*p) - 2) / 8` (unsigned arithmetic)
and leaves that slot's reference count unchanged. -/
theorem sharer_removal (c : Config) (pa p : Nat) (s : State) (hp : p ≠ 0) :
    (∀ i, i < c.NPROC → (mem_remove_entry c pa p s).shared_ptes (pa >>> PTXSHIFT) i ≠ p) ∧
    (∀ i, s.shared_ptes (pa >>> PTXSHIFT) i ≠ p →
      (mem_remove_entry c pa p s).shared_ptes (pa >>> PTXSHIFT) i
        = s.shared_ptes (pa >>> PTXSHIFT) i) ∧
    (mem_remove_entry c pa p s).ptes p = 0 ∧
    (mem_remove_entry c pa p s).rmap = s.rmap ∧
    (∀ i, i < c.NPROC →
      ((diskremove_entry c p s).swapblock (sub32 (s.ptes p >>> PTXSHIFT) 2 / 8)).shared_ptes i
        ≠ p) ∧
    (∀ i, (s.swapblock (sub32 (s.ptes p >>> PTXSHIFT) 2 / 8)).shared_ptes i ≠ p →
      ((diskremove_entry c p s).swapblock (sub32 (s.ptes p >>> PTXSHIFT) 2 / 8)).shared_ptes i
        = (s.swapblock (sub32 (s.ptes p >>> PTXSHIFT) 2 / 8)).shared_ptes i) ∧
    (diskremove_entry c p s).ptes p = 0 ∧
    ((diskremove_entry c p s).swapblock (sub32 (s.ptes p >>> PTXSHIFT) 2 / 8)).refcount
      = (s.swapblock (sub32 (s.ptes p >>> PTXSHIFT) 2 / 8)).refcount := by
  have hm : (mem_remove_entry c pa p s).shared_ptes (pa >>> PTXSHIFT)
      = remove_entry_row c.NPROC (s.shared_ptes (pa >>> PTXSHIFT)) p := by
    simp only [mem_remove_entry, Function.update_same]
  have hd : ((diskremove_entry c p s).swapblock (sub32 (s.ptes p >>> PTXSHIFT) 2 / 8)).shared_ptes
      = remove_entry_row c.NPROC
          (s.swapblock (sub32 (s.ptes p >>> PTXSHIFT) 2 / 8)).shared_ptes p := by
    simp only [diskremove_entry, Function.update_same]
  refine ⟨?_, ?_, ?_, ?_, ?_, ?_, ?_, ?_⟩
  · intro i hi
    rw [hm, remove_entry_row_apply]
    by_cases h : s.shared_ptes (pa >>> PTXSHIFT) i = p
    · rw [if_pos ⟨hi, h⟩]; exact fun h0 => hp h0.symm
    · rw [if_neg (fun hc => h hc.2)]; exact h
  · intro i h
    rw [hm, remove_entry_row_apply, if_neg (fun hc => h hc.2)]
  · simp only [mem_remove_entry, Function.update_same]
  · simp only [mem_remove_entry]
  · intro i hi
    rw [hd, remove_entry_row_apply]
    by_cases h : (s.swapblock (sub32 (s.ptes p >>> PTXSHIFT) 2 / 8)).shared_ptes i = p
    · rw [if_pos ⟨hi, h⟩]; exact fun h0 => hp h0.symm
    · rw [if_neg (fun hc => h hc.2)]; exact h
  · intro i h
    rw [hd, remove_entry_row_apply, if_neg (fun hc => h hc.2)]
  · simp only [diskremove_entry, Function.update_same]
  · simp only [diskremove_entry, Function.update_same]

/-- C17 at a concrete state: the reference `0x7008`, recorded in entry 2 of the
reverse map of frame `0x500000`, is gone after `mem_remove_entry`. -/
theorem sharer_removal_witness :
    st_fullrow.shared_ptes (0x500000 >>> PTXSHIFT) 2 = 0x7008 ∧
    (∀ i, i < cfg0.NPROC →
      (mem_remove_entry cfg0 0x500000 0x7008 st_fullrow).shared_ptes (0x500000 >>> PTXSHIFT) i
        ≠ 0x7008) :=
  ⟨by decide, (sharer_removal cfg0 0x500000 0x7008 st_fullrow (by decide)).1⟩

/-! ## `kalloc` on an exhausted free list -/

theorem get_page_ptes_only (k : Collab) (hk : k.ptes_only) (p : Nat) (s s2 : State) (vp : Nat)
    (h : get_page k p s = .ok (vp, s2)) : s2 = { s with ptes := s2.ptes } := by
  unfold get_page at h
  simp only at h
  split at h
  · cases h; rfl
  · split at h
    · cases h
    · cases h
      exact hk s p

theorem kalloc_swap (c : Config) (k : Collab) (fuel : Nat) (s s1 : State)
    (h0 : s.freelist = 0) (hso : swap_out c k s = .ok s1) :
    kalloc c k (fuel + 1) s = kalloc c k fuel s1 := by
  rw [kalloc]
  simp only [h0, ne_eq, not_true_eq_false, if_false, hso]

theorem scan_free_slot_lt (sb : Nat → SwapSlot) (n : Nat)
    (h : ∃ j, j < n ∧ (sb j).free_int ≠ 0) : scan_free_slot sb n 0 < n := by
  obtain ⟨j, hj, hfree⟩ := h
  obtain ⟨_, h2, h3, _⟩ := scan_free_slot_spec sb n 0
  by_contra hge
  exact hfree (h3 j (Nat.zero_le _) (by omega))

/-- C15.  `kalloc` on an exhausted free list.  The free list is empty, some swap
slot is free, and the collaborator (which rewrites page-table words only) supplies
a victim page that maps a valid frame `pa`.  Then `kalloc` returns after exactly
one `swap_out` and one retry (fuel 1 is not enough, any fuel from 2 on is): the
result is the non-null address `P2V(pa)`, `rmap[pa] = 1`, the victim's `rss` is
4096 lower, the free list is empty again, and the outside calls are one
`get_victim_proc` and one `page_to_disk`. -/
theorem kalloc_exhausted (c : Config) (k : Collab) (fuel : Nat) (s s2 : State) (vp pa : Nat)
    (hk : k.ptes_only) (hk0 : 0 < c.kend) (h0 : s.freelist = 0)
    (hslot : ∃ j, j < nslots c ∧ (s.swapblock j).free_int ≠ 0)
    (hget : get_page k (k.get_victim_proc s) (swap_out_entry k s) = .ok (vp, s2))
    (hpa : PTE_ADDR (s2.ptes vp) = pa) (hv : valid_pa c pa) :
    kalloc c k 1 s = .outOfFuel ∧
    ∃ s' b, kalloc c k (fuel + 2) s = .ok (P2V c pa, s') ∧ P2V c pa ≠ 0 ∧
      frame_index c (P2V c pa) = pa >>> PTXSHIFT ∧
      s'.rmap (pa >>> PTXSHIFT) = 1 ∧
      s'.rss (k.get_victim_proc s) = s.rss (k.get_victim_proc s) - 4096 ∧
      s'.freelist = 0 ∧
      s'.trace = s.trace ++ [Event.get_victim_proc,
                             Event.page_to_disk c.ROOTDEV (P2V c pa) (2 + 8 * b)] := by
  subst hpa
  have hs2 := get_page_ptes_only k hk _ _ _ _ hget
  have hsb : s2.swapblock = s.swapblock := by rw [hs2]; rfl
  have hfl : s2.freelist = 0 := by rw [hs2]; exact h0
  have hrss : s2.rss = Function.update s.rss (k.get_victim_proc s)
      (s.rss (k.get_victim_proc s) - 4096) := by rw [hs2]; rfl
  have htr : s2.trace = s.trace ++ [Event.get_victim_proc] := by rw [hs2]; rfl
  have hlt : scan_free_slot s2.swapblock (nslots c) 0 < nslots c :=
    scan_free_slot_lt _ _ (by rw [hsb]; exact hslot)
  have hso := swap_out_ok c k s s2 vp _ hget rfl hlt hv
  have e := V2P_P2V c _ (PTE_ADDR_lt (s2.ptes vp))
  have hne : P2V c (PTE_ADDR (s2.ptes vp)) ≠ 0 := by
    have := hv.2.2.1
    omega
  have hfree : (swap_out_done c vp (scan_free_slot s2.swapblock (nslots c) 0) s2).freelist
      = P2V c (PTE_ADDR (s2.ptes vp)) := by
    simp only [swap_out_done, kfree_push]
  have hpop := kalloc_ok_pop c k fuel
    (swap_out_done c vp (scan_free_slot s2.swapblock (nslots c) 0) s2)
    (by rw [hfree]; exact hne) (by rw [hfree, e]; exact hv.1)
  refine ⟨?_, kalloc_pop c (swap_out_done c vp (scan_free_slot s2.swapblock (nslots c) 0) s2),
    scan_free_slot s2.swapblock (nslots c) 0, ?_, hne, ?_, ?_, ?_, ?_, ?_⟩
  · rw [kalloc_swap c k 0 s _ h0 hso]; rfl
  · rw [kalloc_swap c k (fuel + 1) s _ h0 hso, hpop, hfree]
  · unfold frame_index; rw [e]
  · simp only [kalloc_pop, hfree, e, Function.update_same]
  · simp only [kalloc_pop, swap_out_done, kfree_push, hrss, Function.update_same]
  · show load32 _ _ = 0
    rw [hfree]
    have := kfree_push_link (P2V c (PTE_ADDR (s2.ptes vp)))
    simp only [swap_out_done]
    rw [this]
    simp only [hfl]
    rfl
  · simp only [kalloc_pop, swap_out_done, kfree_push, htr, List.append_assoc, List.singleton_append]

/-- C15 at a concrete state: with an empty free list and slots 0, 1 and 3 occupied,
`kalloc` evicts the page in `frameA` and returns `frameA`. -/
theorem kalloc_exhausted_witness :
    ∃ s', kalloc cfg0 collab1 2 st_swap = .ok (frameA, s') ∧ s'.rmap 1280 = 1 ∧
      s'.rss 7 = st_swap.rss 7 - 4096 ∧ s'.freelist = 0 := by
  obtain ⟨_, s', b, h1, _, _, h2, h3, h4, _⟩ :=
    kalloc_exhausted cfg0 collab1 0 st_swap (swap_out_entry collab1 st_swap) 0x80701004 0x500000
      (fun _ _ => rfl) (by decide) rfl ⟨2, by decide, by decide⟩ get_page_st_swap
      (by decide) (by decide)
  exact ⟨s', h1, h2, h3, h4⟩

/-! ## Panics of the fault handler -/

theorem hpwo_write_bit_on (c : Config) (k : Collab) (fuel : Nat) (s : State) (pte : Nat)
    (hpte : fault_pte c s = pte)
    (hP : s.ptes pte &&& PTE_P ≠ 0) (hW : s.ptes pte &&& PTE_W ≠ 0) :
    handle_page_write_off c k fuel s = .panic .write_bit_already_on := by
  unfold handle_page_write_off
  simp only [walkpgdir_fault, hpte]
  rw [if_pos hP, if_pos (by rw [Nat.and_comm]; exact hW)]

theorem hpwo_bad_count (c : Config) (k : Collab) (fuel : Nat) (s : State) (pte : Nat)
    (hpte : fault_pte c s = pte)
    (hP : s.ptes pte &&& PTE_P ≠ 0) (hW : s.ptes pte &&& PTE_W = 0)
    (hpa : ¬ pa_out_of_range c (PTE_ADDR (s.ptes pte)))
    (hr : toU32 (s.rmap (PTE_ADDR (s.ptes pte) >>> PTXSHIFT)) < 1) :
    handle_page_write_off c k fuel s = .panic .incorrect_reference_count := by
  unfold handle_page_write_off
  simp only [walkpgdir_fault, hpte]
  rw [if_pos hP, if_neg (by rw [Nat.and_comm, hW]; simp)]
  simp only [get_rmap_value, hpa, if_false]
  rw [if_pos hr]

theorem hpwo_no_marker (c : Config) (k : Collab) (fuel : Nat) (s : State) (pte : Nat)
    (hpte : fault_pte c s = pte)
    (hNP : s.ptes pte &&& PTE_P = 0) (hS : s.ptes pte &&& 0x008 = 0) :
    handle_page_write_off c k fuel s = .panic .no_swap_out_bit := by
  unfold handle_page_write_off
  simp only [walkpgdir_fault, hpte]
  rw [if_neg (by rw [hNP]; simp), if_pos hS]

theorem hpwo_last_returns (c : Config) (k : Collab) (fuel : Nat) (s : State) (pte : Nat)
    (hpte : fault_pte c s = pte)
    (hP : s.ptes pte &&& PTE_P ≠ 0) (hW : s.ptes pte &&& PTE_W = 0)
    (hpa : ¬ pa_out_of_range c (PTE_ADDR (s.ptes pte)))
    (hr : toU32 (s.rmap (PTE_ADDR (s.ptes pte) >>> PTXSHIFT)) = 1) :
    ∃ s', handle_page_write_off c k fuel s = .ok s' := by
  unfold handle_page_write_off
  simp only [walkpgdir_fault, hpte]
  rw [if_pos hP, if_neg (by rw [Nat.and_comm, hW]; simp)]
  simp only [get_rmap_value, hpa, if_false, hr]
  rw [if_neg (by omega), if_pos trivial]
  exact ⟨_, rfl⟩

theorem hpwo_split_returns (c : Config) (k : Collab) (fuel : Nat) (s : State) (pte : Nat)
    (hpte : fault_pte c s = pte)
    (hP : s.ptes pte &&& PTE_P ≠ 0) (hW : s.ptes pte &&& PTE_W = 0)
    (hpa : ¬ pa_out_of_range c (PTE_ADDR (s.ptes pte)))
    (hva : valid_frame c (P2V c (PTE_ADDR (s.ptes pte))))
    (hr : 1 < toU32 (s.rmap (PTE_ADDR (s.ptes pte) >>> PTXSHIFT)))
    (hm0 : s.freelist ≠ 0) (hm : ¬ pa_out_of_range c (V2P c s.freelist)) :
    ∃ s', handle_page_write_off c k (fuel + 1) s = .ok s' := by
  obtain ⟨s4, hk⟩ := kfree_returns c (P2V c (PTE_ADDR (s.ptes pte)))
      (mem_remove_entry c (PTE_ADDR (s.ptes pte)) pte
        { kalloc_pop c s with
          mem := memmove (kalloc_pop c s).mem s.freelist
                  (P2V c (PTE_ADDR (s.ptes pte))) PGSIZE }) hva
  unfold handle_page_write_off
  simp only [walkpgdir_fault, hpte]
  rw [if_pos hP, if_neg (by rw [Nat.and_comm, hW]; simp)]
  simp only [get_rmap_value, hpa, if_false]
  rw [if_neg (by omega), if_neg (by omega)]
  simp only [kalloc_ok_pop c k fuel s hm0 hm]
  rw [if_neg hm0]
  simp only [hk]
  exact ⟨_, rfl⟩

/-! ## Allocator invariants: F1 and the free-list count -/

theorem frame_index_inj (c : Config) (v w : Nat) (hv : v < U32) (hw : w < U32)
    (hva : v % PGSIZE = 0) (hwa : w % PGSIZE = 0)
    (h : frame_index c v = frame_index c w) : v = w := by
  unfold frame_index V2P PTXSHIFT at h
  rw [Nat.shiftRight_eq_div_pow, Nat.shiftRight_eq_div_pow] at h
  unfold U32 PGSIZE at *
  have e : (2 : Nat) ^ 12 = 4096 := by decide
  rw [e] at h
  omega

theorem free_list_congr (mem mem' : Nat → Nat) :
    ∀ (L : List Nat) (h : Nat),
      (∀ w, w ∈ L → ∀ i, i < 4 → mem' (w + i) = mem (w + i)) →
      free_list mem h L → free_list mem' h L := by
  intro L
  induction L with
  | nil => intro h _ hl; exact hl
  | cons v t ih =>
    intro h hm hl
    obtain ⟨h1, h2, h3⟩ := hl
    refine ⟨h1, h2, ?_⟩
    have e : load32 mem' v = load32 mem v := by
      unfold load32
      have e0 := hm v (List.mem_cons_self v t) 0 (by decide)
      rw [Nat.add_zero] at e0
      rw [e0, hm v (List.mem_cons_self v t) 1 (by decide),
        hm v (List.mem_cons_self v t) 2 (by decide), hm v (List.mem_cons_self v t) 3 (by decide)]
    rw [e]
    exact ih _ (fun w hw => hm w (List.mem_cons_of_mem v hw)) h3

theorem free_list_ne_zero (mem : Nat → Nat) :
    ∀ (L : List Nat) (h : Nat), free_list mem h L → ∀ v, v ∈ L → v ≠ 0 := by
  intro L
  induction L with
  | nil => intro h _ v hv; cases hv
  | cons a t ih =>
    intro h hl v hv
    obtain ⟨_, h2, h3⟩ := hl
    rcases List.mem_cons.mp hv with e | e
    · rw [e]; exact h2
    · exact ih _ h3 v e

theorem list_node_zero (mem : Nat → Nat) : ∀ n, list_node mem n 0 = 0 := by
  intro n
  cases n with
  | zero => rfl
  | succ n => simp [list_node]

theorem list_node_of_free_list (mem : Nat → Nat) :
    ∀ (L : List Nat) (h : Nat), free_list mem h L → ∀ n, list_node mem n h = L.getD n 0 := by
  intro L
  induction L with
  | nil =>
    intro h hl n
    have h0 : h = 0 := hl
    rw [h0, list_node_zero]
    rfl
  | cons v t ih =>
    intro h hl n
    obtain ⟨h1, h2, h3⟩ := hl
    cases n with
    | zero => rw [h1]; rfl
    | succ n =>
      rw [h1]
      simp only [list_node, h2, if_false]
      rw [ih _ h3 n]
      rfl

theorem linked_iff_mem (mem : Nat → Nat) (L : List Nat) (h : Nat) (hl : free_list mem h L)
    (fn : Nat) : linked mem h fn ↔ fn ∈ L := by
  constructor
  · rintro ⟨h0, n, hn⟩
    rw [list_node_of_free_list mem L h hl n] at hn
    by_cases hlt : n < L.length
    · rw [List.getD_eq_getElem _ _ hlt] at hn
      rw [← hn]
      exact List.getElem_mem _
    · rw [List.getD_eq_default _ _ (by omega)] at hn
      exact absurd hn.symm h0
  · intro hm
    refine ⟨free_list_ne_zero mem L h hl fn hm, ?_⟩
    obtain ⟨n, hn, e⟩ := List.getElem_of_mem hm
    refine ⟨n, ?_⟩
    rw [list_node_of_free_list mem L h hl n, List.getD_eq_getElem _ _ hn, e]

theorem nodup_length_le (L : List Nat) (N : Nat) (hn : L.Nodup) (hb : ∀ x, x ∈ L → x < N) :
    L.length ≤ N := by
  rw [← List.toFinset_card_of_nodup hn]
  have hs : L.toFinset ⊆ Finset.range N := by
    intro x hx
    rw [List.mem_toFinset] at hx
    exact Finset.mem_range.mpr (hb x hx)
  calc L.toFinset.card ≤ (Finset.range N).card := Finset.card_le_card hs
    _ = N := Finset.card_range N

theorem kfree_push_mem_far (v w : Nat) (s : State) (i : Nat) (hva : v % PGSIZE = 0)
    (hwa : w % PGSIZE = 0) (hne : w ≠ v) (hi : i < 4) :
    (kfree_push v s).mem (w + i) = s.mem (w + i) := by
  show store32 _ _ _ _ = _
  unfold PGSIZE at *
  rw [store32_far _ _ _ _ (by omega), memset_out _ _ _ _ _ (by omega)]

theorem alloc_inv_head_lt (c : Config) (R L : List Nat) (s : State)
    (hinv : alloc_inv c R L s) : s.freelist < U32 := by
  obtain ⟨hl, _, hLR, hR, _, _⟩ := hinv
  cases L with
  | nil =>
    have h0 : s.freelist = 0 := hl
    rw [h0]; decide
  | cons a t =>
    rw [hl.1]
    exact (hR a (hLR a (List.mem_cons_self a t))).2.2

theorem alloc_inv_length (c : Config) (R L : List Nat) (s : State) (hk0 : 0 < c.kend)
    (hinv : alloc_inv c R L s) : L.length + 1 ≤ U32 := by
  obtain ⟨_, hnd, hLR, hR, _, _⟩ := hinv
  have h := nodup_length_le (0 :: L) U32
    (List.nodup_cons.mpr ⟨fun h0 => by
      have := (hR 0 (hLR 0 h0)).1.2.1
      omega, hnd⟩)
    (fun x hx => by
      rcases List.mem_cons.mp hx with e | e
      · rw [e]; decide
      · exact (hR x (hLR x e)).2.2)
  simpa using h

theorem alloc_inv_push (c : Config) (R R' L : List Nat) (s : State) (v : Nat)
    (hk0 : 0 < c.kend) (hinv : alloc_inv c R L s)
    (hR' : ∀ w, w ∈ R' ↔ w = v ∨ w ∈ R)
    (hvv : valid_frame c v) (hvr : ¬ pa_out_of_range c (V2P c v)) (hv32 : v < U32)
    (hvL : v ∉ L) :
    alloc_inv c R' (v :: L) (kfree_push v (with_rmap (frame_index c v) 0 s)) := by
  have hhead := alloc_inv_head_lt c R L s hinv
  have hvalid : ∀ w, w ∈ R' → valid_frame c w ∧ ¬ pa_out_of_range c (V2P c w) ∧ w < U32 := by
    intro w hw
    rcases (hR' w).mp hw with e | e
    · rw [e]; exact ⟨hvv, hvr, hv32⟩
    · exact hinv.2.2.2.1 w e
  have hinv' : alloc_inv c R' (v :: L) (kfree_push v (with_rmap (frame_index c v) 0 s)) := by
    obtain ⟨hl, hnd, hLR, hR, hF, hn⟩ := hinv
    refine ⟨⟨rfl, ?_, ?_⟩, List.nodup_cons.mpr ⟨hvL, hnd⟩, ?_, hvalid, ?_, ?_⟩
    · have := hvv.2.1
      omega
    · rw [kfree_push_link]
      have e : (with_rmap (frame_index c v) 0 s).freelist % U32 = s.freelist :=
        Nat.mod_eq_of_lt hhead
      rw [e]
      refine free_list_congr s.mem _ L s.freelist ?_ hl
      intro w hw i hi
      exact kfree_push_mem_far v w _ i hvv.1 (hR w (hLR w hw)).1.1
        (fun e => hvL (e ▸ hw)) hi
    · intro w hw
      rcases List.mem_cons.mp hw with e | e
      · exact (hR' w).mpr (Or.inl e)
      · exact (hR' w).mpr (Or.inr (hLR w e))
    · intro w hw
      show Function.update s.rmap (frame_index c v) 0 (frame_index c w) = 0 ↔ _
      by_cases e : w = v
      · rw [e, Function.update_same]
        exact ⟨fun _ => List.mem_cons_self v L, fun _ => rfl⟩
      · have hwR : w ∈ R := by
          rcases (hR' w).mp hw with e1 | e1
          · exact absurd e1 e
          · exact e1
        have hne : frame_index c w ≠ frame_index c v := fun h =>
          e (frame_index_inj c w v (hR w hwR).2.2 hv32 (hR w hwR).1.1 hvv.1 h)
        rw [Function.update_noteq hne, hF w hwR]
        exact ⟨fun h => List.mem_cons_of_mem v h, fun h => by
          rcases List.mem_cons.mp h with e1 | e1
          · exact absurd e1 e
          · exact e1⟩
    · show (s.num_free_pages + 1) % U32 = (v :: L).length
      rw [hn, List.length_cons]
      exact Nat.mod_eq_of_lt (by
        have := nodup_length_le (0 :: v :: L) U32
          (List.nodup_cons.mpr ⟨fun h0 => by
              rcases List.mem_cons.mp h0 with e | e
              · have := hvv.2.1
                omega
              · have := (hR 0 (hLR 0 e)).1.2.1
                omega,
            List.nodup_cons.mpr ⟨hvL, hnd⟩⟩)
          (fun x hx => by
            rcases List.mem_cons.mp hx with e | e
            · rw [e]; decide
            · rcases List.mem_cons.mp e with e1 | e1
              · rw [e1]; exact hv32
              · exact (hR x (hLR x e1)).2.2)
        simp only [List.length_cons] at this
        omega)
  exact hinv'

theorem alloc_inv_pop (c : Config) (R t : List Nat) (s : State) (v : Nat)
    (hk0 : 0 < c.kend) (hinv : alloc_inv c R (v :: t) s) :
    alloc_inv c R t (kalloc_pop c s) := by
  have hlen := alloc_inv_length c R (v :: t) s hk0 hinv
  obtain ⟨hl, hnd, hLR, hR, hF, hn⟩ := hinv
  obtain ⟨h1, h2, h3⟩ := hl
  have hvt : v ∉ t := (List.nodup_cons.mp hnd).1
  have hvR : v ∈ R := hLR v (List.mem_cons_self v t)
  refine ⟨?_, (List.nodup_cons.mp hnd).2, fun w hw => hLR w (List.mem_cons_of_mem v hw), hR, ?_, ?_⟩
  · show free_list s.mem (load32 s.mem s.freelist) t
    rw [h1]; exact h3
  · intro w hw
    show Function.update s.rmap (V2P c s.freelist >>> PTXSHIFT) 1 (frame_index c w) = 0 ↔ _
    rw [h1]
    by_cases e : w = v
    · rw [e]
      have : Function.update s.rmap (V2P c v >>> PTXSHIFT) 1 (frame_index c v) = 1 :=
        Function.update_same _ _ _
      rw [this]
      exact ⟨fun h => absurd h (by decide), fun h => absurd h hvt⟩
    · have hne : frame_index c w ≠ V2P c v >>> PTXSHIFT := fun h =>
        e (frame_index_inj c w v (hR w hw).2.2 (hR v hvR).2.2 (hR w hw).1.1 (hR v hvR).1.1 h)
      rw [Function.update_noteq hne, hF w hw]
      exact ⟨fun h => by
          rcases List.mem_cons.mp h with e1 | e1
          · exact absurd e1 e
          · exact e1, fun h => List.mem_cons_of_mem v h⟩
  · show dec32 s.num_free_pages = t.length
    rw [hn]
    unfold dec32
    simp only [List.length_cons] at hlen ⊢
    unfold U32 at *
    rw [if_neg (by omega)]
    omega

theorem alloc_inv_set_rmap (c : Config) (R L : List Nat) (s : State) (v : Nat) (x : Int)
    (hinv : alloc_inv c R L s) (hvR : v ∈ R) (hvL : v ∉ L) (hx : x ≠ 0) :
    alloc_inv c R L (with_rmap (frame_index c v) x s) := by
  obtain ⟨hl, hnd, hLR, hR, hF, hn⟩ := hinv
  refine ⟨hl, hnd, hLR, hR, ?_, hn⟩
  intro w hw
  show Function.update s.rmap (frame_index c v) x (frame_index c w) = 0 ↔ _
  by_cases e : w = v
  · rw [e, Function.update_same]
    exact ⟨fun h => absurd h hx, fun h => absurd h hvL⟩
  · have hne : frame_index c w ≠ frame_index c v := fun h =>
      e (frame_index_inj c w v (hR w hw).2.2 (hR v hvR).2.2 (hR w hw).1.1 (hR v hvR).1.1 h)
    rw [Function.update_noteq hne]
    exact hF w hw

theorem alloc_inv_congr (c : Config) (R R' L : List Nat) (s s' : State)
    (hR : ∀ w, w ∈ R' ↔ w ∈ R) (hm : s'.mem = s.mem) (hf : s'.freelist = s.freelist)
    (hr : s'.rmap = s.rmap) (hn : s'.num_free_pages = s.num_free_pages)
    (hinv : alloc_inv c R L s) : alloc_inv c R' L s' := by
  obtain ⟨hl, hnd, hLR, hRv, hF, hnn⟩ := hinv
  refine ⟨by rw [hm, hf]; exact hl, hnd, fun v hv => (hR v).mpr (hLR v hv),
    fun v hv => hRv v ((hR v).mp hv), fun v hv => by rw [hr]; exact hF v ((hR v).mp hv),
    by rw [hn]; exact hnn⟩

theorem freerange_pages_ge : ∀ (n p vend q : Nat), q ∈ freerange_pages n p vend → p ≤ q := by
  intro n
  induction n with
  | zero => intro p vend q h; cases h
  | succ n ih =>
    intro p vend q h
    unfold freerange_pages at h
    by_cases hc : p + PGSIZE ≤ vend
    · rw [if_pos hc] at h
      rcases List.mem_cons.mp h with e | e
      · omega
      · have := ih _ _ _ e
        omega
    · rw [if_neg hc] at h; cases h

theorem kfree_ok_valid (c : Config) (v : Nat) (s s' : State) (h : kfree c v s = .ok s') :
    valid_frame c v := by
  by_contra hv
  have hb : kfree_bad c v := (kfree_bad_iff c v).mpr hv
  unfold kfree at h
  rw [if_pos hb] at h
  cases h

theorem freerange_loop_inv (c : Config) (hk0 : 0 < c.kend) (vend : Nat) (hvend : vend < U32) :
    ∀ (n p : Nat) (R L : List Nat) (s s' : State), alloc_inv c R L s →
      (∀ q, q ∈ freerange_pages n p vend → q ∉ R) →
      freerange_loop c n p vend s = .ok s' →
      ∃ L', alloc_inv c (freerange_pages n p vend ++ R) L' s' := by
  intro n
  induction n with
  | zero =>
    intro p R L s s' hinv _ h
    unfold freerange_loop at h
    by_cases hc : p + PGSIZE ≤ vend
    · rw [if_pos hc] at h; cases h
    · rw [if_neg hc] at h
      cases h
      exact ⟨L, hinv⟩
  | succ n ih =>
    intro p R L s s' hinv hfresh h
    rw [freerange_loop] at h
    unfold freerange_pages at hfresh ⊢
    by_cases hc : p + PGSIZE ≤ vend
    · rw [if_pos hc] at h hfresh ⊢
      by_cases hr : pa_out_of_range c (V2P c p)
      · simp only [set_rmap_value_no_lock, hr, if_true] at h
        cases h
      · simp only [set_rmap_value_no_lock, hr, if_false] at h
        cases hk : kfree c p { s with rmap := Function.update s.rmap (V2P c p >>> PTXSHIFT) 0 } with
        | panic e => rw [hk] at h; cases h
        | outOfFuel => rw [hk] at h; cases h
        | ok s2 =>
          rw [hk] at h
          have hv := kfree_ok_valid c p _ _ hk
          rw [kfree_ok_zero c p _ hv (Function.update_same _ _ _)] at hk
          cases hk
          have hp32 : p < U32 := by unfold PGSIZE at hc; omega
          have hpR : p ∉ R := hfresh p (List.mem_cons_self _ _)
          have hpL : p ∉ L := fun hp => hpR (hinv.2.2.1 p hp)
          have hpush := alloc_inv_push c R (p :: R) L s p hk0 hinv
            (fun w => List.mem_cons) hv hr hp32 hpL
          obtain ⟨L', hL'⟩ := ih (p + PGSIZE) (p :: R) (p :: L) _ s' hpush
            (fun q hq hqR => by
              rcases List.mem_cons.mp hqR with e | e
              · have := freerange_pages_ge _ _ _ _ hq
                unfold PGSIZE at this
                omega
              · exact hfresh q (List.mem_cons_of_mem p hq) e) h
          refine ⟨L', alloc_inv_congr c _ _ L' s' s' ?_ rfl rfl rfl rfl hL'⟩
          intro w
          simp only [List.mem_append, List.mem_cons]
          tauto
    · rw [if_neg hc] at h ⊢
      cases h
      exact ⟨L, hinv⟩

theorem free_list_nil_of_null (mem : Nat → Nat) (L : List Nat) (h : free_list mem 0 L) :
    L = [] := by
  cases L with
  | nil => rfl
  | cons v t => exact absurd h.1.symm h.2.1

theorem kfree_panic_of_invalid (c : Config) (v : Nat) (s : State) (hv : ¬ valid_frame c v) :
    kfree c v s = .panic .kfree := by
  unfold kfree
  rw [if_pos ((kfree_bad_iff c v).mpr hv)]

theorem swap_out_inv (c : Config) (k : Collab) (s s1 : State) (h : swap_out c k s = .ok s1) :
    ∃ vp s2, get_page k (k.get_victim_proc s) (swap_out_entry k s) = .ok (vp, s2) ∧
      scan_free_slot s2.swapblock (nslots c) 0 < nslots c ∧
      valid_pa c (PTE_ADDR (s2.ptes vp)) ∧
      s1 = swap_out_done c vp (scan_free_slot s2.swapblock (nslots c) 0) s2 := by
  have hentry : swap_out_entry k s =
      { use_lock := s.use_lock, num_free_pages := s.num_free_pages, freelist := s.freelist,
        rmap := s.rmap, shared_ptes := s.shared_ptes, swapblock := s.swapblock, mem := s.mem,
        ptes := s.ptes, disk := s.disk,
        rss := Function.update s.rss (k.get_victim_proc s) (s.rss (k.get_victim_proc s) - 4096),
        pgdir := s.pgdir, cur := s.cur, cr2 := s.cr2, cr3 := s.cr3,
        trace := s.trace ++ [Event.get_victim_proc] } := rfl
  cases hget : get_page k (k.get_victim_proc s) (swap_out_entry k s) with
  | panic p =>
    rw [hentry] at hget
    unfold swap_out at h
    simp only [hget] at h
    cases h
  | outOfFuel =>
    rw [hentry] at hget
    unfold swap_out at h
    simp only [hget] at h
    cases h
  | ok r =>
    obtain ⟨vp, s2⟩ := r
    have hget' := hget
    rw [hentry] at hget'
    have hle := (scan_free_slot_spec s2.swapblock (nslots c) 0).2.1
    by_cases hlt : scan_free_slot s2.swapblock (nslots c) 0 = nslots c
    · unfold swap_out at h
      simp only [hget'] at h
      rw [if_pos hlt] at h
      cases h
    · by_cases hpa : pa_out_of_range c (PTE_ADDR (s2.ptes vp))
      · unfold swap_out at h
        simp only [hget'] at h
        rw [if_neg hlt] at h
        simp only [page_to_disk, get_rmap_value, hpa, if_true] at h
        cases h
      · by_cases hv : valid_frame c (P2V c (PTE_ADDR (s2.ptes vp)))
        · have hok := swap_out_ok c k s s2 vp _ hget rfl (by omega) ⟨hpa, hv⟩
          rw [hok] at h
          cases h
          exact ⟨vp, s2, rfl, by omega, ⟨hpa, hv⟩, rfl⟩
        · unfold swap_out at h
          simp only [hget'] at h
          rw [if_neg hlt] at h
          simp only [page_to_disk, get_rmap_value, hpa, if_false, swap_out_rewrite_eq,
            swap_out_record_eq, set_rmap_value, Function.update_same] at h
          rw [kfree_panic_of_invalid c _ _ hv] at h
          cases h

theorem alloc_reach_inv (c : Config) (k : Collab) (hk0 : 0 < c.kend) (R : List Nat) (s : State)
    (h : AllocReach c k R s) : ∃ L, alloc_inv c R L s := by
  induction h with
  | kinit1 s0 s vstart vend h0 hvend hs =>
    have hbase : alloc_inv c [] [] { s0 with use_lock := 0, num_free_pages := 0 } :=
      ⟨h0, List.nodup_nil, fun v hv => hv, fun v hv => absurd hv (List.not_mem_nil v),
        fun v hv => absurd hv (List.not_mem_nil v), rfl⟩
    obtain ⟨L, hL⟩ := freerange_loop_inv c hk0 vend hvend _ _ [] [] _ s hbase
      (fun q _ hq => absurd hq (List.not_mem_nil q)) hs
    exact ⟨L, alloc_inv_congr c _ _ L s s (fun w => by simp) rfl rfl rfl rfl hL⟩
  | kinit2 R s s' vstart vend _ hvend hfresh hs ih =>
    obtain ⟨L, hL⟩ := ih
    unfold kinit2 at hs
    cases hf : freerange c vstart vend s with
    | panic e => rw [hf] at hs; cases hs
    | outOfFuel => rw [hf] at hs; cases hs
    | ok s1 =>
      rw [hf] at hs
      cases hs
      obtain ⟨L', hL'⟩ := freerange_loop_inv c hk0 vend hvend _ _ R L s s1 hL hfresh hf
      exact ⟨L', alloc_inv_congr c _ _ L' s1 _ (fun w => Iff.rfl) rfl rfl rfl rfl hL'⟩
  | freerange R s s' vstart vend _ hvend hfresh hs ih =>
    obtain ⟨L, hL⟩ := ih
    exact freerange_loop_inv c hk0 vend hvend _ _ R L s s' hL hfresh hs
  | kalloc R s s' v fuel _ hcol hs ih =>
    obtain ⟨L, hL⟩ := ih
    by_cases hne : s.freelist = 0
    · obtain ⟨hk, hvic⟩ := hcol hne
      have hLnil : L = [] := free_list_nil_of_null s.mem L (by have := hL.1; rwa [hne] at this)
      subst hLnil
      cases fuel with
      | zero => cases hs
      | succ fuel =>
        cases hso : swap_out c k s with
        | panic e => rw [kalloc, if_neg (by simp [hne])] at hs; simp only [hso] at hs; cases hs
        | outOfFuel => rw [kalloc, if_neg (by simp [hne])] at hs; simp only [hso] at hs; cases hs
        | ok s1 =>
          rw [kalloc_swap c k fuel s s1 hne hso] at hs
          obtain ⟨vp, s2, hget, hlt, hv, hs1⟩ := swap_out_inv c k s s1 hso
          obtain ⟨hvR, hrc⟩ := hvic vp s2 hget
          have hs2 := get_page_ptes_only k hk _ _ _ _ hget
          have e := V2P_P2V c _ (PTE_ADDR_lt (s2.ptes vp))
          have hvv := hL.2.2.2.1 _ hvR
          have hinv2 : alloc_inv c R [] s2 :=
            alloc_inv_congr c R R [] s s2 (fun w => Iff.rfl) (by rw [hs2]; rfl) (by rw [hs2]; rfl)
              (by rw [hs2]; rfl) (by rw [hs2]; rfl) hL
          have hpush := alloc_inv_push c R R [] s2 (P2V c (PTE_ADDR (s2.ptes vp))) hk0 hinv2
            (fun w => ⟨fun h => Or.inr h, fun h => h.elim (fun e => e ▸ hvR) id⟩)
            hvv.1 hvv.2.1 hvv.2.2 (List.not_mem_nil _)
          have hinv1 : alloc_inv c R [P2V c (PTE_ADDR (s2.ptes vp))] s1 := by
            refine alloc_inv_congr c R R _ _ s1 (fun w => Iff.rfl) ?_ ?_ ?_ ?_ hpush
            · rw [hs1]; simp only [swap_out_done, kfree_push, with_rmap]
            · rw [hs1]; simp only [swap_out_done, kfree_push, with_rmap]
            · rw [hs1]; simp only [swap_out_done, kfree_push, with_rmap, frame_index, e]
            · rw [hs1]; simp only [swap_out_done, kfree_push, with_rmap]
          have hhead : s1.freelist = P2V c (PTE_ADDR (s2.ptes vp)) := hinv1.1.1
          have hne1 : s1.freelist ≠ 0 := by rw [hhead]; exact hinv1.1.2.1
          cases fuel with
          | zero => cases hs
          | succ fuel =>
            rw [kalloc_ok_pop c k fuel s1 hne1 (by rw [hhead]; exact hvv.2.1)] at hs
            cases hs
            exact ⟨[], alloc_inv_pop c R [] s1 _ hk0 hinv1⟩
    · cases L with
      | nil => exact absurd hL.1 hne
      | cons a t =>
        have ha : s.freelist = a := hL.1.1
        have haR := hL.2.2.2.1 a (hL.2.2.1 a (List.mem_cons_self a t))
        cases fuel with
        | zero => cases hs
        | succ fuel =>
          rw [kalloc_ok_pop c k fuel s hne (by rw [ha]; exact haR.2.1)] at hs
          cases hs
          exact ⟨t, alloc_inv_pop c R t s a hk0 hL⟩
  | kfree R s s' v _ hvR hr hs ih =>
    obtain ⟨L, hL⟩ := ih
    have hv := (hL.2.2.2.1 v hvR)
    have hvL : v ∉ L := fun hm => by
      have := (hL.2.2.2.2.1 v hvR).mpr hm
      omega
    rcases eq_or_lt_of_le hr with e | e
    · rw [kfree_ok_last c v s hv.1 e.symm] at hs
      cases hs
      exact ⟨v :: L, alloc_inv_push c R R L s v hk0 hL
        (fun w => ⟨fun h => Or.inr h, fun h => h.elim (fun e => e ▸ hvR) id⟩)
        hv.1 hv.2.1 hv.2.2 hvL⟩
    · rw [kfree_ok_keep c v s hv.1 e] at hs
      cases hs
      exact ⟨L, alloc_inv_set_rmap c R L s v _ hL hvR hvL
        (by unfold frame_index at e; omega)⟩

theorem kinit1_st_blank : kinit1 cfg0 frameA (frameA + 4096) st_blank = .ok st_init1 := by
  rfl

theorem kalloc_st_init1 : kalloc cfg0 collab0 1 st_init1 = .ok (frameA, st_alloc1) :=
  kalloc_ok_pop cfg0 collab0 0 st_init1 (by decide) (by decide)

theorem kfree_st_alloc1 : kfree cfg0 frameA st_alloc1 = .ok st_free1 :=
  kfree_ok_last cfg0 frameA st_alloc1 (by decide) (by decide)

theorem kfree_st_free1 : kfree cfg0 frameA st_free1 = .ok st_free2 :=
  kfree_ok_zero cfg0 frameA st_free1 (by decide) (by decide)

theorem kalloc_st_free2 : kalloc cfg0 collab0 1 st_free2 = .ok (frameA, st_alloc2) :=
  kalloc_ok_pop cfg0 collab0 0 st_free2 (by decide) (by decide)

theorem free_list_cycle (mem : Nat → Nat) (a : Nat) (hl : load32 mem a = a) :
    ∀ L, free_list mem a L → a = 0 := by
  intro L
  induction L with
  | nil => intro h; exact h
  | cons v t ih =>
    intro h
    obtain ⟨h1, _, h3⟩ := h
    rw [← h1, hl] at h3
    exact ih h3

theorem list_node_cycle (mem : Nat → Nat) (a : Nat) (hl : load32 mem a = a) :
    ∀ n, list_node mem n a = a := by
  intro n
  induction n with
  | zero => rfl
  | succ n ih =>
    unfold list_node
    by_cases h0 : a = 0
    · rw [if_pos h0, h0]
    · rw [if_neg h0, hl, ih]

theorem reach_st_free1 : AllocReach cfg0 collab0 [frameA] st_free1 :=
  AllocReach.kfree [frameA] st_alloc1 st_free1 frameA
    (AllocReach.kalloc [frameA] st_init1 st_alloc1 frameA 1
      (AllocReach.kinit1 st_blank st_init1 frameA (frameA + 4096) rfl (by decide) kinit1_st_blank)
      (fun h => absurd h (by decide)) kalloc_st_init1)
    (List.mem_singleton.mpr rfl) (by decide) kfree_st_alloc1

/-- C12 (counterexample).  From `st_blank`, `kinit1` registers the page `frameA`,
`kalloc` hands it out, `kfree` releases it, a second `kfree` of the same frame is
accepted, and `kalloc` hands it out again.  In the state reached `rmap[frameA]`
is 1 although `frameA` is still linked in the free list (it is the head). -/
theorem allocated_frame_still_linked :
    ∃ s1 s2 s3 s4 s5,
      kinit1 cfg0 frameA (frameA + 4096) st_blank = .ok s1 ∧
      kalloc cfg0 collab0 1 s1 = .ok (frameA, s2) ∧
      kfree cfg0 frameA s2 = .ok s3 ∧
      kfree cfg0 frameA s3 = .ok s4 ∧
      kalloc cfg0 collab0 1 s4 = .ok (frameA, s5) ∧
      s5.rmap (frame_index cfg0 frameA) = 1 ∧
      linked s5.mem s5.freelist frameA :=
  ⟨st_init1, st_alloc1, st_free1, st_free2, st_alloc2, kinit1_st_blank, kalloc_st_init1,
    kfree_st_alloc1, kfree_st_free1, kalloc_st_free2, by decide, by decide, 0, by decide⟩

/-- C12 (amended).  Invariant F1 when no free frame is freed again.  In every state
reachable from `kinit1` by `kinit2` / `freerange` over fresh pages, `kalloc`, and
`kfree` of registered frames whose reference count is at least 1 (the relation
`AllocReach`, with `end > 0`), every registered frame `fn` has `rmap[fn] = 0` if
and only if `fn` is linked in the free list. -/
theorem free_iff_linked (c : Config) (k : Collab) (hk0 : 0 < c.kend) (R : List Nat) (s : State)
    (h : AllocReach c k R s) (fn : Nat) (hfn : fn ∈ R) :
    s.rmap (frame_index c fn) = 0 ↔ linked s.mem s.freelist fn := by
  obtain ⟨L, hL⟩ := alloc_reach_inv c k hk0 R s h
  rw [linked_iff_mem s.mem L s.freelist hL.1 fn]
  exact hL.2.2.2.2.1 fn hfn

/-- C12 at a concrete state: after `kinit1`, `kalloc` and `kfree` the frame `frameA`
has reference count 0 and is linked in the free list. -/
theorem free_iff_linked_witness :
    st_free1.rmap (frame_index cfg0 frameA) = 0 ∧ linked st_free1.mem st_free1.freelist frameA :=
  ⟨by decide,
   (free_iff_linked cfg0 collab0 (by decide) [frameA] st_free1 reach_st_free1 frameA
      (List.mem_singleton.mpr rfl)).mp (by decide)⟩

/-- C14 (counterexample).  From `st_blank`, `kinit1` registers the page `frameA`,
`kalloc` hands it out and `kfree` is called on it twice.  Then `num_free_pages` is
2, while the free list holds the single frame `frameA` linked to itself: every
link leads to `frameA`, so the list has no end and no entry count. -/
theorem double_free_breaks_count :
    ∃ s1 s2 s3 s4,
      kinit1 cfg0 frameA (frameA + 4096) st_blank = .ok s1 ∧
      kalloc cfg0 collab0 1 s1 = .ok (frameA, s2) ∧
      kfree cfg0 frameA s2 = .ok s3 ∧
      kfree cfg0 frameA s3 = .ok s4 ∧
      s4.num_free_pages = 2 ∧
      (∀ n, list_node s4.mem n s4.freelist = frameA) ∧
      (∀ L, ¬ free_list s4.mem s4.freelist L) :=
  ⟨st_init1, st_alloc1, st_free1, st_free2, kinit1_st_blank, kalloc_st_init1,
    kfree_st_alloc1, kfree_st_free1, by decide,
    list_node_cycle st_free2.mem frameA (by decide),
    fun L hL => absurd (free_list_cycle st_free2.mem frameA (by decide) L hL) (by decide)⟩

/-- C14 (amended).  Free-list integrity when no free frame is freed again.  In
every state reachable from `kinit1` (which sets `num_free_pages = 0` on an empty
list) by `kinit2` / `freerange` over fresh pages, `kalloc`, and `kfree` of
registered frames whose reference count is at least 1 (the relation `AllocReach`,
with `end > 0`), the free list is a null-terminated list of distinct frames and
`num_free_pages` is its length. -/
theorem free_count (c : Config) (k : Collab) (hk0 : 0 < c.kend) (R : List Nat) (s : State)
    (h : AllocReach c k R s) :
    ∃ L, free_list s.mem s.freelist L ∧ L.Nodup ∧ s.num_free_pages = L.length := by
  obtain ⟨L, hL⟩ := alloc_reach_inv c k hk0 R s h
  exact ⟨L, hL.1, hL.2.1, hL.2.2.2.2.2⟩

/-- C14 at a concrete state: after `kinit1`, `kalloc` and `kfree` the free list is
a proper list whose length is `num_free_pages`. -/
theorem free_count_witness :
    ∃ L, free_list st_free1.mem st_free1.freelist L ∧ L.Nodup ∧
      st_free1.num_free_pages = L.length :=
  free_count cfg0 collab0 (by decide) [frameA] st_free1 reach_st_free1

/-! ## Allocator invariant F2 -/

theorem sharer_count_congr (row row' : Nat → Nat) :
    ∀ n, (∀ i, i < n → row' i = row i) → sharer_count row' n = sharer_count row n := by
  intro n
  induction n with
  | zero => intro _; rfl
  | succ n ih =>
    intro h
    simp only [sharer_count]
    rw [ih (fun i hi => h i (by omega)), h n (by omega)]

theorem sharer_count_zero (row : Nat → Nat) :
    ∀ n, (∀ i, i < n → row i = 0) → sharer_count row n = 0 := by
  intro n
  induction n with
  | zero => intro _; rfl
  | succ n ih =>
    intro h
    simp only [sharer_count]
    rw [ih (fun i hi => h i (by omega)), h n (by omega)]
    simp

theorem sharer_count_update_le (row : Nat → Nat) (e x : Nat) :
    ∀ n, sharer_count (Function.update row e x) n ≤ sharer_count row n + 1 := by
  have hmono : ∀ n, n ≤ e →
      sharer_count (Function.update row e x) n = sharer_count row n := fun n hn =>
    sharer_count_congr row _ n (fun i hi => Function.update_noteq (by omega) _ _)
  intro n
  induction n with
  | zero => simp [sharer_count]
  | succ n ih =>
    simp only [sharer_count]
    by_cases hne : n = e
    · rw [hmono n (by omega)]
      split <;> split <;> omega
    · rw [Function.update_noteq hne]
      omega

theorem sharer_count_add_le (n : Nat) (row : Nat → Nat) (p : Nat) :
    sharer_count (add_pte_row n row p) n ≤ sharer_count row n + 1 := by
  rcases row_cases n row p with h | ⟨h, e, he, h0, hlow⟩ | ⟨h, h0⟩
  · rw [add_pte_row_recorded n row p h]; omega
  · rw [add_pte_row_store n row p e h he h0 hlow]
    exact sharer_count_update_le row e p n
  · rw [add_pte_row_full n row p h h0]; omega

theorem sharer_count_remove_le (n : Nat) (row : Nat → Nat) (p : Nat) :
    ∀ m, m ≤ n → sharer_count (remove_entry_row n row p) m ≤ sharer_count row m := by
  intro m
  induction m with
  | zero => intro _; exact Nat.le_refl _
  | succ m ih =>
    intro hm
    have ih1 := ih (by omega)
    simp only [sharer_count]
    have hval := remove_entry_row_apply n row p m
    by_cases hrow : row m = p
    · rw [if_pos ⟨by omega, hrow⟩] at hval
      rw [hval]
      simp only [ne_eq, not_true_eq_false, if_false]
      omega
    · rw [if_neg (fun h => hrow h.2)] at hval
      rw [hval]
      omega

theorem sharer_count_remove (n : Nat) (row : Nat → Nat) (p : Nat) (hp : p ≠ 0) :
    ∀ m, m ≤ n →
      sharer_count (remove_entry_row n row p) m ≤ sharer_count row m ∧
      ((∃ i, i < m ∧ row i = p) →
        sharer_count (remove_entry_row n row p) m + 1 ≤ sharer_count row m) := by
  intro m
  induction m with
  | zero =>
    intro _
    exact ⟨Nat.le_refl _, fun ⟨i, hi, _⟩ => by omega⟩
  | succ m ih =>
    intro hm
    obtain ⟨ih1, ih2⟩ := ih (by omega)
    simp only [sharer_count]
    have hval := remove_entry_row_apply n row p m
    by_cases hrow : row m = p
    · rw [if_pos ⟨by omega, hrow⟩] at hval
      rw [hval, hrow]
      simp only [ne_eq, not_true_eq_false, if_false, hp, not_false_eq_true, if_true]
      exact ⟨by omega, fun _ => by omega⟩
    · rw [if_neg (fun h => hrow h.2)] at hval
      rw [hval]
      refine ⟨by omega, ?_⟩
      rintro ⟨i, hi, hip⟩
      have him : i < m := by
        rcases Nat.lt_succ_iff_lt_or_eq.mp hi with h | h
        · exact h
        · rw [h] at hip; exact absurd hip hrow
      have := ih2 ⟨i, him, hip⟩
      omega

theorem freerange_loop_null (c : Config) (vend : Nat) :
    ∀ (n p : Nat) (s s' : State),
      ((∀ j i, s.shared_ptes j i = 0) ∧ ∀ j, 0 ≤ s.rmap j) →
      freerange_loop c n p vend s = .ok s' →
      (∀ j i, s'.shared_ptes j i = 0) ∧ ∀ j, 0 ≤ s'.rmap j := by
  intro n
  induction n with
  | zero =>
    intro p s s' hP h
    unfold freerange_loop at h
    by_cases hc : p + PGSIZE ≤ vend
    · rw [if_pos hc] at h; cases h
    · rw [if_neg hc] at h; cases h; exact hP
  | succ n ih =>
    intro p s s' hP h
    rw [freerange_loop] at h
    by_cases hc : p + PGSIZE ≤ vend
    · rw [if_pos hc] at h
      by_cases hr : pa_out_of_range c (V2P c p)
      · simp only [set_rmap_value_no_lock, hr, if_true] at h
        cases h
      · simp only [set_rmap_value_no_lock, hr, if_false] at h
        cases hk : kfree c p { s with rmap := Function.update s.rmap (V2P c p >>> PTXSHIFT) 0 } with
        | panic e => rw [hk] at h; cases h
        | outOfFuel => rw [hk] at h; cases h
        | ok s2 =>
          rw [hk] at h
          have hv := kfree_ok_valid c p _ _ hk
          rw [kfree_ok_zero c p _ hv (Function.update_same _ _ _)] at hk
          cases hk
          have h' : freerange_loop c n (p + PGSIZE) vend
              (kfree_push p { s with rmap := Function.update s.rmap (V2P c p >>> PTXSHIFT) 0 })
              = .ok s' := h
          refine ih (p + PGSIZE)
            (kfree_push p { s with rmap := Function.update s.rmap (V2P c p >>> PTXSHIFT) 0 })
            s' ⟨fun j i => hP.1 j i, ?_⟩ h'
          intro j
          show 0 ≤ Function.update s.rmap (V2P c p >>> PTXSHIFT) 0 j
          by_cases e : j = V2P c p >>> PTXSHIFT
          · rw [e, Function.update_same]
          · rw [Function.update_noteq e]; exact hP.2 j
    · rw [if_neg hc] at h; cases h; exact hP

theorem share_inv_of_null (c : Config) (s : State)
    (hP : (∀ j i, s.shared_ptes j i = 0) ∧ ∀ j, 0 ≤ s.rmap j) : share_inv c s := by
  intro j
  rw [sharer_count_zero _ _ (fun i _ => hP.1 j i)]
  exact hP.2 j

theorem share_inv_pop (c : Config) (s : State)
    (h : ∀ j, j ≠ V2P c s.freelist >>> PTXSHIFT →
      (sharer_count (s.shared_ptes j) c.NPROC : Int) ≤ s.rmap j) :
    share_inv c (kalloc_pop c s) := by
  intro j
  show (sharer_count (fun i => if j = V2P c s.freelist >>> PTXSHIFT ∧ i < c.NPROC then 0
      else s.shared_ptes j i) c.NPROC : Int)
    ≤ Function.update s.rmap (V2P c s.freelist >>> PTXSHIFT) 1 j
  by_cases e : j = V2P c s.freelist >>> PTXSHIFT
  · rw [e, Function.update_same, sharer_count_zero _ _ (fun i hi => by rw [if_pos ⟨rfl, hi⟩])]
    decide
  · rw [Function.update_noteq e,
      sharer_count_congr (s.shared_ptes j) _ _ (fun i _ => by rw [if_neg (fun h => e h.1)])]
    exact h j e

theorem share_inv_kfree (c : Config) (v : Nat) (s s' : State)
    (h : ∀ j, j ≠ V2P c v >>> PTXSHIFT →
      (sharer_count (s.shared_ptes j) c.NPROC : Int) ≤ s.rmap j)
    (hv : (sharer_count (s.shared_ptes (V2P c v >>> PTXSHIFT)) c.NPROC : Int) + 1
      ≤ s.rmap (V2P c v >>> PTXSHIFT))
    (hk : kfree c v s = .ok s') : share_inv c s' := by
  have hval := kfree_ok_valid c v s s' hk
  have hr : 1 ≤ s.rmap (V2P c v >>> PTXSHIFT) := by omega
  rcases eq_or_lt_of_le hr with e | e
  · rw [kfree_ok_last c v s hval e.symm] at hk
    cases hk
    intro j
    show (sharer_count (s.shared_ptes j) c.NPROC : Int)
      ≤ Function.update s.rmap (V2P c v >>> PTXSHIFT) 0 j
    by_cases ej : j = V2P c v >>> PTXSHIFT
    · rw [ej, Function.update_same]; omega
    · rw [Function.update_noteq ej]; exact h j ej
  · rw [kfree_ok_keep c v s hval e] at hk
    cases hk
    intro j
    show (sharer_count (s.shared_ptes j) c.NPROC : Int)
      ≤ Function.update s.rmap (V2P c v >>> PTXSHIFT) (s.rmap (V2P c v >>> PTXSHIFT) - 1) j
    by_cases ej : j = V2P c v >>> PTXSHIFT
    · rw [ej, Function.update_same]; omega
    · rw [Function.update_noteq ej]; exact h j ej

theorem share_reach_inv (c : Config) (k : Collab) (hk0 : 0 < c.kend) (s : State)
    (h : ShareReach c k s) : share_inv c s := by
  induction h with
  | kinit1 s0 s vstart vend hn hr hs =>
    exact share_inv_of_null c s (freerange_loop_null c vend _ _
      { s0 with use_lock := 0, num_free_pages := 0 } s ⟨hn, hr⟩ hs)
  | kinit2 s s' vstart vend _ hn hs ih =>
    unfold kinit2 at hs
    cases hf : freerange c vstart vend s with
    | panic e => rw [hf] at hs; cases hs
    | outOfFuel => rw [hf] at hs; cases hs
    | ok s1 =>
      rw [hf] at hs
      cases hs
      have hP := freerange_loop_null c vend _ _ s s1
        ⟨hn, fun j => le_trans (Int.ofNat_nonneg _) (ih j)⟩ hf
      exact share_inv_of_null c s1 hP
  | kalloc s s' v fuel _ hcol hs ih =>
    cases fuel with
    | zero => cases hs
    | succ fuel =>
      by_cases hne : s.freelist = 0
      · have hk := hcol hne
        cases hso : swap_out c k s with
        | panic e => rw [kalloc, if_neg (by simp [hne])] at hs; simp only [hso] at hs; cases hs
        | outOfFuel => rw [kalloc, if_neg (by simp [hne])] at hs; simp only [hso] at hs; cases hs
        | ok s1 =>
          rw [kalloc_swap c k fuel s s1 hne hso] at hs
          obtain ⟨vp, s2, hget, hlt, hv, hs1⟩ := swap_out_inv c k s s1 hso
          have hs2 := get_page_ptes_only k hk _ _ _ _ hget
          have e := V2P_P2V c _ (PTE_ADDR_lt (s2.ptes vp))
          have hhead : s1.freelist = P2V c (PTE_ADDR (s2.ptes vp)) := by
            rw [hs1]; simp only [swap_out_done, kfree_push]
          have hne1 : s1.freelist ≠ 0 := by
            rw [hhead]
            have := hv.2.2.1
            omega
          cases fuel with
          | zero => cases hs
          | succ fuel =>
            rw [kalloc_ok_pop c k fuel s1 hne1 (by rw [hhead, e]; exact hv.1)] at hs
            cases hs
            refine share_inv_pop c s1 ?_
            intro j hj
            rw [hhead, e] at hj
            have h1 : s1.shared_ptes j = s.shared_ptes j := by
              rw [hs1]; simp only [swap_out_done, kfree_push]; rw [hs2]; rfl
            have h2 : s1.rmap j = s.rmap j := by
              rw [hs1]; simp only [swap_out_done, kfree_push]
              rw [Function.update_noteq hj, hs2]; rfl
            rw [h1, h2]
            exact ih j
      · by_cases hr : pa_out_of_range c (V2P c s.freelist)
        · rw [kalloc, if_pos hne] at hs
          simp only [set_rmap_value_no_lock, hr, if_true] at hs
          cases hs
        · rw [kalloc_ok_pop c k fuel s hne hr] at hs
          cases hs
          exact share_inv_pop c s (fun j _ => ih j)
  | share s s1 pa pte _ hlt hs ih =>
    by_cases hr : pa_out_of_range c pa
    · simp only [inc_rmap_value, hr, if_true] at hs
      cases hs
    · simp only [inc_rmap_value, hr, if_false] at hs
      cases hs
      have h0 : 0 ≤ s.rmap (pa >>> PTXSHIFT) := le_trans (Int.ofNat_nonneg _) (ih _)
      have hw : wrapI32 (s.rmap (pa >>> PTXSHIFT) + 1) = s.rmap (pa >>> PTXSHIFT) + 1 :=
        toI32_toU32 _ (by omega) (by omega)
      intro j
      show (sharer_count (Function.update s.shared_ptes (pa >>> PTXSHIFT)
          (add_pte_row c.NPROC (s.shared_ptes (pa >>> PTXSHIFT)) pte) j) c.NPROC : Int)
        ≤ Function.update s.rmap (pa >>> PTXSHIFT) (wrapI32 (s.rmap (pa >>> PTXSHIFT) + 1)) j
      by_cases ej : j = pa >>> PTXSHIFT
      · rw [ej, Function.update_same, Function.update_same, hw]
        have h1 := sharer_count_add_le c.NPROC (s.shared_ptes (pa >>> PTXSHIFT)) pte
        have h2 := ih (pa >>> PTXSHIFT)
        omega
      · rw [Function.update_noteq ej, Function.update_noteq ej]
        exact ih j
  | unshare s s' pa pte _ hpa hp hrec hs ih =>
    have e := V2P_P2V c pa hpa
    refine share_inv_kfree c (P2V c pa) (mem_remove_entry c pa pte s) s' ?_ ?_ hs
    · intro j hj
      rw [e] at hj
      show (sharer_count (Function.update s.shared_ptes (pa >>> PTXSHIFT)
          (remove_entry_row c.NPROC (s.shared_ptes (pa >>> PTXSHIFT)) pte) j) c.NPROC : Int)
        ≤ s.rmap j
      rw [Function.update_noteq hj]
      exact ih j
    · rw [e]
      show (sharer_count (Function.update s.shared_ptes (pa >>> PTXSHIFT)
          (remove_entry_row c.NPROC (s.shared_ptes (pa >>> PTXSHIFT)) pte) (pa >>> PTXSHIFT))
          c.NPROC : Int) + 1 ≤ s.rmap (pa >>> PTXSHIFT)
      rw [Function.update_same]
      have h1 := (sharer_count_remove c.NPROC (s.shared_ptes (pa >>> PTXSHIFT)) pte hp
        c.NPROC (Nat.le_refl _)).2 hrec
      have h2 := ih (pa >>> PTXSHIFT)
      omega
  | remove s pa pte _ ih =>
    intro j
    show (sharer_count (Function.update s.shared_ptes (pa >>> PTXSHIFT)
        (remove_entry_row c.NPROC (s.shared_ptes (pa >>> PTXSHIFT)) pte) j) c.NPROC : Int)
      ≤ s.rmap j
    by_cases ej : j = pa >>> PTXSHIFT
    · rw [ej, Function.update_same]
      have h1 := (sharer_count_remove_le c.NPROC (s.shared_ptes (pa >>> PTXSHIFT)) pte
        c.NPROC (Nat.le_refl _))
      have h2 := ih (pa >>> PTXSHIFT)
      omega
    · rw [Function.update_noteq ej]
      exact ih j
  | kfree s s' v _ hlt hs ih =>
    rcases hlt with h0 | hlt
    · rw [kfree_ok_zero c v s (kfree_ok_valid c v s s' hs) h0] at hs
      cases hs
      exact fun j => ih j
    · exact share_inv_kfree c v s s' (fun j _ => ih j) (by unfold frame_index at hlt; omega) hs

theorem inc_st_alloc1 : inc_rmap_value cfg0 0x500000 st_alloc1 = .ok st_inc1 := by
  rfl

theorem kfree_st_shared1 : kfree cfg0 frameA st_shared1 = .ok st_drop1 :=
  kfree_ok_keep cfg0 frameA st_shared1 (by decide) (by decide)

theorem kfree_st_drop1 : kfree cfg0 frameA st_drop1 = .ok st_drop2 :=
  kfree_ok_last cfg0 frameA st_drop1 (by decide) (by decide)

theorem unshare_st_shared1 :
    kfree cfg0 (P2V cfg0 0x500000) (mem_remove_entry cfg0 0x500000 0x80801004 st_shared1)
      = .ok st_unshare1 :=
  kfree_ok_keep cfg0 frameA _ (by decide) (by decide)

theorem unshare_st_unshare1 :
    kfree cfg0 (P2V cfg0 0x500000) (mem_remove_entry cfg0 0x500000 0x80901004 st_unshare1)
      = .ok st_unshare2 :=
  kfree_ok_last cfg0 frameA _ (by decide) (by decide)

theorem reach_st_shared1 : ShareReach cfg0 collab0 st_shared1 :=
  ShareReach.share st_alloc1 st_inc1 0x500000 0x80701004
    (ShareReach.kalloc st_init1 st_alloc1 frameA 1
      (ShareReach.kinit1 st_blank st_init1 frameA (frameA + 4096) (fun _ _ => rfl)
        (fun _ => le_refl (0 : Int)) kinit1_st_blank)
      (fun h => absurd h (by decide)) kalloc_st_init1)
    (by decide) inc_st_alloc1

set_option maxRecDepth 8000 in
/-- C13 (counterexample).  From `st_blank`: `kinit1` registers `frameA`, `kalloc`
hands it out, and it is shared with the reference `0x80701004` (reference count
2, one sharer).  First trace: two plain `kfree` calls leave reference count 0 with
the sharer still recorded.  Second trace: unshare (`mem_remove_entry`, `kfree`)
of two references that are not recorded does the same.  In both end states
`rmap[frameA] = 0` is below the number of non-null sharers, 1. -/
theorem refcount_below_sharers :
    ∃ s1 s2 s3,
      kinit1 cfg0 frameA (frameA + 4096) st_blank = .ok s1 ∧
      kalloc cfg0 collab0 1 s1 = .ok (frameA, s2) ∧
      inc_rmap_value cfg0 0x500000 s2 = .ok s3 ∧
      (∃ s4 s5,
        kfree cfg0 frameA (add_pte_mem cfg0 0x500000 0x80701004 s3) = .ok s4 ∧
        kfree cfg0 frameA s4 = .ok s5 ∧
        s5.rmap (frame_index cfg0 frameA) = 0 ∧
        sharer_count (s5.shared_ptes (frame_index cfg0 frameA)) cfg0.NPROC = 1) ∧
      (∃ s4 s5,
        kfree cfg0 (P2V cfg0 0x500000)
          (mem_remove_entry cfg0 0x500000 0x80801004
            (add_pte_mem cfg0 0x500000 0x80701004 s3)) = .ok s4 ∧
        kfree cfg0 (P2V cfg0 0x500000) (mem_remove_entry cfg0 0x500000 0x80901004 s4)
          = .ok s5 ∧
        s5.rmap (frame_index cfg0 frameA) = 0 ∧
        sharer_count (s5.shared_ptes (frame_index cfg0 frameA)) cfg0.NPROC = 1) :=
  ⟨st_init1, st_alloc1, st_inc1, kinit1_st_blank, kalloc_st_init1, inc_st_alloc1,
    ⟨st_drop1, st_drop2, kfree_st_shared1, kfree_st_drop1, by decide, by decide⟩,
    ⟨st_unshare1, st_unshare2, unshare_st_shared1, unshare_st_unshare1, by decide, by decide⟩⟩

/-- C13 (amended).  Invariant F2.  In every state reachable from initialisation
(`kinit1`, `kinit2`) by `kalloc`, share (`inc_rmap_value` then `add_pte_mem`),
unshare (`mem_remove_entry` then `kfree`) of a recorded non-null sharer,
`mem_remove_entry` alone, and `kfree` of a frame whose reference count is 0 or
exceeds the number of its recorded sharers (the relation `ShareReach`, with
`end > 0`), every frame `fn` has `rmap[fn]` at least the number of non-null
entries of `shared_ptes[fn]`. -/
theorem refcount_bounds_sharers (c : Config) (k : Collab) (hk0 : 0 < c.kend) (s : State)
    (h : ShareReach c k s) (fn : Nat) :
    (sharer_count (s.shared_ptes (frame_index c fn)) c.NPROC : Int)
      ≤ s.rmap (frame_index c fn) :=
  share_reach_inv c k hk0 s h (frame_index c fn)

/-- C13 at a concrete state: after `kinit1`, `kalloc` and one share, `frameA` has
reference count 2 and one recorded sharer. -/
theorem refcount_bounds_sharers_witness :
    st_shared1.rmap (frame_index cfg0 frameA) = 2 ∧
    (sharer_count (st_shared1.shared_ptes (frame_index cfg0 frameA)) cfg0.NPROC : Int)
      ≤ st_shared1.rmap (frame_index cfg0 frameA) :=
  ⟨by decide, refcount_bounds_sharers cfg0 collab0 (by decide) st_shared1 reach_st_shared1 frameA⟩

/-! ## Swap-store invariant S1 -/

theorem swapinit_fold (s : State) :
    ∀ n, (List.range n).foldl
        (fun st i => { st with swapblock := (Function.update st.swapblock i
                        { st.swapblock i with free_int := 1, page_perm := 0, refcount := 0 }) })
        s
      = { s with swapblock := fun j =>
            if j < n then { s.swapblock j with free_int := 1, page_perm := 0, refcount := 0 }
            else s.swapblock j } := by
  intro n
  induction n with
  | zero => simp
  | succ n ih =>
    rw [List.range_succ, List.foldl_append, ih]
    simp only [List.foldl_cons, List.foldl_nil, lt_self_iff_false, if_false]
    congr 1
    funext j
    by_cases hj : j = n
    · subst hj
      rw [Function.update_same, if_pos (Nat.lt_succ_self _)]
    · rw [Function.update_noteq hj]
      by_cases hlt : j < n
      · rw [if_pos hlt, if_pos (by omega)]
      · rw [if_neg hlt, if_neg (by omega)]

theorem swapinit_eq (c : Config) (s : State) :
    swapinit c s = { s with swapblock := (fun j =>
          if j < nslots c
          then { s.swapblock j with free_int := 1, page_perm := 0, refcount := 0 }
          else s.swapblock j) } :=
  swapinit_fold s (nslots c)

theorem swap_inv_swapinit (c : Config) (s : State) : swap_inv c (swapinit c s) := by
  intro j hj hfree
  rw [swapinit_eq] at hfree
  simp only [hj, if_true] at hfree
  exact absurd hfree (by decide)

theorem swap_inv_free (c : Config) (s : State) (b : Nat) (hI : swap_inv c s) :
    ∀ j, j < nslots c →
      (Function.update s.swapblock b { s.swapblock b with free_int := 1 } j).free_int = 0 →
      1 ≤ (Function.update s.swapblock b { s.swapblock b with free_int := 1 } j).refcount ∧
      (Function.update s.swapblock b { s.swapblock b with free_int := 1 } j).refcount
        < 2147483648 := by
  intro j hj
  by_cases e : j = b
  · rw [e, Function.update_same]
    intro h
    exact absurd (show (1 : Int) = 0 from h) (by decide)
  · rw [Function.update_noteq e]
    exact hI j hj

theorem swap_inv_swap_out_done (c : Config) (vp b : Nat) (s2 : State) (hI : swap_inv c s2)
    (hr : 1 ≤ s2.rmap (PTE_ADDR (s2.ptes vp) >>> PTXSHIFT) ∧
      s2.rmap (PTE_ADDR (s2.ptes vp) >>> PTXSHIFT) < 2147483648) :
    swap_inv c (swap_out_done c vp b s2) := by
  intro j hj
  simp only [swap_out_done, kfree_push]
  by_cases e : j = b
  · rw [e, Function.update_same]
    intro _
    show 1 ≤ toI32 (toU32 _) ∧ toI32 (toU32 _) < 2147483648
    rw [toI32_toU32 _ (by omega) hr.2]
    exact hr
  · rw [Function.update_noteq e]
    exact hI j hj

theorem swap_inv_congr (c : Config) (s s' : State) (h : s'.swapblock = s.swapblock)
    (hI : swap_inv c s) : swap_inv c s' := by
  intro j hj
  rw [h]
  exact hI j hj

theorem swap_inv_swap_out (c : Config) (k : Collab) (s s' : State) (hI : swap_inv c s)
    (hk : k.ptes_only)
    (hvic : ∀ vp s2, get_page k (k.get_victim_proc s) (swap_out_entry k s) = .ok (vp, s2) →
      1 ≤ s.rmap (PTE_ADDR (s2.ptes vp) >>> PTXSHIFT) ∧
      s.rmap (PTE_ADDR (s2.ptes vp) >>> PTXSHIFT) < 2147483648)
    (h : swap_out c k s = .ok s') : swap_inv c s' := by
  obtain ⟨vp, s2, hget, _, _, hs1⟩ := swap_out_inv c k s s' h
  have hs2 := get_page_ptes_only k hk _ _ _ _ hget
  have hsb : s2.swapblock = s.swapblock := by rw [hs2]; rfl
  have hrm : s2.rmap = s.rmap := by rw [hs2]; rfl
  rw [hs1]
  exact swap_inv_swap_out_done c vp _ s2 (swap_inv_congr c s s2 hsb hI)
    (by rw [hrm]; exact hvic vp s2 hget)

theorem swap_inv_kalloc (c : Config) (k : Collab) (hk0 : 0 < c.kend) (fuel : Nat)
    (s s' : State) (v : Nat) (hI : swap_inv c s)
    (hcol : s.freelist = 0 → k.ptes_only ∧
      ∀ vp s2, get_page k (k.get_victim_proc s) (swap_out_entry k s) = .ok (vp, s2) →
        1 ≤ s.rmap (PTE_ADDR (s2.ptes vp) >>> PTXSHIFT) ∧
        s.rmap (PTE_ADDR (s2.ptes vp) >>> PTXSHIFT) < 2147483648)
    (h : kalloc c k fuel s = .ok (v, s')) : swap_inv c s' := by
  cases fuel with
  | zero => cases h
  | succ fuel =>
    by_cases hne : s.freelist = 0
    · obtain ⟨hk, hvic⟩ := hcol hne
      cases hso : swap_out c k s with
      | panic e => rw [kalloc, if_neg (by simp [hne])] at h; simp only [hso] at h; cases h
      | outOfFuel => rw [kalloc, if_neg (by simp [hne])] at h; simp only [hso] at h; cases h
      | ok s1 =>
        rw [kalloc_swap c k fuel s s1 hne hso] at h
        have hI1 := swap_inv_swap_out c k s s1 hI hk hvic hso
        obtain ⟨vp, s2, hget, hlt, hv, hs1⟩ := swap_out_inv c k s s1 hso
        have e := V2P_P2V c _ (PTE_ADDR_lt (s2.ptes vp))
        have hhead : s1.freelist = P2V c (PTE_ADDR (s2.ptes vp)) := by
          rw [hs1]; simp only [swap_out_done, kfree_push]
        have hne1 : s1.freelist ≠ 0 := by
          rw [hhead]
          have := hv.2.2.1
          omega
        cases fuel with
        | zero => cases h
        | succ fuel =>
          rw [kalloc_ok_pop c k fuel s1 hne1 (by rw [hhead, e]; exact hv.1)] at h
          cases h
          exact swap_inv_congr c s1 _ rfl hI1
    · by_cases hr : pa_out_of_range c (V2P c s.freelist)
      · rw [kalloc, if_pos hne] at h
        simp only [set_rmap_value_no_lock, hr, if_true] at h
        cases h
      · rw [kalloc_ok_pop c k fuel s hne hr] at h
        cases h
        exact swap_inv_congr c s _ rfl hI

theorem hpwo_swap_in_inv (c : Config) (k : Collab) (fuel : Nat) (s s' : State) (pte : Nat)
    (hpte : fault_pte c s = pte) (hNP : s.ptes pte &&& PTE_P = 0)
    (h : handle_page_write_off c k fuel s = .ok s') :
    ∃ mem s2 b,
      kalloc c k fuel { s with rss := Function.update s.rss s.cur (s.rss s.cur + 4096) }
        = .ok (mem, s2) ∧
      s'.swapblock = Function.update s2.swapblock b { s2.swapblock b with free_int := 1 } := by
  unfold handle_page_write_off at h
  simp only [walkpgdir_fault, hpte] at h
  rw [if_neg (by rw [hNP]; simp)] at h
  by_cases hS : s.ptes pte &&& 0x008 = 0
  · rw [if_pos hS] at h; cases h
  · rw [if_neg hS] at h
    cases hk : kalloc c k fuel { s with rss := Function.update s.rss s.cur (s.rss s.cur + 4096) } with
    | panic e => simp only [hk] at h; cases h
    | outOfFuel => simp only [hk] at h; cases h
    | ok r =>
      obtain ⟨mem, s2⟩ := r
      simp only [hk] at h
      by_cases hr : pa_out_of_range c (V2P c mem)
      · simp only [disk_to_page, set_rmap_value, hr, if_true] at h
        cases h
      · simp only [disk_to_page, set_rmap_value, hr, if_false] at h
        rw [swap_in_loop_eq c _ _ _ hr] at h
        cases h
        exact ⟨mem, s2, _, rfl, rfl⟩

theorem inc_block_refcount_fields (blockid : Int) (s : State) (j : Nat) :
    ((inc_block_refcount blockid s).swapblock j).free_int = (s.swapblock j).free_int ∧
    ((inc_block_refcount blockid s).swapblock j).refcount
      = if j = block_index blockid then wrapI32 ((s.swapblock j).refcount + 1)
        else (s.swapblock j).refcount := by
  unfold inc_block_refcount set_block_non_writeable
  simp only
  have hb : (Int.tdiv (blockid - 2) 8).toNat = block_index blockid := rfl
  rw [hb]
  by_cases e2 : j = block_index (Int.tdiv (blockid - 2) 8)
  · rw [← e2, Function.update_same]
    by_cases e : j = block_index blockid
    · rw [← e, Function.update_same, if_pos rfl]
      exact ⟨rfl, rfl⟩
    · rw [Function.update_noteq e, if_neg e]
      exact ⟨rfl, rfl⟩
  · rw [Function.update_noteq e2]
    by_cases e : j = block_index blockid
    · rw [← e, Function.update_same, if_pos rfl]
      exact ⟨rfl, rfl⟩
    · rw [Function.update_noteq e, if_neg e]
      exact ⟨rfl, rfl⟩

theorem swap_inv_inc (c : Config) (blockid : Int) (s : State) (hI : swap_inv c s)
    (hlt : (s.swapblock (block_index blockid)).refcount < 2147483647) :
    swap_inv c (inc_block_refcount blockid s) := by
  intro j hj
  obtain ⟨h1, h2⟩ := inc_block_refcount_fields blockid s j
  rw [h1, h2]
  intro hfree
  obtain ⟨ha, hb⟩ := hI j hj hfree
  by_cases e : j = block_index blockid
  · rw [if_pos e]
    rw [← e] at hlt
    have hw : wrapI32 ((s.swapblock j).refcount + 1) = (s.swapblock j).refcount + 1 :=
      toI32_toU32 _ (by omega) (by omega)
    rw [hw]
    omega
  · rw [if_neg e]
    exact ⟨ha, hb⟩

theorem swap_inv_dec (c : Config) (blockid : Int) (s : State) (hI : swap_inv c s) :
    swap_inv c (set_block_free blockid (dec_block_refcount blockid s)) := by
  intro j hj
  unfold set_block_free dec_block_refcount
  simp only [Function.update_same]
  by_cases e : j = block_index blockid
  · subst e
    by_cases h0 : wrapI32 ((s.swapblock (block_index blockid)).refcount - 1) = 0
    · rw [if_pos h0]
      simp only [Function.update_same]
      intro h
      exact absurd (show (1 : Int) = 0 from h) (by decide)
    · rw [if_neg h0]
      simp only [Function.update_same]
      intro hfree
      obtain ⟨ha, hb⟩ := hI _ hj hfree
      have hw : wrapI32 ((s.swapblock (block_index blockid)).refcount - 1)
          = (s.swapblock (block_index blockid)).refcount - 1 :=
        toI32_toU32 _ (by omega) (by omega)
      rw [hw] at h0 ⊢
      omega
  · by_cases h0 : wrapI32 ((s.swapblock (block_index blockid)).refcount - 1) = 0
    · rw [if_pos h0]
      simp only [Function.update_noteq e]
      exact hI j hj
    · rw [if_neg h0]
      simp only [Function.update_noteq e]
      exact hI j hj

theorem swap_reach_inv (c : Config) (k : Collab) (hk0 : 0 < c.kend) (s : State)
    (h : SwapReach c k s) : swap_inv c s := by
  induction h with
  | swapinit s0 => exact swap_inv_swapinit c s0
  | swap_out s s' _ hk hvic hs ih => exact swap_inv_swap_out c k s s' ih hk hvic hs
  | swap_in s s' pte fuel _ hpte hNP hcol hs ih =>
    obtain ⟨mem, s2, b, hka, hsb⟩ := hpwo_swap_in_inv c k fuel s s' pte hpte hNP hs
    have hI2 := swap_inv_kalloc c k hk0 fuel _ s2 mem
      (swap_inv_congr c s { s with rss := Function.update s.rss s.cur (s.rss s.cur + 4096) }
        rfl ih) hcol hka
    intro j hj
    rw [hsb]
    exact swap_inv_free c s2 b hI2 j hj
  | inc s blockid _ hlt ih => exact swap_inv_inc c blockid s ih hlt
  | dec s blockid _ ih => exact swap_inv_dec c blockid s ih

theorem swapinit_st_swap : swapinit cfg0 st_swap = st_fresh := swapinit_eq cfg0 st_swap

theorem get_page_st_fresh :
    get_page collab1 (collab1.get_victim_proc st_fresh) (swap_out_entry collab1 st_fresh)
      = .ok (0x80701004, swap_out_entry collab1 st_fresh) := rfl

theorem swap_out_st_fresh : swap_out cfg0 collab1 st_fresh = .ok st_evicted :=
  swap_out_ok cfg0 collab1 st_fresh _ 0x80701004 0 get_page_st_fresh
    (by decide) (by decide) (by decide)

set_option maxRecDepth 8000 in
theorem swap_in_st_evicted :
    handle_page_write_off cfg0 collab1 1 st_evicted
      = .ok (swap_in_done cfg0 0x80701004 st_evicted) :=
  hpwo_swap_in cfg0 collab1 0 st_evicted 0x80701004 (by decide) (by decide) (by decide)
    (by decide) (by decide)

theorem reach_st_evicted : SwapReach cfg0 collab1 st_evicted :=
  SwapReach.swap_out st_fresh st_evicted
    (swapinit_st_swap ▸ SwapReach.swapinit st_swap) (fun _ _ => rfl)
    (fun vp s2 h => by
      rw [get_page_st_fresh] at h
      injection h with h
      injection h with h1 h2
      subst h1 h2
      decide)
    swap_out_st_fresh

set_option maxRecDepth 8000 in
/-- C20 (counterexample).  After `swapinit`, `swap_out` evicts the page of `frameA`
(reference count 2) to slot 0, and the fault on its entry swaps it back in.  In
the state reached slot 0 has its free flag set while its reference count is
still 2. -/
theorem free_slot_keeps_refcount :
    ∃ s1 s2, swap_out cfg0 collab1 (swapinit cfg0 st_swap) = .ok s1 ∧
      handle_page_write_off cfg0 collab1 1 s1 = .ok s2 ∧
      (s2.swapblock 0).free_int = 1 ∧ (s2.swapblock 0).refcount = 2 := by
  rw [swapinit_st_swap]
  exact ⟨st_evicted, swap_in_done cfg0 0x80701004 st_evicted, swap_out_st_fresh,
    swap_in_st_evicted, by decide, by decide⟩

/-- C20 (amended).  Invariant S1, one direction.  In every state reachable from
`swapinit` by `swap_out`, swap-in faults, `inc_block_refcount`, and
`dec_block_refcount` followed by `set_block_free` (the relation `SwapReach`:
evicted frames have a reference count of at least 1; with `end > 0`), every slot
below `SWAPBLOCKS / 8` whose
reference count is 0 has its free flag set; equivalently a slot whose free flag
is clear has a reference count of at least 1. -/
theorem zero_refcount_is_free (c : Config) (k : Collab) (hk0 : 0 < c.kend) (s : State)
    (h : SwapReach c k s) (j : Nat) (hj : j < nslots c) :
    ((s.swapblock j).refcount = 0 → (s.swapblock j).free_int ≠ 0) ∧
    ((s.swapblock j).free_int = 0 → 1 ≤ (s.swapblock j).refcount) := by
  have hI := swap_reach_inv c k hk0 s h j hj
  refine ⟨fun h0 hfree => ?_, fun hfree => (hI hfree).1⟩
  have := (hI hfree).1
  omega

/-- C20 at a concrete state: after `swapinit` and one `swap_out`, slot 0 is in use
and its reference count is at least 1. -/
theorem zero_refcount_is_free_witness :
    (st_evicted.swapblock 0).free_int = 0 ∧ 1 ≤ (st_evicted.swapblock 0).refcount :=
  ⟨by decide,
   (zero_refcount_is_free cfg0 collab1 (by decide) st_evicted reach_st_evicted 0
      (by decide)).2 (by decide)⟩

/-! ## Panics of `kfree` and of the fault handler, with the state they leave -/

theorem Exec.erase_ok_eq {α : Type} (a : α) : (Exec.ok a).erase = Res.ok a := rfl

theorem Exec.erase_panic_eq {α : Type} (p : Panic) (s : State) :
    (Exec.panic p s : Exec α).erase = Res.panic p := rfl

theorem Exec.erase_fuel_eq {α : Type} : (Exec.outOfFuel : Exec α).erase = Res.outOfFuel := rfl

theorem Exec.erase_ok {α : Type} (r : Exec α) (a : α) (h : r.erase = .ok a) : r = .ok a := by
  cases r with
  | ok b => simp only [Exec.erase] at h; cases h; rfl
  | panic p st => simp only [Exec.erase] at h; cases h
  | outOfFuel => simp only [Exec.erase] at h; cases h

theorem Exec.erase_panic {α : Type} (r : Exec α) (p : Panic) (h : r.erase = .panic p) :
    ∃ st, r = .panic p st := by
  cases r with
  | ok b => simp only [Exec.erase] at h; cases h
  | panic q st => simp only [Exec.erase] at h; cases h; exact ⟨st, rfl⟩
  | outOfFuel => simp only [Exec.erase] at h; cases h

theorem set_rmap_value_no_lock_exec_erase (c : Config) (pa : Nat) (value : Int) (s : State) :
    (set_rmap_value_no_lock_exec c pa value s).erase = set_rmap_value_no_lock c pa value s := by
  unfold set_rmap_value_no_lock_exec set_rmap_value_no_lock
  split <;> rfl

theorem kfree_exec_erase (c : Config) (v : Nat) (s : State) :
    (kfree_exec c v s).erase = kfree c v s := by
  unfold kfree_exec kfree
  simp only [apply_ite Exec.erase, Exec.erase_ok_eq, Exec.erase_panic_eq]

theorem get_rmap_value_exec_erase (c : Config) (pa : Nat) (s : State) :
    (get_rmap_value_exec c pa s).erase = get_rmap_value c pa s := by
  unfold get_rmap_value_exec get_rmap_value
  split <;> rfl

theorem set_rmap_value_exec_erase (c : Config) (pa : Nat) (value : Int) (s : State) :
    (set_rmap_value_exec c pa value s).erase = set_rmap_value c pa value s := by
  unfold set_rmap_value_exec set_rmap_value
  split <;> rfl

theorem add_memshared_pte_exec_erase (c : Config) (pa index pte : Nat) (s : State) :
    (add_memshared_pte_exec c pa index pte s).erase = add_memshared_pte c pa index pte s := by
  unfold add_memshared_pte_exec add_memshared_pte
  split <;> rfl

theorem get_page_exec_erase (k : Collab) (p : Nat) (s : State) :
    (get_page_exec k p s).erase = get_page k p s := by
  unfold get_page_exec get_page
  simp only
  split
  · rfl
  · split <;> rfl

theorem swap_out_exec_erase (c : Config) (k : Collab) (s : State) :
    (swap_out_exec c k s).erase = swap_out c k s := by
  have hg := get_page_exec_erase k (k.get_victim_proc s)
      { use_lock := s.use_lock, num_free_pages := s.num_free_pages, freelist := s.freelist,
        rmap := s.rmap, shared_ptes := s.shared_ptes, swapblock := s.swapblock, mem := s.mem,
        ptes := s.ptes, disk := s.disk,
        rss := Function.update s.rss (k.get_victim_proc s) (s.rss (k.get_victim_proc s) - 4096),
        pgdir := s.pgdir, cur := s.cur, cr2 := s.cr2, cr3 := s.cr3,
        trace := s.trace ++ [Event.get_victim_proc] }
  unfold swap_out_exec swap_out
  simp only
  rw [← hg]
  cases hr : get_page_exec k (k.get_victim_proc s)
      { use_lock := s.use_lock, num_free_pages := s.num_free_pages, freelist := s.freelist,
        rmap := s.rmap, shared_ptes := s.shared_ptes, swapblock := s.swapblock, mem := s.mem,
        ptes := s.ptes, disk := s.disk,
        rss := Function.update s.rss (k.get_victim_proc s) (s.rss (k.get_victim_proc s) - 4096),
        pgdir := s.pgdir, cur := s.cur, cr2 := s.cr2, cr3 := s.cr3,
        trace := s.trace ++ [Event.get_victim_proc] } with
  | panic p st => rfl
  | outOfFuel => rfl
  | ok r =>
    obtain ⟨vp, s2⟩ := r
    simp only [Exec.erase_ok_eq]
    by_cases hi : scan_free_slot s2.swapblock (nslots c) 0 = nslots c
    · rw [if_pos hi, if_pos hi]; rfl
    · rw [if_neg hi, if_neg hi]
      by_cases hpa : pa_out_of_range c (PTE_ADDR (s2.ptes vp))
      · simp only [page_to_disk, get_rmap_value_exec, get_rmap_value, hpa, if_true]
        rfl
      · simp only [page_to_disk, get_rmap_value_exec, get_rmap_value, hpa, if_false,
          set_rmap_value_exec, set_rmap_value]
        exact kfree_exec_erase c _ _

theorem kalloc_exec_erase (c : Config) (k : Collab) :
    ∀ (fuel : Nat) (s : State), (kalloc_exec c k fuel s).erase = kalloc c k fuel s := by
  intro fuel
  induction fuel with
  | zero => intro s; rfl
  | succ fuel ih =>
    intro s
    rw [kalloc_exec, kalloc]
    by_cases h0 : s.freelist ≠ 0
    · rw [if_pos h0, if_pos h0]
      by_cases hr : pa_out_of_range c (V2P c s.freelist)
      · simp only [set_rmap_value_no_lock_exec, set_rmap_value_no_lock, hr, if_true]
        rfl
      · simp only [set_rmap_value_no_lock_exec, set_rmap_value_no_lock, hr, if_false]
        rfl
    · rw [if_neg h0, if_neg h0]
      have hs := swap_out_exec_erase c k s
      cases hr : swap_out_exec c k s with
      | panic p st => rw [hr] at hs; rw [← hs]; rfl
      | outOfFuel => rw [hr] at hs; rw [← hs]; rfl
      | ok s1 =>
        rw [hr] at hs
        rw [← hs]
        simp only [Exec.erase_ok_eq]
        exact ih s1

theorem walkpgdir_exec_no_alloc (c : Config) (k : Collab) (fuel : Nat) (s : State) :
    walkpgdir_exec c k fuel (s.pgdir s.cur) s.cr2 0 s = .ok (fault_pte c s, s) := by
  unfold walkpgdir_exec fault_pte
  by_cases h : s.ptes ((s.pgdir s.cur + 4 * PDX s.cr2) % U32) &&& PTE_P ≠ 0
  · rw [if_pos h, if_pos h]
  · rw [if_neg h, if_neg h, if_pos rfl]

theorem swap_in_loop_exec_erase (c : Config) (row : Nat → Nat) (pte pa : Nat) :
    ∀ (n i : Nat) (s : State),
      (swap_in_loop_exec c row pte pa n i s).erase = swap_in_loop c row pte pa n i s := by
  intro n
  induction n with
  | zero => intro i s; rfl
  | succ n ih =>
    intro i s
    rw [swap_in_loop_exec, swap_in_loop]
    by_cases h0 : row i ≠ 0
    · rw [if_pos h0, if_pos h0]
      by_cases hr : pa_out_of_range c pa
      · simp only [add_memshared_pte_exec, add_memshared_pte, hr, if_true]
        rfl
      · simp only [add_memshared_pte_exec, add_memshared_pte, hr, if_false]
        exact ih _ _
    · rw [if_neg h0, if_neg h0]
      exact ih _ _

theorem handle_page_write_off_exec_erase (c : Config) (k : Collab) (fuel : Nat) (s : State) :
    (handle_page_write_off_exec c k fuel s).erase = handle_page_write_off c k fuel s := by
  unfold handle_page_write_off_exec handle_page_write_off
  simp only [walkpgdir_exec_no_alloc, walkpgdir_fault]
  by_cases hP : s.ptes (fault_pte c s) &&& PTE_P ≠ 0
  · rw [if_pos hP, if_pos hP]
    by_cases hW : PTE_W &&& s.ptes (fault_pte c s) ≠ 0
    · rw [if_pos hW, if_pos hW]; rfl
    · rw [if_neg hW, if_neg hW]
      by_cases hpa : pa_out_of_range c (PTE_ADDR (s.ptes (fault_pte c s)))
      · simp only [get_rmap_value_exec, get_rmap_value, hpa, if_true]
        rfl
      · simp only [get_rmap_value_exec, get_rmap_value, hpa, if_false]
        by_cases h1 : toU32 (s.rmap (PTE_ADDR (s.ptes (fault_pte c s)) >>> PTXSHIFT)) < 1
        · rw [if_pos h1, if_pos h1]; rfl
        · rw [if_neg h1, if_neg h1]
          by_cases h2 : toU32 (s.rmap (PTE_ADDR (s.ptes (fault_pte c s)) >>> PTXSHIFT)) = 1
          · rw [if_pos h2, if_pos h2]; rfl
          · rw [if_neg h2, if_neg h2]
            have hk := kalloc_exec_erase c k fuel s
            cases hr : kalloc_exec c k fuel s with
            | panic p st => rw [hr] at hk; rw [← hk]; rfl
            | outOfFuel => rw [hr] at hk; rw [← hk]; rfl
            | ok r =>
              obtain ⟨mem, s1⟩ := r
              rw [hr] at hk
              rw [← hk]
              simp only [Exec.erase_ok_eq]
              by_cases hm : mem = 0
              · rw [if_pos hm, if_pos hm]; rfl
              · rw [if_neg hm, if_neg hm]
                have hf := kfree_exec_erase c (P2V c (PTE_ADDR (s.ptes (fault_pte c s))))
                  (mem_remove_entry c (PTE_ADDR (s.ptes (fault_pte c s))) (fault_pte c s)
                    { s1 with mem := (memmove s1.mem mem
                        (P2V c (PTE_ADDR (s.ptes (fault_pte c s)))) PGSIZE) })
                cases hq : kfree_exec c (P2V c (PTE_ADDR (s.ptes (fault_pte c s))))
                  (mem_remove_entry c (PTE_ADDR (s.ptes (fault_pte c s))) (fault_pte c s)
                    { s1 with mem := (memmove s1.mem mem
                        (P2V c (PTE_ADDR (s.ptes (fault_pte c s)))) PGSIZE) }) with
                | panic p st => rw [hq] at hf; rw [← hf]; rfl
                | outOfFuel => rw [hq] at hf; rw [← hf]; rfl
                | ok s4 => rw [hq] at hf; rw [← hf]; rfl
  · rw [if_neg hP, if_neg hP]
    by_cases hS : s.ptes (fault_pte c s) &&& 0x008 = 0
    · rw [if_pos hS, if_pos hS]; rfl
    · rw [if_neg hS, if_neg hS]
      have hk := kalloc_exec_erase c k fuel
        { s with rss := Function.update s.rss s.cur (s.rss s.cur + 4096) }
      cases hr : kalloc_exec c k fuel
        { s with rss := Function.update s.rss s.cur (s.rss s.cur + 4096) } with
      | panic p st => rw [hr] at hk; rw [← hk]; rfl
      | outOfFuel => rw [hr] at hk; rw [← hk]; rfl
      | ok r =>
        obtain ⟨mem, s2⟩ := r
        rw [hr] at hk
        rw [← hk]
        simp only [Exec.erase_ok_eq]
        by_cases hpa : pa_out_of_range c (V2P c mem)
        · simp only [disk_to_page, set_rmap_value_exec, set_rmap_value, hpa, if_true]
          rfl
        · simp only [disk_to_page, set_rmap_value_exec, set_rmap_value, hpa, if_false]
          have hl := swap_in_loop_exec_erase c
          rw [← hl]
          generalize swap_in_loop_exec c _ _ _ _ _ _ = q
          cases q <;> rfl

theorem hpwo_exec_write_bit_on (c : Config) (k : Collab) (fuel : Nat) (s : State) (pte : Nat)
    (hpte : fault_pte c s = pte)
    (hP : s.ptes pte &&& PTE_P ≠ 0) (hW : s.ptes pte &&& PTE_W ≠ 0) :
    handle_page_write_off_exec c k fuel s = .panic .write_bit_already_on s := by
  unfold handle_page_write_off_exec
  simp only [walkpgdir_exec_no_alloc, hpte]
  rw [if_pos hP, if_pos (by rw [Nat.and_comm]; exact hW)]

theorem hpwo_exec_bad_count (c : Config) (k : Collab) (fuel : Nat) (s : State) (pte : Nat)
    (hpte : fault_pte c s = pte)
    (hP : s.ptes pte &&& PTE_P ≠ 0) (hW : s.ptes pte &&& PTE_W = 0)
    (hpa : ¬ pa_out_of_range c (PTE_ADDR (s.ptes pte)))
    (hr : toU32 (s.rmap (PTE_ADDR (s.ptes pte) >>> PTXSHIFT)) < 1) :
    handle_page_write_off_exec c k fuel s = .panic .incorrect_reference_count s := by
  unfold handle_page_write_off_exec
  simp only [walkpgdir_exec_no_alloc, hpte]
  rw [if_pos hP, if_neg (by rw [Nat.and_comm, hW]; simp)]
  simp only [get_rmap_value_exec, hpa, if_false]
  rw [if_pos hr]

theorem hpwo_exec_no_marker (c : Config) (k : Collab) (fuel : Nat) (s : State) (pte : Nat)
    (hpte : fault_pte c s = pte)
    (hNP : s.ptes pte &&& PTE_P = 0) (hS : s.ptes pte &&& 0x008 = 0) :
    handle_page_write_off_exec c k fuel s = .panic .no_swap_out_bit s := by
  unfold handle_page_write_off_exec
  simp only [walkpgdir_exec_no_alloc, hpte]
  rw [if_neg (by rw [hNP]; simp), if_pos hS]

theorem hpwo_other_returns (c : Config) (k : Collab) (fuel : Nat) (s : State) (pte : Nat)
    (hpte : fault_pte c s = pte)
    (hframe : s.ptes pte &&& PTE_P ≠ 0 → valid_pa c (PTE_ADDR (s.ptes pte)))
    (hm0 : s.freelist ≠ 0) (hmr : ¬ pa_out_of_range c (V2P c s.freelist))
    (hn : ¬ ((s.ptes pte &&& PTE_P ≠ 0 ∧ s.ptes pte &&& PTE_W ≠ 0) ∨
        (s.ptes pte &&& PTE_P ≠ 0 ∧ s.ptes pte &&& PTE_W = 0 ∧
          toU32 (s.rmap (PTE_ADDR (s.ptes pte) >>> PTXSHIFT)) < 1) ∨
        (s.ptes pte &&& PTE_P = 0 ∧ s.ptes pte &&& 0x008 = 0))) :
    ∃ s', handle_page_write_off c k (fuel + 1) s = .ok s' := by
  by_cases hP : s.ptes pte &&& PTE_P ≠ 0
  · have hW : s.ptes pte &&& PTE_W = 0 := by
      by_contra hW
      exact hn (Or.inl ⟨hP, hW⟩)
    have hr : ¬ toU32 (s.rmap (PTE_ADDR (s.ptes pte) >>> PTXSHIFT)) < 1 :=
      fun hr => hn (Or.inr (Or.inl ⟨hP, hW, hr⟩))
    by_cases h1 : toU32 (s.rmap (PTE_ADDR (s.ptes pte) >>> PTXSHIFT)) = 1
    · exact hpwo_last_returns c k _ s pte hpte hP hW (hframe hP).1 h1
    · exact hpwo_split_returns c k fuel s pte hpte hP hW (hframe hP).1 (hframe hP).2
        (by omega) hm0 hmr
  · have hNP : s.ptes pte &&& PTE_P = 0 := not_not.mp hP
    have hS : s.ptes pte &&& 0x008 ≠ 0 := fun hS => hn (Or.inr (Or.inr ⟨hNP, hS⟩))
    exact ⟨_, hpwo_swap_in c k fuel s pte hpte hNP hS hm0 hmr⟩

/-- C19.  `kfree v` panics if and only if `v` is not a multiple of 4096, or `v` is
below `end`, or `V2P(v) >= PHYSTOP`.  The statement is about `kfree_exec`, which
carries the machine state to the `panic` and agrees with `kfree` once that state
is forgotten: when `kfree` panics, the state at the panic is the state at entry
(so `rmap`, the free list and `num_free_pages` are unmodified), and for every
other `v` it returns. -/
theorem kfree_panics_iff (c : Config) (v : Nat) (s : State) :
    (kfree_exec c v s).erase = kfree c v s ∧
    ((∃ p st, kfree_exec c v s = .panic p st) ↔
      (v % PGSIZE ≠ 0 ∨ v < c.kend ∨ V2P c v ≥ c.PHYSTOP)) ∧
    ((v % PGSIZE ≠ 0 ∨ v < c.kend ∨ V2P c v ≥ c.PHYSTOP) →
      kfree_exec c v s = .panic .kfree s) ∧
    (∀ p st, kfree_exec c v s = .panic p st →
      st = s ∧ st.rmap = s.rmap ∧ st.freelist = s.freelist ∧
      st.num_free_pages = s.num_free_pages) ∧
    (¬ (v % PGSIZE ≠ 0 ∨ v < c.kend ∨ V2P c v ≥ c.PHYSTOP) →
      ∃ s', kfree_exec c v s = .ok s' ∧ kfree c v s = .ok s') ∧
    ((∃ p, kfree c v s = .panic p) ↔ (v % PGSIZE ≠ 0 ∨ v < c.kend ∨ V2P c v ≥ c.PHYSTOP)) := by
  have hbad : (v % PGSIZE ≠ 0 ∨ v < c.kend ∨ V2P c v ≥ c.PHYSTOP) ↔ kfree_bad c v := Iff.rfl
  have hag := kfree_exec_erase c v s
  have h1 : kfree_bad c v → kfree_exec c v s = .panic .kfree s := by
    intro h; unfold kfree_exec; rw [if_pos h]
  have h2 : ¬ kfree_bad c v → ∃ s', kfree_exec c v s = .ok s' ∧ kfree c v s = .ok s' := by
    intro h
    obtain ⟨s', hs⟩ := kfree_returns c v s (by rw [kfree_bad_iff] at h; exact not_not.mp h)
    exact ⟨s', Exec.erase_ok _ _ (by rw [hag]; exact hs), hs⟩
  have h3 : (∃ p st, kfree_exec c v s = .panic p st) → kfree_bad c v := by
    rintro ⟨p, st, hp⟩
    by_contra hc
    obtain ⟨s', hs, _⟩ := h2 hc
    rw [hs] at hp
    cases hp
  refine ⟨hag, ⟨fun h => hbad.mpr (h3 h), fun h => ⟨_, _, h1 (hbad.mp h)⟩⟩,
    fun h => h1 (hbad.mp h), ?_, fun h => h2 (fun hb => h (hbad.mpr hb)), ?_⟩
  · intro p st hp
    have hb := h3 ⟨p, st, hp⟩
    rw [h1 hb] at hp
    injection hp with _ hst
    subst hst
    exact ⟨rfl, rfl, rfl, rfl⟩
  · constructor
    · rintro ⟨p, hp⟩
      rw [← hag] at hp
      obtain ⟨st, hst⟩ := Exec.erase_panic _ _ hp
      exact hbad.mpr (h3 ⟨p, st, hst⟩)
    · intro h
      refine ⟨.kfree, ?_⟩
      rw [← hag, h1 (hbad.mp h)]
      rfl

/-- C19 at concrete frames: an unaligned address panics with the state as it was
at entry, an aligned frame of the managed range is accepted. -/
theorem kfree_panics_iff_witness :
    (kfree_exec cfg0 (frameA + 1) st_blank = .panic .kfree st_blank) ∧
    (∃ s', kfree_exec cfg0 frameA st_blank = .ok s' ∧ kfree cfg0 frameA st_blank = .ok s') :=
  ⟨(kfree_panics_iff cfg0 (frameA + 1) st_blank).2.2.1 (by decide),
   (kfree_panics_iff cfg0 frameA st_blank).2.2.2.2.1 (by decide)⟩

/-- C18.  Panics of `handle_page_write_off`.  The faulting entry is `pte`; when it
is present its frame address is in the managed range, and the free list is
non-empty.  The statement is about `handle_page_write_off_exec`, which carries
the machine state to the `panic` and agrees with `handle_page_write_off` once
that state is forgotten.  The handler panics in exactly three cases:
(a) `PTE_P` and `PTE_W` both set; (b) `PTE_P` set, `PTE_W` clear and the
reference count read by `get_rmap_value` (a `uint`, equal to the `int` in `rmap`
when that is not negative) below 1; (c) `PTE_P` clear and bit `0x008` clear.
Whenever it panics, the state at the panic is the state at entry: no allocator,
swap-store, page-table or `rss` state has been modified.  In every other case it
returns. -/
theorem write_fault_panics (c : Config) (k : Collab) (fuel : Nat) (s : State) (pte : Nat)
    (hpte : fault_pte c s = pte)
    (hframe : s.ptes pte &&& PTE_P ≠ 0 → valid_pa c (PTE_ADDR (s.ptes pte)))
    (hm0 : s.freelist ≠ 0) (hmr : ¬ pa_out_of_range c (V2P c s.freelist)) :
    (handle_page_write_off_exec c k (fuel + 1) s).erase
      = handle_page_write_off c k (fuel + 1) s ∧
    ((∃ p st, handle_page_write_off_exec c k (fuel + 1) s = .panic p st) ↔
      ((s.ptes pte &&& PTE_P ≠ 0 ∧ s.ptes pte &&& PTE_W ≠ 0) ∨
       (s.ptes pte &&& PTE_P ≠ 0 ∧ s.ptes pte &&& PTE_W = 0 ∧
          toU32 (s.rmap (PTE_ADDR (s.ptes pte) >>> PTXSHIFT)) < 1) ∨
       (s.ptes pte &&& PTE_P = 0 ∧ s.ptes pte &&& 0x008 = 0))) ∧
    (s.ptes pte &&& PTE_P ≠ 0 ∧ s.ptes pte &&& PTE_W ≠ 0 →
      handle_page_write_off_exec c k (fuel + 1) s = .panic .write_bit_already_on s) ∧
    (s.ptes pte &&& PTE_P ≠ 0 ∧ s.ptes pte &&& PTE_W = 0 ∧
        toU32 (s.rmap (PTE_ADDR (s.ptes pte) >>> PTXSHIFT)) < 1 →
      handle_page_write_off_exec c k (fuel + 1) s = .panic .incorrect_reference_count s) ∧
    (s.ptes pte &&& PTE_P = 0 ∧ s.ptes pte &&& 0x008 = 0 →
      handle_page_write_off_exec c k (fuel + 1) s = .panic .no_swap_out_bit s) ∧
    (∀ p st, handle_page_write_off_exec c k (fuel + 1) s = .panic p st →
      st = s ∧ st.rmap = s.rmap ∧ st.freelist = s.freelist ∧
      st.num_free_pages = s.num_free_pages ∧ st.shared_ptes = s.shared_ptes ∧
      st.mem = s.mem ∧ st.swapblock = s.swapblock ∧ st.disk = s.disk ∧
      st.ptes = s.ptes ∧ st.rss = s.rss) ∧
    (¬ ((s.ptes pte &&& PTE_P ≠ 0 ∧ s.ptes pte &&& PTE_W ≠ 0) ∨
        (s.ptes pte &&& PTE_P ≠ 0 ∧ s.ptes pte &&& PTE_W = 0 ∧
          toU32 (s.rmap (PTE_ADDR (s.ptes pte) >>> PTXSHIFT)) < 1) ∨
        (s.ptes pte &&& PTE_P = 0 ∧ s.ptes pte &&& 0x008 = 0)) →
      ∃ s', handle_page_write_off_exec c k (fuel + 1) s = .ok s' ∧
        handle_page_write_off c k (fuel + 1) s = .ok s') ∧
    (0 ≤ s.rmap (PTE_ADDR (s.ptes pte) >>> PTXSHIFT) →
      s.rmap (PTE_ADDR (s.ptes pte) >>> PTXSHIFT) < 2147483648 →
      (toU32 (s.rmap (PTE_ADDR (s.ptes pte) >>> PTXSHIFT)) < 1 ↔
        s.rmap (PTE_ADDR (s.ptes pte) >>> PTXSHIFT) < 1)) := by
  have hag := handle_page_write_off_exec_erase c k (fuel + 1) s
  have ha : s.ptes pte &&& PTE_P ≠ 0 ∧ s.ptes pte &&& PTE_W ≠ 0 →
      handle_page_write_off_exec c k (fuel + 1) s = .panic .write_bit_already_on s :=
    fun h => hpwo_exec_write_bit_on c k _ s pte hpte h.1 h.2
  have hb : s.ptes pte &&& PTE_P ≠ 0 ∧ s.ptes pte &&& PTE_W = 0 ∧
        toU32 (s.rmap (PTE_ADDR (s.ptes pte) >>> PTXSHIFT)) < 1 →
      handle_page_write_off_exec c k (fuel + 1) s = .panic .incorrect_reference_count s :=
    fun h => hpwo_exec_bad_count c k _ s pte hpte h.1 h.2.1 (hframe h.1).1 h.2.2
  have hc : s.ptes pte &&& PTE_P = 0 ∧ s.ptes pte &&& 0x008 = 0 →
      handle_page_write_off_exec c k (fuel + 1) s = .panic .no_swap_out_bit s :=
    fun h => hpwo_exec_no_marker c k _ s pte hpte h.1 h.2
  have hd : ¬ ((s.ptes pte &&& PTE_P ≠ 0 ∧ s.ptes pte &&& PTE_W ≠ 0) ∨
        (s.ptes pte &&& PTE_P ≠ 0 ∧ s.ptes pte &&& PTE_W = 0 ∧
          toU32 (s.rmap (PTE_ADDR (s.ptes pte) >>> PTXSHIFT)) < 1) ∨
        (s.ptes pte &&& PTE_P = 0 ∧ s.ptes pte &&& 0x008 = 0)) →
      ∃ s', handle_page_write_off_exec c k (fuel + 1) s = .ok s' ∧
        handle_page_write_off c k (fuel + 1) s = .ok s' := by
    intro hn
    obtain ⟨s', hs⟩ := hpwo_other_returns c k fuel s pte hpte hframe hm0 hmr hn
    exact ⟨s', Exec.erase_ok _ _ (by rw [hag]; exact hs), hs⟩
  have hcases : (∃ p st, handle_page_write_off_exec c k (fuel + 1) s = .panic p st) →
      ((s.ptes pte &&& PTE_P ≠ 0 ∧ s.ptes pte &&& PTE_W ≠ 0) ∨
       (s.ptes pte &&& PTE_P ≠ 0 ∧ s.ptes pte &&& PTE_W = 0 ∧
          toU32 (s.rmap (PTE_ADDR (s.ptes pte) >>> PTXSHIFT)) < 1) ∨
       (s.ptes pte &&& PTE_P = 0 ∧ s.ptes pte &&& 0x008 = 0)) := by
    rintro ⟨p, st, hp⟩
    by_contra hn
    obtain ⟨s', hs, _⟩ := hd hn
    rw [hs] at hp
    cases hp
  refine ⟨hag, ⟨hcases, ?_⟩, ha, hb, hc, ?_, hd, ?_⟩
  · rintro (h | h | h)
    · exact ⟨_, _, ha h⟩
    · exact ⟨_, _, hb h⟩
    · exact ⟨_, _, hc h⟩
  · intro p st hp
    have hst : st = s := by
      rcases hcases ⟨p, st, hp⟩ with h | h | h
      · rw [ha h] at hp; injection hp with _ e; exact e.symm
      · rw [hb h] at hp; injection hp with _ e; exact e.symm
      · rw [hc h] at hp; injection hp with _ e; exact e.symm
    subst hst
    exact ⟨rfl, rfl, rfl, rfl, rfl, rfl, rfl, rfl, rfl, rfl⟩
  · intro h0 h1
    rw [toU32_of_nonneg _ h0 (by omega)]
    omega

/-- C18 at concrete states: the read-only shared entry of `st_cow` is served; the
writable entry of `st_writable` panics with the state as it was at entry. -/
theorem write_fault_panics_witness :
    (∃ s', handle_page_write_off_exec cfg0 collab0 1 st_cow = .ok s' ∧
      handle_page_write_off cfg0 collab0 1 st_cow = .ok s') ∧
    handle_page_write_off_exec cfg0 collab0 1 st_writable
      = .panic .write_bit_already_on st_writable :=
  ⟨(write_fault_panics cfg0 collab0 0 st_cow 0x80701004 (by decide) (fun _ => by decide)
      (by decide) (by decide)).2.2.2.2.2.2.1 (by decide),
   (write_fault_panics cfg0 collab0 0 st_writable 0x80701004 (by decide) (fun _ => by decide)
      (by decide) (by decide)).2.2.1 (by decide)⟩

end Xv6Cow
